import Mathlib

/-!
Verification of the sec-narrative-drift pipeline (scripts/sec_metrics.py,
scripts/sec_quality.py, scripts/sec_extract_item1a.py,
scripts/sec_fetch_and_build.py, scripts/build_canonical_terms.py) against its
natural-language specification.

Modelling conventions, used throughout:

* Python floats are modelled as exact real numbers (and, where a computation
  stays rational, as exact rationals).  Decimal literals of the source such as
  0.5, 0.01 or 0.08 are modelled as the exact rationals 1/2, 1/100, 8/100.
* Python strings are modelled as Lean strings / lists of characters.  The
  character classes of the CPython regular-expression engine and of the str
  methods (isalnum, isspace, lower, strip) are modelled on the ASCII range
  plus the specific non-ASCII punctuation characters the sources mention;
  this is the alphabet all concrete inputs below live in.
* round(x, 2) is modelled as exact round-half-to-even on reals (bankRound).
* The Mersenne-Twister generator random.Random(13) is modelled as an abstract
  stream of naturals (Rng); random.choices over a population of size n draws
  an index in [0, n) from the stream (value mod n).  All theorems about the
  bootstrap either hold for every stream or concern inputs on which the
  result does not depend on the stream (singleton populations).
* sklearn TfidfVectorizer / cosine_similarity are modelled by their
  documented semantics: token pattern of two or more ASCII letters delimited
  by word boundaries, english stop words, smooth idf ln((1+n)/(1+df))+1,
  row l2-normalisation with zero rows kept at zero, and the dot product of
  normalised rows.  An empty fitted vocabulary raises, which is modelled by
  an Except value.
-/

/-! ## Generic numeric helpers -/

/-- Round-half-to-even of an exact value, the rounding mode of Python round
on floats (modelled on exact values, away from representation error). -/
def bankRound {α : Type} [LinearOrderedField α] [FloorRing α] (x : α) : ℤ :=
  if x - (⌊x⌋ : α) < 1/2 then ⌊x⌋
  else if 1/2 < x - (⌊x⌋ : α) then ⌊x⌋ + 1
  else if 2 ∣ ⌊x⌋ then ⌊x⌋ else ⌊x⌋ + 1

/-- round(value, 2) from the sources (round_value in sec_metrics.py line 519,
and the literal round(x, 2) calls): round to two decimal digits. -/
def round2 {α : Type} [LinearOrderedField α] [FloorRing α] (x : α) : α :=
  ((bankRound (x * 100) : ℤ) : α) / 100

/-- Python int() truncation toward zero on an exact rational. -/
def pyTrunc (q : ℚ) : ℤ := if 0 ≤ q then ⌊q⌋ else ⌈q⌉

/-- Ascending sort, the model of Python sorted() on numbers. -/
def pySorted {α : Type} [LinearOrder α] (l : List α) : List α :=
  l.mergeSort (fun a b => decide (a ≤ b))

/-- percentile(values, pct) from sec_metrics.py lines 506-516: linear
interpolation between the two adjacent order statistics. -/
def percentile {α : Type} [LinearOrderedField α] (values : List α) (pct : ℚ) :
    Option α :=
  if values = [] then none
  else
    let s := pySorted values
    let index : ℚ := ((values.length : ℤ) - 1) * (pct / 100)
    let lower : ℤ := ⌊index⌋
    let upper : ℤ := ⌈index⌉
    if lower = upper then some (s.getD (pyTrunc index).toNat 0)
    else
      let fraction : ℚ := index - (lower : ℚ)
      some (s.getD lower.toNat 0 * (1 - (fraction : α)) +
        s.getD upper.toNat 0 * (fraction : α))

/-- The interpolation value percentile reads at index t of a sorted list:
the convex combination of the order statistics at the floor and the
ceiling of t. -/
def valAt {α : Type} [LinearOrderedField α] (s : List α) (t : ℚ) : α :=
  s.getD ⌊t⌋.toNat 0 * (1 - ((t - (⌊t⌋ : ℚ) : ℚ) : α)) +
    s.getD ⌈t⌉.toNat 0 * ((t - (⌊t⌋ : ℚ) : ℚ) : α)

/-! ## Python character classes and string helpers (ASCII model) -/

/-- Model of the Python whitespace class (str.isspace, regex backslash-s)
on the ASCII range. -/
def pyIsSpaceChar (c : Char) : Bool :=
  c = ' ' || c = '\t' || c = '\n' || c = '\x0d' || c = '\x0b' || c = '\x0c'

/-- Model of Python str.isalnum on the ASCII range. -/
def pyIsAlnumChar (c : Char) : Bool := c.isAlphanum

/-- Model of the regex word class (backslash-w) on the ASCII range:
alphanumeric or underscore. -/
def pyIsWordChar (c : Char) : Bool := c.isAlphanum || c = '_'

/-- ASCII letter. -/
def isAsciiLetter (c : Char) : Bool := c.isAlpha

/-- Python str.lower, ASCII model (explicit table, equal to Char.toLower on
the ASCII range). -/
def pyLowerChar (c : Char) : Char :=
  match c with
  | 'A' => 'a' | 'B' => 'b' | 'C' => 'c' | 'D' => 'd' | 'E' => 'e'
  | 'F' => 'f' | 'G' => 'g' | 'H' => 'h' | 'I' => 'i' | 'J' => 'j'
  | 'K' => 'k' | 'L' => 'l' | 'M' => 'm' | 'N' => 'n' | 'O' => 'o'
  | 'P' => 'p' | 'Q' => 'q' | 'R' => 'r' | 'S' => 's' | 'T' => 't'
  | 'U' => 'u' | 'V' => 'v' | 'W' => 'w' | 'X' => 'x' | 'Y' => 'y'
  | 'Z' => 'z'
  | _ => c

/-- Python str.strip() on a character list. -/
def pyStripChars (cs : List Char) : List Char :=
  ((cs.dropWhile pyIsSpaceChar).reverse.dropWhile pyIsSpaceChar).reverse

/-- Python str.strip() on strings. -/
def pyStrip (s : String) : String := String.mk (pyStripChars s.toList)

/-- One pass of re.sub(r"\s+", " ", _): every maximal whitespace run becomes
a single space.  The flag records whether the previous character was part of
a whitespace run. -/
def collapseWsGo : Bool → List Char → List Char
  | _, [] => []
  | inRun, c :: rest =>
    if pyIsSpaceChar c then
      if inRun then collapseWsGo true rest else ' ' :: collapseWsGo true rest
    else c :: collapseWsGo false rest

/-- re.sub(r"\s+", " ", cs). -/
def collapseWs (cs : List Char) : List Char := collapseWsGo false cs

/-- Worker for Python str.split(): acc holds the current word reversed. -/
def pyWordsAux : List Char → List Char → List (List Char)
  | [], acc => if acc.isEmpty then [] else [acc.reverse]
  | c :: rest, acc =>
    if pyIsSpaceChar c then
      if acc.isEmpty then pyWordsAux rest []
      else acc.reverse :: pyWordsAux rest []
    else pyWordsAux rest (c :: acc)

/-- Python str.split() (split on whitespace runs, no empty parts). -/
def pyWords (cs : List Char) : List (List Char) := pyWordsAux cs []

/-- " ".join(words). -/
def joinWords : List (List Char) → List Char
  | [] => []
  | [w] => w
  | w :: rest => w ++ ' ' :: joinWords rest

/-! ## The two term normalizers (sec_metrics.py lines 285-290 and
build_canonical_terms.py lines 82-89) -/

namespace SecMetrics

/-- HYPHEN_CLASS from sec_metrics.py line 21: ASCII hyphen, the Unicode
hyphen/dash family, the minus sign, the ASCII apostrophe and the curly
single quotes. -/
def hyphenClassChars : List Char :=
  ['-', '‐', '‑', '‒', '–', '—', '−',
   '\'', '‘', '’']

/-- normalize_canonical_term from sec_metrics.py lines 285-290: lower-case,
replace every HYPHEN_CLASS character by a space (re.sub), delete every
character that is neither a word character nor whitespace (re.sub of
the class complement of backslash-w backslash-s), collapse whitespace runs
to single spaces and strip. -/
def normalize_canonical_term (value : String) : String :=
  let lowered := value.toList.map pyLowerChar
  let dashed := lowered.map (fun c => if c ∈ hyphenClassChars then ' ' else c)
  let kept := dashed.filter (fun c => pyIsWordChar c || pyIsSpaceChar c)
  String.mk (pyStripChars (collapseWs kept))

end SecMetrics

namespace BuildCanonical

/-- normalize_variant from build_canonical_terms.py lines 82-89: lower-case,
replace the three dash characters "-", en dash and em dash by spaces
(str.replace), keep only characters that are alphanumeric, whitespace or
underscore, then " ".join(value.split()) and strip. -/
def normalize_variant (value : String) : String :=
  let lowered := value.toList.map pyLowerChar
  let dashed := lowered.map
    (fun c => if c = '-' || c = '–' || c = '—' then ' ' else c)
  let kept := dashed.filter
    (fun c => pyIsAlnumChar c || pyIsSpaceChar c || c = '_')
  String.mk (joinWords (pyWords kept))

end BuildCanonical

/-- The characters on which the two dash/punctuation treatments of
normalize_canonical_term and normalize_variant differ: the members of
HYPHEN_CLASS (sec_metrics.py) that are not among the three dash characters
replaced by normalize_variant (build_canonical_terms.py). -/
def extraNormalizerChars : List Char :=
  ['‐', '‑', '‒', '−', '\'', '‘', '’']


/-! ## Section splitting (sec_extract_item1a.py) and the fetch-and-build
low-confidence gate (sec_fetch_and_build.py) -/

namespace SecExtract

/-- Worker for re.split(r"\n\x7b2,\x7d", text): chunks are separated by
maximal runs of two or more newlines; a single newline stays inside its
chunk.  acc holds the current chunk reversed, nl counts pending newlines. -/
def splitBlankGo : List Char → List Char → ℕ → List (List Char)
  | [], acc, nl =>
    if 2 ≤ nl then [acc.reverse, []]
    else [(List.replicate nl '\n' ++ acc).reverse]
  | c :: rest, acc, nl =>
    if c = '\n' then splitBlankGo rest acc (nl + 1)
    else if 2 ≤ nl then acc.reverse :: splitBlankGo rest [c] 0
    else splitBlankGo rest (c :: (List.replicate nl '\n' ++ acc)) 0

/-- split_paragraphs from sec_extract_item1a.py lines 104-106: split on runs
of two or more newlines, strip each chunk, drop empties, keep chunks of at
least min_chars characters. -/
def split_paragraphs (text : String) (min_chars : ℕ := 200) : List String :=
  let chunks := splitBlankGo text.toList [] 0
  let paragraphs := (chunks.map pyStripChars).filter (fun c => !c.isEmpty)
  ((paragraphs.filter (fun p => min_chars ≤ p.length)).map String.mk)

end SecExtract

namespace SecFetch

/-- ensure_low_confidence from sec_fetch_and_build.py lines 682-685. -/
def ensure_low_confidence (errors : List String) : List String :=
  if "low_confidence_item1a" ∈ errors then errors
  else errors ++ ["low_confidence_item1a"]

/-- The tuple returned by extract_item1a_from_html (HTML parsing itself is
outside this model; results of that call are taken as inputs). -/
structure InnerExtract where
  sectionText : String
  confidence : ℚ
  method : String
  warnings : List String

/-- The tuple returned by extract_item1a_from_html_bytes. -/
structure BytesExtract where
  sectionText : String
  paragraphs : List String
  confidence : ℚ
  method : String
  warnings : List String

/-- extract_item1a_from_html_bytes from sec_fetch_and_build.py lines
688-699, with the result of the inner extract_item1a_from_html call passed
in as inner: build the warning list from extra_warnings plus the inner
warnings, split the section into paragraphs when non-empty, and when the
confidence is below 0.5 or the stripped section text is empty return an
empty extraction whose warnings always carry low_confidence_item1a. -/
def extract_item1a_from_html_bytes (inner : InnerExtract)
    (extra_warnings : Option (List String)) : BytesExtract :=
  let warning_list :=
    (match extra_warnings with
      | some l => if l.isEmpty then [] else l
      | none => []) ++ inner.warnings
  let paragraphs :=
    if inner.sectionText ≠ "" then SecExtract.split_paragraphs inner.sectionText
    else []
  if inner.confidence < 1/2 ∨ pyStrip inner.sectionText = "" then
    ⟨"", [], inner.confidence, inner.method, ensure_low_confidence warning_list⟩
  else
    ⟨inner.sectionText, paragraphs, inner.confidence, inner.method,
      warning_list⟩

/-- build_missing_extraction from sec_fetch_and_build.py lines 702-704
(the missing-document case). -/
def build_missing_extraction : BytesExtract :=
  ⟨"", [], 0, "no_html", ensure_low_confidence ["html_missing"]⟩

end SecFetch


/-! ## The canonical-terms compiler (build_canonical_terms.py) -/

namespace BuildCanonical

/-- A parsed YAML value (the Any of the source; dict keys are values so
that the key checks of as_str_dict can be modelled). -/
inductive YVal where
  | str (s : String)
  | int (n : ℤ)
  | float (q : ℚ)
  | bool (b : Bool)
  | null
  | list (xs : List YVal)
  | dict (entries : List (YVal × YVal))

/-- NOISE_TOKENS from build_canonical_terms.py line 13. -/
def NOISE_TOKENS : List String := ["mr", "ms", "mrs", "dr"]

/-- WHITELIST_SHORT_TOKENS from build_canonical_terms.py line 14. -/
def WHITELIST_SHORT_TOKENS : List String :=
  ["ai", "us", "uk", "eu", "ip", "llm", "llms"]

/-- Key check worker of as_str_dict. -/
def asStrDictGo : List (YVal × YVal) → Option (List (String × YVal))
  | [] => some []
  | (k, item) :: rest =>
    match k with
    | .str ks => (asStrDictGo rest).map (fun tl => (ks, item) :: tl)
    | _ => none

/-- as_str_dict (lines 36-45): a mapping all of whose keys are strings. -/
def as_str_dict (v : YVal) : Option (List (String × YVal)) :=
  match v with
  | .dict entries => asStrDictGo entries
  | _ => none

/-- as_list (lines 48-51). -/
def as_list (v : YVal) : Option (List YVal) :=
  match v with
  | .list xs => some xs
  | _ => none

/-- Python dict.get on a string-keyed mapping. -/
def dget (m : List (String × YVal)) (k : String) : Option YVal := m.lookup k

/-- Python dict assignment d[k] = v: overwrite in place or append. -/
def dinsertStr (m : List (String × String)) (k v : String) :
    List (String × String) :=
  if m.any (fun p => p.1 = k) then
    m.map (fun p => if p.1 = k then (k, v) else p)
  else m ++ [(k, v)]

/-- token_count (lines 91-94). -/
def token_count (value : String) : ℕ :=
  if value = "" then 0 else (pyWords value.toList).length

/-- The sort key of sort_variants (lines 97-101): descending token count,
then descending length, then the string itself ascending. -/
def variantKeyLe (a b : String) : Bool :=
  if token_count a ≠ token_count b then token_count b < token_count a
  else if a.length ≠ b.length then b.length < a.length
  else a ≤ b

/-- sort_variants (lines 97-101). -/
def sort_variants (variants : List String) : List String :=
  variants.mergeSort variantKeyLe

/-- validate_variant (lines 112-140), with the error and warning lists
passed and returned explicitly (the source mutates them in place). -/
def validate_variant (raw : YVal) (concept_id : String)
    (errors warnings : List String) :
    Option String × List String × List String :=
  match raw with
  | .str s =>
    let trimmed := pyStrip s
    if trimmed = "" then
      (none, errors ++ [concept_id ++ ": variant is empty"], warnings)
    else
      let normalized := normalize_variant trimmed
      if normalized = "" then
        (none,
          errors ++ [concept_id ++ ": variant normalizes to empty (" ++ s ++ ")"],
          warnings)
      else if !(normalized.toList.any (fun c => c.isAlpha)) then
        (none,
          errors ++ [concept_id ++ ": variant must include letters (" ++ s ++ ")"],
          warnings)
      else if normalized ∈ NOISE_TOKENS then
        (none,
          errors ++ [concept_id ++ ": noise token not allowed (" ++ normalized ++ ")"],
          warnings)
      else if normalized.length < 3 ∧ normalized ∉ WHITELIST_SHORT_TOKENS then
        (none,
          errors ++
            [concept_id ++ ": short token not whitelisted (" ++ normalized ++ ")"],
          warnings)
      else if 5 < token_count normalized then
        (some normalized, errors,
          warnings ++ [concept_id ++ ": variant has >5 tokens (" ++ normalized ++ ")"])
      else (some normalized, errors, warnings)
  | _ => (none, errors ++ [concept_id ++ ": variant must be a string"], warnings)

/-- A compiled conditional variant. -/
structure ConditionalOut where
  variant : String
  condition : YVal

/-- A compiled concept of the output JSON. -/
structure ConceptOut where
  id : String
  label : String
  variants : List String
  notes : Option String
  conditionalVariants : List ConditionalOut

/-- The compiled output of compile_terms (lines 290-297); the constant
whitelist/noise/normalization fields are left implicit. -/
structure CompiledOutput where
  version : YVal
  concepts : List ConceptOut
  variantToConcept : List (String × String)

/-- State of the plain-variants loop of compile_terms (lines 184-205). -/
structure VarState where
  errors : List String
  warnings : List String
  seen : List String
  normalized : List String
  vtc : List (String × String)

/-- One iteration of the plain-variants loop (lines 187-205). -/
def processPlainVariant (cid : String) (raw : YVal) (st : VarState) : VarState :=
  match validate_variant raw cid st.errors st.warnings with
  | (none, errs, warns) => { st with errors := errs, warnings := warns }
  | (some n, errs, warns) =>
    if n ∈ st.seen then
      { st with
        errors := errs ++
          [cid ++ ": duplicate variant after normalization (" ++ n ++ ")"],
        warnings := warns }
    else
      match st.vtc.lookup n with
      | some existing =>
        if existing ≠ cid then
          { st with
            errors := errs ++
              ["variant overlap: " ++ n ++ " in " ++ existing ++ " and " ++ cid],
            warnings := warns }
        else
          { errors := errs, warnings := warns, seen := st.seen ++ [n],
            normalized := st.normalized ++ [n], vtc := dinsertStr st.vtc n cid }
      | none =>
        { errors := errs, warnings := warns, seen := st.seen ++ [n],
          normalized := st.normalized ++ [n], vtc := dinsertStr st.vtc n cid }

/-- State of the conditional-variants loop (lines 207-254). -/
structure CondState where
  errors : List String
  warnings : List String
  seen : List String
  vtc : List (String × String)
  conds : List ConditionalOut

/-- One iteration of the conditional-variants loop (lines 214-254). -/
def processConditionalVariant (cid : String) (entry : YVal) (st : CondState) :
    CondState :=
  match as_str_dict entry with
  | none =>
    { st with errors := st.errors ++ [cid ++ ": conditional variant must be a mapping"] }
  | some ed =>
    let cond_variant := (dget ed "variant").getD .null
    let condition := dget ed "condition"
    match validate_variant cond_variant cid st.errors st.warnings with
    | (none, errs, warns) => { st with errors := errs, warnings := warns }
    | (some n, errs, warns) =>
      if n ∈ st.seen then
        { st with
          errors := errs ++
            [cid ++ ": duplicate variant after normalization (" ++ n ++ ")"],
          warnings := warns }
      else
        match st.vtc.lookup n with
        | some existing =>
          if existing ≠ cid then
            { st with
              errors := errs ++
                ["variant overlap: " ++ n ++ " in " ++ existing ++ " and " ++ cid],
              warnings := warns }
          else
            match condition with
            | some (.str c) =>
              { errors := errs, warnings := warns, seen := st.seen ++ [n],
                vtc := dinsertStr st.vtc n cid,
                conds := st.conds ++ [⟨n, .str c⟩] }
            | some (.dict d) =>
              match as_str_dict (.dict d) with
              | none =>
                { st with
                  errors := errs ++
                    [cid ++ ": conditional variant invalid condition (" ++ n ++ ")"],
                  warnings := warns }
              | some _ =>
                { errors := errs, warnings := warns, seen := st.seen ++ [n],
                  vtc := dinsertStr st.vtc n cid,
                  conds := st.conds ++ [⟨n, .dict d⟩] }
            | _ =>
              { st with
                errors := errs ++
                  [cid ++ ": conditional variant missing condition (" ++ n ++ ")"],
                warnings := warns }
        | none =>
          match condition with
          | some (.str c) =>
            { errors := errs, warnings := warns, seen := st.seen ++ [n],
              vtc := dinsertStr st.vtc n cid,
              conds := st.conds ++ [⟨n, .str c⟩] }
          | some (.dict d) =>
            match as_str_dict (.dict d) with
            | none =>
              { st with
                errors := errs ++
                  [cid ++ ": conditional variant invalid condition (" ++ n ++ ")"],
                warnings := warns }
            | some _ =>
              { errors := errs, warnings := warns, seen := st.seen ++ [n],
                vtc := dinsertStr st.vtc n cid,
                conds := st.conds ++ [⟨n, .dict d⟩] }
          | _ =>
            { st with
              errors := errs ++
                [cid ++ ": conditional variant missing condition (" ++ n ++ ")"],
              warnings := warns }

/-- State of the per-concept loop of compile_terms (lines 159-280). -/
structure CState where
  errors : List String
  warnings : List String
  conceptsOutput : List ConceptOut
  vtc : List (String × String)
  conceptIds : List String
  totalVariants : ℕ

/-- The label error of lines 179-180. -/
def labelErrsOf (cid : String) (labelVal : Option YVal) : List String :=
  match labelVal with
  | some (.str l) =>
    if l = "" then [cid ++ ": label must be a non-empty string"] else []
  | _ => [cid ++ ": label must be a non-empty string"]

/-- The label written to the output concept (line 272). -/
def labelOutOf (labelVal : Option YVal) : String :=
  match labelVal with
  | some (.str l) => l
  | _ => ""

/-- The variants-list error of lines 181-182. -/
def variantsErrsOf (cid : String) (variantsValue : Option (List YVal)) :
    List String :=
  match variantsValue with
  | some (_ :: _) => []
  | _ => [cid ++ ": variants must be a non-empty list"]

/-- The notes field of the output concept (lines 275-277). -/
def notesOutOf (notesVal : Option YVal) : Option String :=
  match notesVal with
  | some (.str s) => if s = "" then none else some s
  | _ => none

/-- The plain-variants loop (lines 184-205). -/
def varStage (cid : String) (vs : List YVal) (errors2 : List String)
    (st : CState) : VarState :=
  vs.foldl (fun a raw => processPlainVariant cid raw a)
    ⟨errors2, st.warnings, [], [], st.vtc⟩

/-- The conditional-variants loop (lines 207-254). -/
def condStage (cid : String) (condRaw : Option YVal) (vstate : VarState) :
    CondState :=
  match condRaw with
  | none => ⟨vstate.errors, vstate.warnings, vstate.seen, vstate.vtc, []⟩
  | some cv =>
    match as_list cv with
    | none =>
      ⟨vstate.errors ++ [cid ++ ": conditional_variants must be a list"],
        vstate.warnings, vstate.seen, vstate.vtc, []⟩
    | some entries =>
      entries.foldl (fun a e => processConditionalVariant cid e a)
        ⟨vstate.errors, vstate.warnings, vstate.seen, vstate.vtc, []⟩

/-- Assembly of the per-concept results (lines 256-280): sort the variants
and the conditional entries, account totals and the large-concept warning,
and append the output concept. -/
def conceptFinish (cid labelOut : String) (notesOut : Option String)
    (st : CState) (normalized : List String) (cstate : CondState) : CState :=
  { errors := cstate.errors,
    warnings := cstate.warnings ++
      (if 25 < (sort_variants normalized).length
        then [cid ++ ": variants > 25"] else []),
    conceptsOutput := st.conceptsOutput ++
      [⟨cid, labelOut, sort_variants normalized, notesOut,
        cstate.conds.mergeSort (fun a b => variantKeyLe a.variant b.variant)⟩],
    vtc := cstate.vtc,
    conceptIds := st.conceptIds ++ [cid],
    totalVariants := st.totalVariants + (sort_variants normalized).length +
      (cstate.conds.mergeSort (fun a b => variantKeyLe a.variant b.variant)).length }

/-- The tail of one concepts-loop iteration after the id checks. -/
def conceptTail (cid labelOut : String) (notesOut : Option String)
    (condRaw : Option YVal) (st : CState) (vstate : VarState) : CState :=
  conceptFinish cid labelOut notesOut st vstate.normalized
    (condStage cid condRaw vstate)

/-- One iteration of the concepts loop of compile_terms (lines 164-280). -/
def processConcept (entry : YVal) (st : CState) : CState :=
  match as_str_dict entry with
  | none => { st with errors := st.errors ++ ["concept entry must be a mapping"] }
  | some concept =>
    match dget concept "id" with
    | some (.str cid) =>
      if cid = "" then
        { st with errors := st.errors ++ ["concept id must be a non-empty string"] }
      else if cid ∈ st.conceptIds then
        { st with errors := st.errors ++ ["duplicate concept id: " ++ cid] }
      else
        conceptTail cid (labelOutOf (dget concept "label"))
          (notesOutOf (dget concept "notes"))
          (dget concept "conditional_variants") st
          (varStage cid (((dget concept "variants").bind as_list).getD [])
            (st.errors ++ labelErrsOf cid (dget concept "label") ++
              variantsErrsOf cid ((dget concept "variants").bind as_list)) st)
    | _ => { st with errors := st.errors ++ ["concept id must be a non-empty string"] }

/-- compile_terms (lines 143-298): the initial version/concepts checks, the
concepts loop, the global warnings and the final raise-or-return. -/
def compile_terms (config : List (String × YVal)) :
    Except (List String) (CompiledOutput × List String) :=
  let versionErr :=
    match dget config "version" with
    | some (.str _) => []
    | some (.int _) => []
    | some (.float _) => []
    | some (.bool _) => []
    | _ => ["version is required and must be string/number"]
  let conceptsList := (dget config "concepts").bind as_list
  let conceptsErr :=
    match conceptsList with
    | none => ["concepts must be a list"]
    | some _ => []
  let errors0 := versionErr ++ conceptsErr
  if errors0 ≠ [] then .error errors0
  else
    let st := (conceptsList.getD []).foldl (fun a e => processConcept e a)
      ⟨[], [], [], [], [], 0⟩
    let warnings := st.warnings ++
      (if 40 < st.conceptsOutput.length then ["concept count > 40"] else []) ++
      (if 250 < st.totalVariants then ["total variants > 250"] else [])
    if st.errors ≠ [] then .error st.errors
    else
      .ok (⟨(dget config "version").getD .null, st.conceptsOutput, st.vtc⟩,
        warnings)

/-- The exit behaviour of main (lines 557-598) for an invocation in which
the input, output and report paths are given: compile_terms success writes the outputs and
returns 0; a ValidationError prints one line per error, prefixed with
"error: ", and returns 2. -/
def runCompile (config : List (String × YVal)) : ℕ × List String :=
  match compile_terms config with
  | .error errs => (2, errs.map (fun e => "error: " ++ e))
  | .ok _ => (0, [])

/-- A two-field concept mapping as written in a canonical-terms YAML
specification: id, label and a list of plain variants. -/
def mkConceptY (cid label : String) (variants : List String) : YVal :=
  .dict [(.str "id", .str cid), (.str "label", .str label),
    (.str "variants", .list (variants.map .str))]

/-- The per-variant acceptance conditions of validate_variant, as a
predicate on the raw variant string: once these hold the variant is
accepted and its normalization is registered for the concept. -/
def variantAccepted (v : String) : Prop :=
  pyStrip v ≠ "" ∧
  normalize_variant (pyStrip v) ≠ "" ∧
  (normalize_variant (pyStrip v)).toList.any (fun c => c.isAlpha) ∧
  normalize_variant (pyStrip v) ∉ NOISE_TOKENS ∧
  (3 ≤ (normalize_variant (pyStrip v)).length ∨
    normalize_variant (pyStrip v) ∈ WHITELIST_SHORT_TOKENS)

instance (v : String) : Decidable (variantAccepted v) := by
  unfold variantAccepted
  infer_instance

end BuildCanonical


/-! ## The term-shift analyzer (log_odds_stats, sec_metrics.py lines
673-713, and the riser/faller selection of lines 783-794) -/

namespace SecMetrics

/-- Counter lookup with default 0. -/
def cget (m : List (String × ℕ)) (t : String) : ℕ := (m.lookup t).getD 0

/-- sum(counter.values()). -/
def ctotal (m : List (String × ℕ)) : ℕ := (m.map Prod.snd).sum

/-- The union vocabulary set(counts_prev) | set(counts_curr), in first
occurrence order. -/
def vocabOf (cp cc : List (String × ℕ)) : List String :=
  (cp.map Prod.fst ++ cc.map Prod.fst).dedup

/-- The per-term statistics record of log_odds_stats. -/
structure ShiftTermStats where
  term : String
  score : ℝ
  z : ℝ
  countPrev : ℕ
  countCurr : ℕ
  per10kPrev : ℚ
  per10kCurr : ℚ
  deltaPer10k : ℚ
  distinctive : Prop

/-- The smoothed log-odds score (lines 686-692). -/
noncomputable def lodScore (c_prev c_curr total_prev total_curr : ℕ) (alpha : ℚ) (V : ℕ) : ℝ :=
  Real.log ((((c_curr : ℚ) + alpha) /
      ((total_curr : ℚ) - (c_curr : ℚ) + alpha * (V : ℚ)) : ℚ) : ℝ) -
  Real.log ((((c_prev : ℚ) + alpha) /
      ((total_prev : ℚ) - (c_prev : ℚ) + alpha * (V : ℚ)) : ℚ) : ℝ)

/-- The variance-normalised z score (line 694). -/
noncomputable def lodZ (c_prev c_curr total_prev total_curr : ℕ) (alpha : ℚ) (V : ℕ) : ℝ :=
  lodScore c_prev c_curr total_prev total_curr alpha V /
    Real.sqrt (((1 / ((c_curr : ℚ) + alpha) + 1 / ((c_prev : ℚ) + alpha) : ℚ)) : ℝ)

/-- The per-10k-token rate (lines 696-697), with the zero-total guard. -/
def per10k (c total : ℕ) : ℚ :=
  if total ≠ 0 then (c : ℚ) / (total : ℚ) * 10000 else 0

/-- The statistics record for one term (lines 700-712). -/
noncomputable def mkShiftStats (term : String) (c_prev c_curr total_prev total_curr : ℕ)
    (alpha : ℚ) (V : ℕ) : ShiftTermStats :=
  ⟨term, lodScore c_prev c_curr total_prev total_curr alpha V,
    lodZ c_prev c_curr total_prev total_curr alpha V,
    c_prev, c_curr, per10k c_prev total_prev, per10k c_curr total_curr,
    per10k c_curr total_curr - per10k c_prev total_prev,
    2 ≤ |lodZ c_prev c_curr total_prev total_curr alpha V| ∧
      (1/2 : ℚ) ≤ |per10k c_curr total_curr - per10k c_prev total_prev| ∧
      8 ≤ c_prev + c_curr⟩

/-- log_odds_stats (lines 673-713) as a map from a term to its statistics
record: empty vocabulary yields the empty dict, a term outside the
vocabulary is absent, and a term whose smoothed denominator is nonpositive
is skipped. -/
noncomputable def log_odds_stats (cp cc : List (String × ℕ)) (alpha : ℚ) (term : String) :
    Option ShiftTermStats :=
  if (vocabOf cp cc).isEmpty then none
  else if term ∉ vocabOf cp cc then none
  else if ((ctotal cp : ℚ) - (cget cp term : ℚ) +
        alpha * ((vocabOf cp cc).length : ℚ) ≤ 0) ∨
      ((ctotal cc : ℚ) - (cget cc term : ℚ) +
        alpha * ((vocabOf cp cc).length : ℚ) ≤ 0) then none
  else some (mkShiftStats term (cget cp term) (cget cc term) (ctotal cp)
    (ctotal cc) alpha (vocabOf cp cc).length)

/-- stats.values() in vocabulary order. -/
noncomputable def statsList (cp cc : List (String × ℕ)) (alpha : ℚ) : List ShiftTermStats :=
  (vocabOf cp cc).filterMap (log_odds_stats cp cc alpha)

/-- The riser comparator of line 784: ascending in (-score, term). -/
noncomputable def riserLe (a b : ShiftTermStats) : Bool :=
  decide (b.score < a.score ∨ (a.score = b.score ∧ a.term ≤ b.term))

/-- The faller comparator of line 787: ascending in (score, term). -/
noncomputable def fallerLe (a b : ShiftTermStats) : Bool :=
  decide (a.score < b.score ∨ (a.score = b.score ∧ a.term ≤ b.term))

/-- topRisers (lines 783-791): the first 15 stats records sorted by
descending score with lexicographic tie-break. -/
noncomputable def topRisers (cp cc : List (String × ℕ)) (alpha : ℚ) : List ShiftTermStats :=
  ((statsList cp cc alpha).mergeSort riserLe).take 15

/-- topFallers (lines 786-794). -/
noncomputable def topFallers (cp cc : List (String × ℕ)) (alpha : ℚ) : List ShiftTermStats :=
  ((statsList cp cc alpha).mergeSort fallerLe).take 15

end SecMetrics

namespace SecMetrics

/-- sklearn ENGLISH_STOP_WORDS, the stop list selected by
stop_words="english" in build_metrics (sec_metrics.py line 617). -/
def englishStopWords : List String :=
  ["a", "about", "above", "across", "after", "afterwards", "again",
   "against", "all", "almost", "alone", "along", "already", "also",
   "although", "always", "am", "among", "amongst", "amoungst", "amount",
   "an", "and", "another", "any", "anyhow", "anyone", "anything", "anyway",
   "anywhere", "are", "around", "as", "at", "back", "be", "became",
   "because", "become", "becomes", "becoming", "been", "before",
   "beforehand", "behind", "being", "below", "beside", "besides",
   "between", "beyond", "bill", "both", "bottom", "but", "by", "call",
   "can", "cannot", "cant", "co", "con", "could", "couldnt", "cry", "de",
   "describe", "detail", "do", "done", "down", "due", "during", "each",
   "eg", "eight", "either", "eleven", "else", "elsewhere", "empty",
   "enough", "etc", "even", "ever", "every", "everyone", "everything",
   "everywhere", "except", "few", "fifteen", "fifty", "fill", "find",
   "fire", "first", "five", "for", "former", "formerly", "forty", "found",
   "four", "from", "front", "full", "further", "get", "give", "go", "had",
   "has", "hasnt", "have", "he", "hence", "her", "here", "hereafter",
   "hereby", "herein", "hereupon", "hers", "herself", "him", "himself",
   "his", "how", "however", "hundred", "i", "ie", "if", "in", "inc",
   "indeed", "interest", "into", "is", "it", "its", "itself", "keep",
   "last", "latter", "latterly", "least", "less", "ltd", "made", "many",
   "may", "me", "meanwhile", "might", "mill", "mine", "more", "moreover",
   "most", "mostly", "move", "much", "must", "my", "myself", "name",
   "namely", "neither", "never", "nevertheless", "next", "nine", "no",
   "nobody", "none", "noone", "nor", "not", "nothing", "now", "nowhere",
   "of", "off", "often", "on", "once", "one", "only", "onto", "or",
   "other", "others", "otherwise", "our", "ours", "ourselves", "out",
   "over", "own", "part", "per", "perhaps", "please", "put", "rather",
   "re", "same", "see", "seem", "seemed", "seeming", "seems", "serious",
   "several", "she", "should", "show", "side", "since", "sincere", "six",
   "sixty", "so", "some", "somehow", "someone", "something", "sometime",
   "sometimes", "somewhere", "still", "such", "system", "take", "ten",
   "than", "that", "the", "their", "them", "themselves", "then", "thence",
   "there", "thereafter", "thereby", "therefore", "therein", "thereupon",
   "these", "they", "thick", "thin", "third", "this", "those", "though",
   "three", "through", "throughout", "thru", "thus", "to", "together",
   "too", "top", "toward", "towards", "twelve", "twenty", "two", "un",
   "under", "until", "up", "upon", "us", "very", "via", "was", "we",
   "well", "were", "what", "whatever", "when", "whence", "whenever",
   "where", "whereafter", "whereas", "whereby", "wherein", "whereupon",
   "wherever", "whether", "which", "while", "whither", "who", "whoever",
   "whole", "whom", "whose", "why", "will", "with", "within", "without",
   "would", "yet", "you", "your", "yours", "yourself", "yourselves"]

/-- Maximal runs of characters satisfying p (worker; acc holds the current
run reversed). -/
def runsByAux (p : Char → Bool) : List Char → List Char → List (List Char)
  | [], acc => if acc.isEmpty then [] else [acc.reverse]
  | c :: cs, acc =>
    if p c then runsByAux p cs (c :: acc)
    else if acc.isEmpty then runsByAux p cs []
    else acc.reverse :: runsByAux p cs []

/-- Maximal runs of characters satisfying p. -/
def runsBy (p : Char → Bool) (cs : List Char) : List (List Char) :=
  runsByAux p cs []

/-- The token analyzer of the vectorizer built in build_metrics (lines
616-620): matches of (?u)\b[a-zA-Z]\x7b2,\x7d\b, which are the maximal runs
of word characters consisting of two or more ASCII letters, lowercased,
with english stop words removed. -/
def skTokenize (s : String) : List String :=
  (((runsBy pyIsWordChar s.toList).filter
      (fun r => decide (2 ≤ r.length) && r.all isAsciiLetter)).map
    (fun r => String.mk (r.map pyLowerChar))).filter
    (fun t => decide (t ∉ englishStopWords))

/-- Lexicographic comparison of character lists by code point, the order
of Python sorted() on strings. -/
def charListLe : List Char → List Char → Bool
  | [], _ => true
  | _ :: _, [] => false
  | a :: as, b :: bs =>
    if a.toNat < b.toNat then true
    else if b.toNat < a.toNat then false
    else charListLe as bs

/-- Python string comparison. -/
def strLe (a b : String) : Bool := charListLe a.toList b.toList

/-- Insertion into a sorted list (worker of the sort used to model
sorted() on strings). -/
def bInsert {α : Type} (le : α → α → Bool) (x : α) : List α → List α
  | [] => [x]
  | y :: ys => if le x y then x :: y :: ys else y :: bInsert le x ys

/-- Insertion sort (the model of Python sorted() on strings; on the
distinct vocabulary tokens every correct sort produces the same list). -/
def bSort {α : Type} (le : α → α → Bool) : List α → List α
  | [] => []
  | x :: xs => bInsert le x (bSort le xs)

/-- The fitted vocabulary of TfidfVectorizer.fit_transform: the sorted
distinct tokens of the corpus. -/
def fitVocab (docs : List String) : List String :=
  bSort strLe (docs.map skTokenize).flatten.dedup

/-- Document frequency of a term in the fitted corpus. -/
def docFreq (docs : List String) (t : String) : ℕ :=
  (docs.filter (fun d => decide (t ∈ skTokenize d))).length

/-- The smooth idf weight ln((1+n)/(1+df)) + 1 of TfidfVectorizer
(smooth_idf=True, the default). -/
noncomputable def idfVal (n df : ℕ) : ℝ :=
  Real.log ((1 + (n : ℝ)) / (1 + (df : ℝ))) + 1

/-- One entry of the raw count-times-idf matrix, indexed by document text
and vocabulary term (the tfidf row of a document depends only on its
text). -/
noncomputable def tfidfEntry (docs : List String) (d t : String) : ℝ :=
  ((skTokenize d).count t : ℕ) * idfVal docs.length (docFreq docs t)

/-- Dot product of the raw rows of two documents over the fitted
vocabulary. -/
noncomputable def rowDot (docs : List String) (a b : String) : ℝ :=
  ((fitVocab docs).map (fun t => tfidfEntry docs a t * tfidfEntry docs b t)).sum

/-- The l2 norm of the raw row of a document. -/
noncomputable def rowNorm (docs : List String) (a : String) : ℝ :=
  Real.sqrt (((fitVocab docs).map (fun t => tfidfEntry docs a t ^ 2)).sum)

/-- The norm divisor of sklearn normalize: zero norms are replaced by 1, so
an all-zero row stays zero. -/
noncomputable def normFac (x : ℝ) : ℝ := if x = 0 then 1 else x

/-- cosine_similarity between the tfidf rows of two documents: l2
normalisation at fit_transform time followed by cosine_similarity is the
dot product of the raw rows divided by both norm factors. -/
noncomputable def cosSim (docs : List String) (a b : String) : ℝ :=
  rowDot docs a b / (normFac (rowNorm docs a) * normFac (rowNorm docs b))

/-- SectionYear (sec_metrics.py lines 271-276); confidence is kept exact. -/
structure SectionYear where
  year : ℤ
  text : String
  paragraphs : List String
  confidence : Option ℚ
deriving DecidableEq, Inhabited

/-- is_valid_section (sec_metrics.py lines 566-571); mkRat 1 2 is the
exact value of the literal 0.5. -/
def is_valid_section (s : SectionYear) : Bool :=
  if pyStrip s.text = "" then false
  else
    match s.confidence with
    | none => true
    | some c => decide (mkRat 1 2 ≤ c)

/-- normalize_paragraphs (sec_metrics.py lines 438-449). -/
def normalize_paragraphs (text : String) (paragraphs : List String) :
    List String :=
  let cleaned := (paragraphs.map pyStrip).filter (fun p => p ≠ "")
  if paragraphs ≠ [] ∧ cleaned ≠ [] then cleaned
  else
    let t := pyStrip text
    if t = "" then []
    else
      let split := SecExtract.split_paragraphs t
      if split ≠ [] then split else [t]

/-- "\n".join(parts). -/
def joinNL (parts : List String) : String := String.intercalate "\n" parts

/-- One resampled document: rng.choices(pop, k=len(pop)) joined by
newlines, where draw j reads stream position base + j and picks the index
value mod len(pop). -/
def resampleDoc (rng : ℕ → ℕ) (pop : List String) (base : ℕ) : String :=
  joinNL ((List.range pop.length).map
    (fun j => pop.getD (rng (base + j) % pop.length) ""))

/-- The 200 bootstrap drift samples of compute_bootstrap_ci (lines
585-597); iteration i consumes kp + kc stream positions, prev side
first. -/
noncomputable def bootSamples (rng : ℕ → ℕ) (docs : List String)
    (prev curr : SectionYear) : List ℝ :=
  (List.range 200).map (fun i =>
    1 - cosSim docs
      (resampleDoc rng (normalize_paragraphs prev.text prev.paragraphs)
        (i * ((normalize_paragraphs prev.text prev.paragraphs).length +
          (normalize_paragraphs curr.text curr.paragraphs).length)))
      (resampleDoc rng (normalize_paragraphs curr.text curr.paragraphs)
        (i * ((normalize_paragraphs prev.text prev.paragraphs).length +
          (normalize_paragraphs curr.text curr.paragraphs).length) +
          (normalize_paragraphs prev.text prev.paragraphs).length)))

/-- compute_bootstrap_ci (sec_metrics.py lines 574-600), parameterised by
the abstract random stream of random.Random(13) and the fitted corpus. -/
noncomputable def compute_bootstrap_ci (rng : ℕ → ℕ) (docs : List String)
    (prev curr : SectionYear) : Option ℝ × Option ℝ :=
  if normalize_paragraphs prev.text prev.paragraphs = [] ∨
      normalize_paragraphs curr.text curr.paragraphs = [] then (none, none)
  else
    (percentile (bootSamples rng docs prev curr) 5,
      percentile (bootSamples rng docs prev curr) 95)

/-- The valid sections kept by build_metrics (line 610). -/
def validSections (sections : List SectionYear) : List SectionYear :=
  sections.filter is_valid_section

/-- valid_years (line 611). -/
def validYears (sections : List SectionYear) : List ℤ :=
  (validSections sections).map (fun s => s.year)

/-- valid_texts (line 612). -/
def validTexts (sections : List SectionYear) : List String :=
  (validSections sections).map (fun s => s.text)

/-- The valid_index dict of line 635: a comprehension in which a later
index overwrites an earlier one, so lookup returns the last index of the
year. -/
def lastIdxOf (l : List ℤ) (y : ℤ) : Option ℕ :=
  (l.reverse.findIdx? (fun z => z == y)).map (fun i => l.length - 1 - i)

/-- One cell of the emitted cosineSimilarity matrix (lines 625-633): 1.0 on
the diagonal, the raw cosine rounded to 2 decimals elsewhere. -/
noncomputable def simCell (texts : List String) (i j : ℕ) : ℝ :=
  if i = j then 1
  else round2 (cosSim texts (texts.getD i "") (texts.getD j ""))

/-- The triple (drift_vs_prev[idx], drift_ci_low[idx], drift_ci_high[idx])
of the loop of lines 637-648: populated only for idx of at least 1 with
both adjacent years in the valid index. -/
noncomputable def driftAt (rng : ℕ → ℕ) (sections : List SectionYear)
    (idx : ℕ) : Option ℝ × Option ℝ × Option ℝ :=
  if idx = 0 then (none, none, none)
  else
    match lastIdxOf (validYears sections) (sections.getD (idx - 1) default).year,
        lastIdxOf (validYears sections) (sections.getD idx default).year with
    | some pi, some ci =>
      (some (round2 (1 - cosSim (validTexts sections)
          ((validTexts sections).getD pi "")
          ((validTexts sections).getD ci ""))),
        (compute_bootstrap_ci rng (validTexts sections)
          (sections.getD (idx - 1) default) (sections.getD idx default)).1.map
          round2,
        (compute_bootstrap_ci rng (validTexts sections)
          (sections.getD (idx - 1) default) (sections.getD idx default)).2.map
          round2)
    | _, _ => (none, none, none)

/-- The metrics and similarity outputs of build_metrics for the drift and
similarity claims (the boilerplate scores and the shift payload of the
artifact are independent further fields and are not modelled here). -/
structure MetricsOut where
  years : List ℤ
  drift_vs_prev : List (Option ℝ)
  drift_ci_low : List (Option ℝ)
  drift_ci_high : List (Option ℝ)
  simYears : List ℤ
  cosineSimilarity : List (List ℝ)

/-- The record assembled by build_metrics when fit_transform does not
raise. -/
noncomputable def metricsOut (rng : ℕ → ℕ) (sections : List SectionYear) :
    MetricsOut :=
  { years := sections.map (fun s => s.year)
    drift_vs_prev := (List.range sections.length).map
      (fun idx => (driftAt rng sections idx).1)
    drift_ci_low := (List.range sections.length).map
      (fun idx => (driftAt rng sections idx).2.1)
    drift_ci_high := (List.range sections.length).map
      (fun idx => (driftAt rng sections idx).2.2)
    simYears := validYears sections
    cosineSimilarity := (List.range (validYears sections).length).map
      (fun i => (List.range (validYears sections).length).map
        (fun j => simCell (validTexts sections) i j)) }

/-- build_metrics (sec_metrics.py lines 603-846) on the modelled fields.
When there is at least one valid section, fit_transform raises ValueError
on an empty fitted vocabulary, modelled as an error value. -/
noncomputable def build_metrics (rng : ℕ → ℕ) (sections : List SectionYear) :
    Except String MetricsOut :=
  if validSections sections ≠ [] ∧ fitVocab (validTexts sections) = [] then
    Except.error "empty vocabulary"
  else
    Except.ok (metricsOut rng sections)

end SecMetrics

namespace SecExtract

/-- Worker for str.splitlines on the newline character (the strings these
scores see are built with plain newlines); acc holds the current line
reversed. -/
def splitNLGo : List Char → List Char → List (List Char)
  | [], acc => [acc.reverse]
  | c :: rest, acc =>
    if c = '\n' then acc.reverse :: splitNLGo rest []
    else splitNLGo rest (c :: acc)

/-- str.splitlines (newline model).  splitlines drops a trailing empty
part, unlike split. -/
def splitLines (s : String) : List String :=
  match (splitNLGo s.toList []).reverse with
  | [] => []
  | last :: init =>
    (if last.isEmpty then init.reverse else (last :: init).reverse).map
      String.mk

/-- The stripped non-empty lines a score helper iterates over
([line.strip() for line in s.splitlines() if line.strip()]). -/
def nonEmptyStrippedLines (s : String) : List String :=
  ((splitLines s).map pyStrip).filter (fun l => l ≠ "")

/-- re.match(r"^item\s+\d", line, IGNORECASE). -/
def startsItemNum (cs : List Char) : Bool :=
  match cs with
  | c1 :: c2 :: c3 :: c4 :: rest =>
    (pyLowerChar c1 == 'i') && (pyLowerChar c2 == 't') &&
    (pyLowerChar c3 == 'e') && (pyLowerChar c4 == 'm') &&
    (match rest with
     | r :: _ => pyIsSpaceChar r
     | [] => false) &&
    (match rest.dropWhile pyIsSpaceChar with
     | d :: _ => d.isDigit
     | [] => false)
  | _ => false

/-- _toc_cluster_penalty (sec_extract_item1a.py lines 216-222): at least 4
item-N lines among the first 30 stripped non-empty lines of the head
snippet. -/
def toc_cluster_penalty (head : String) : Bool :=
  decide (4 ≤ (((nonEmptyStrippedLines head).take 30).filter
    (fun l => startsItemNum l.toList)).length)

/-- The table-of-contents condition as the specification words it: at
least 4 item-N lines anywhere in the head snippet (no 30-line cap). -/
def tocClusterClaimed (head : String) : Bool :=
  decide (4 ≤ ((nonEmptyStrippedLines head).filter
    (fun l => startsItemNum l.toList)).length)

/-- A word boundary right after a word character: the rest starts with a
non-word character or is empty. -/
def wordBoundaryAfter : List Char → Bool
  | [] => true
  | c :: _ => !(pyIsWordChar c)

/-- The item\s+\d\b alternative of HEADING_LINE. -/
def matchItemNumB (cs : List Char) : Bool :=
  match cs with
  | c1 :: c2 :: c3 :: c4 :: rest =>
    (pyLowerChar c1 == 'i') && (pyLowerChar c2 == 't') &&
    (pyLowerChar c3 == 'e') && (pyLowerChar c4 == 'm') &&
    (match rest with
     | r :: _ => pyIsSpaceChar r
     | [] => false) &&
    (match rest.dropWhile pyIsSpaceChar with
     | d :: tail => d.isDigit && wordBoundaryAfter tail
     | [] => false)
  | _ => false

/-- The risk factors\b alternative of HEADING_LINE. -/
def matchRiskFactors (cs : List Char) : Bool :=
  ((cs.take 12).map pyLowerChar == "risk factors".toList) &&
    wordBoundaryAfter (cs.drop 12)

/-- A roman numeral character of HEADING_LINE. -/
def isIVX (c : Char) : Bool :=
  pyLowerChar c == 'i' || pyLowerChar c == 'v' || pyLowerChar c == 'x'

/-- The part\s+[ivx]+\b alternative of HEADING_LINE. -/
def matchPartIVX (cs : List Char) : Bool :=
  match cs with
  | c1 :: c2 :: c3 :: c4 :: rest =>
    (pyLowerChar c1 == 'p') && (pyLowerChar c2 == 'a') &&
    (pyLowerChar c3 == 'r') && (pyLowerChar c4 == 't') &&
    (match rest with
     | r :: _ => pyIsSpaceChar r
     | [] => false) &&
    (!((rest.dropWhile pyIsSpaceChar).takeWhile isIVX).isEmpty &&
      wordBoundaryAfter ((rest.dropWhile pyIsSpaceChar).dropWhile isIVX))
  | _ => false

/-- HEADING_LINE.match (line 166): anchored, case-insensitive. -/
def headingLineMatch (cs : List Char) : Bool :=
  matchItemNumB cs || matchRiskFactors cs || matchPartIVX cs

/-- Python str.isupper on the ASCII model: at least one letter and no
lowercase letter. -/
def pyIsUpperStr (cs : List Char) : Bool :=
  cs.any isAsciiLetter && cs.all (fun c => !(97 ≤ c.toNat && c.toNat ≤ 122))

/-- _heading_density_bonus (lines 225-237), in twentieths of a point
(0.1 = 2/20; every score constant of this module is a multiple of 0.05,
so the whole score is computed in exact twentieths and converted to a
rational once at the end). -/
def heading_density_bonus (sec : String) : ℤ :=
  let lines := nonEmptyStrippedLines sec
  if lines.isEmpty then 0
  else
    let heading_like := (lines.filter (fun l =>
      decide (l.length ≤ 80) &&
        (pyIsUpperStr l.toList || headingLineMatch l.toList))).length
    if 6 ≤ heading_like ∧ 3 * lines.length ≤ 100 * heading_like then 2
    else 0

/-- A lowercase ASCII letter. -/
def isLowerAZ (c : Char) : Bool := 97 ≤ c.toNat && c.toNat ≤ 122

/-- Number of occurrences of a pattern in a string, scanning every
position (equal to str.count for the pattern "subject to", which cannot
overlap itself). -/
def countOccur (pat : List Char) : List Char → ℕ
  | [] => 0
  | c :: rest =>
    (if pat.isPrefixOf (c :: rest) then 1 else 0) + countOccur pat rest

/-- _modality_bonus (lines 240-251), in twentieths (0.2 = 4, 0.1 = 2);
the per-1000-words thresholds are compared exactly: modal / (words / 1000)
is at least t iff t * words is at most 1000 * modal. -/
def modality_bonus (sec : String) : ℤ :=
  let lowered := sec.toList.map pyLowerChar
  let words := SecMetrics.runsBy isLowerAZ lowered
  if words.isEmpty then 0
  else
    let modal := (words.filter (fun w =>
      w == "may".toList || w == "could".toList ||
        w == "adversely".toList)).length + countOccur "subject to".toList lowered
    if 8 * words.length ≤ 1000 * modal then 4
    else if 4 * words.length ≤ 1000 * modal then 2
    else 0

/-- The length bonus of _score_candidate (lines 259-268), in twentieths
(0.2 = 4, -0.25 = -5, -0.1 = -2). -/
def lengthBonus (len : ℕ) : ℤ :=
  if 15000 ≤ len ∧ len ≤ 400000 then 4
  else if len < 8000 then -5
  else -2

/-- The clamp max(0.05, min(score, 0.95)) in twentieths. -/
def clamp20 (s : ℤ) : ℤ := if 19 ≤ s then 19 else if s ≤ 1 then 1 else s

/-- text[start:end] as character indices. -/
def sectionSlice (text : String) (start end_ : ℕ) : String :=
  String.mk ((text.toList.drop start).take (end_ - start))

/-- text[start : min(end, start + 2500)] (line 276). -/
def headSnippet (text : String) (start end_ : ℕ) : String :=
  String.mk ((text.toList.drop start).take (min end_ (start + 2500) - start))

/-- _score_candidate (lines 254-295) in twentieths: base 0.5 = 10 plus
the bonuses and penalties, clamped to [0.05, 0.95] = [1, 19]; the
early-position comparison start < doc_length * 0.08 is taken exactly. -/
def score20 (text : String) (start end_ docLen : ℕ) : ℤ :=
  clamp20 (10 + lengthBonus (end_ - start) +
    (if 0 < docLen ∧ start * 100 < docLen * 8 then -3 else 0) +
    (if toc_cluster_penalty (headSnippet text start end_) then -4 else 0) +
    modality_bonus (sectionSlice text start end_) +
    heading_density_bonus (sectionSlice text start end_))

/-- The confidence reported by _score_candidate as an exact rational. -/
def score_candidate (text : String) (start end_ docLen : ℕ) : ℚ :=
  mkRat (score20 text start end_ docLen) 20

/-- The confidence the candidate loop of extract_item1a_from_text reports
(lines 364-373): the already clamped score, minus 0.2 = 4 twentieths when
no end marker was found, clamped again. -/
def candidate_confidence (text : String) (start end_ docLen : ℕ)
    (endFound : Bool) : ℚ :=
  mkRat (clamp20 (score20 text start end_ docLen +
    (if endFound then 0 else -4))) 20

/-- The confidence as the specification words it: one clamp applied to
the full sum, with the table-of-contents condition over the whole head
snippet. -/
def claimedConfidence (text : String) (start end_ docLen : ℕ)
    (endFound : Bool) : ℚ :=
  mkRat (clamp20 (10 + lengthBonus (end_ - start) +
    (if 0 < docLen ∧ start * 100 < docLen * 8 then -3 else 0) +
    (if tocClusterClaimed (headSnippet text start end_) then -4 else 0) +
    modality_bonus (sectionSlice text start end_) +
    heading_density_bonus (sectionSlice text start end_) +
    (if endFound then 0 else -4))) 20

/-- The best-candidate fold of lines 383-384: the running best is replaced
only by a strictly higher confidence, so the first maximum wins. -/
def bestConf : List ℚ → Option ℚ
  | [] => none
  | c :: cs => some (cs.foldl (fun b x => if b < x then x else b) c)

end SecExtract

namespace SecQuality

/-- COMMON_SHORT_WORDS (sec_quality.py lines 20-56). -/
def commonShortWords : List String :=
  ["a", "an", "and", "are", "as", "at", "be", "but", "by", "can", "did",
   "do", "for", "had", "has", "i", "if", "in", "is", "it", "its", "may",
   "not", "nor", "of", "on", "or", "our", "per", "the", "to", "us", "we",
   "who", "why", "you"]

/-- SUFFIX_FRAGMENTS (lines 58-85). -/
def suffixFragments : List String :=
  ["mation", "mations", "tion", "tions", "sion", "sions", "ment", "ments",
   "ness", "less", "ance", "ances", "ence", "ences", "ing", "ings", "ity",
   "ities", "ative", "atives", "able", "ably", "ization", "izations",
   "tory", "tories"]

/-- BULLET_TOKEN. -/
def bulletToken : List Char := "__BULLET_BREAK__".toList

/-- The first pass of normalize_excerpt_text (lines 187-196): windows-1252
punctuation fixups, then carriage returns become newlines. -/
def exChar (c : Char) : Char :=
  if c = ' ' then ' '
  else if c = '\u0091' then '’'
  else if c = '\u0092' then '’'
  else if c = '\u0093' then '”'
  else if c = '\u0094' then '”'
  else if c = '\u0096' then '–'
  else if c = '\u0097' then '—'
  else c

/-- replace("\r\n", "\n") followed by replace("\r", "\n"). -/
def crToNl : List Char → List Char
  | [] => []
  | '\x0d' :: '\n' :: rest => '\n' :: crToNl rest
  | '\x0d' :: rest => '\n' :: crToNl rest
  | c :: rest => c :: crToNl rest

/-- re.sub(r"([A-Za-z])-\n([A-Za-z])", r"\1\2", _) (line 197); the fuel is
a bound on the number of scan steps. -/
def hyphenJoinGo : ℕ → List Char → List Char
  | 0, cs => cs
  | _ + 1, [] => []
  | fuel + 1, c1 :: '-' :: '\n' :: c2 :: rest =>
    if isAsciiLetter c1 && isAsciiLetter c2 then
      c1 :: c2 :: hyphenJoinGo fuel rest
    else c1 :: hyphenJoinGo fuel ('-' :: '\n' :: c2 :: rest)
  | fuel + 1, c :: rest => c :: hyphenJoinGo fuel rest

/-- A bullet marker character of BULLET_PATTERN (line 87). -/
def bulletChar (c : Char) : Bool :=
  c = '•' || c = '·' || c = '*' || c = '–' ||
    c = '—' || c = '-'

/-- BULLET_PATTERN.sub (line 198): a newline, optional whitespace, a
bullet marker and at least one whitespace character become the bullet
token, a bullet and a space. -/
def bulletGo : ℕ → List Char → List Char
  | 0, cs => cs
  | _ + 1, [] => []
  | fuel + 1, c :: rest =>
    if c = '\n' then
      match (rest.dropWhile pyIsSpaceChar) with
      | b :: tail =>
        if bulletChar b &&
            (match tail with
             | t :: _ => pyIsSpaceChar t
             | [] => false) then
          bulletToken ++ '•' :: ' ' ::
            bulletGo fuel (tail.dropWhile pyIsSpaceChar)
        else c :: bulletGo fuel rest
      | [] => c :: bulletGo fuel rest
    else c :: bulletGo fuel rest

/-- Whether the previous character allows a word boundary before a word
character. -/
def boundaryBefore : Option Char → Bool
  | none => true
  | some p => !(pyIsWordChar p)

/-- Lowered copy of a character run. -/
def lowerRun (run : List Char) : List Char := run.map pyLowerChar

/-- SHORT_SPLIT_PATTERN.sub (line 225 with the short_split callback of
lines 201-208): a 1-3 letter word, a line break, then a word starting
lowercase; the two words are joined with a space when either is a common
short word and concatenated otherwise. -/
def shortSplitGo : ℕ → Option Char → List Char → List Char
  | 0, _, cs => cs
  | _ + 1, _, [] => []
  | fuel + 1, prev, c :: rest =>
    if boundaryBefore prev && isAsciiLetter c then
      let run1 := (c :: rest).takeWhile isAsciiLetter
      let afterRun := (c :: rest).drop run1.length
      let ws := afterRun.takeWhile pyIsSpaceChar
      let g2start := afterRun.drop ws.length
      let run2 := g2start.takeWhile isAsciiLetter
      if run1.length ≤ 3 && ws.any (fun w => w = '\n') &&
          (match run2 with
           | r :: _ => SecExtract.isLowerAZ r
           | [] => false) && decide (2 ≤ run2.length) then
        (if String.mk (lowerRun run1) ∈ commonShortWords ∨
            String.mk (lowerRun run2) ∈ commonShortWords then
          run1 ++ ' ' :: run2 else run1 ++ run2) ++
          shortSplitGo fuel run2.getLast? (g2start.drop run2.length)
      else run1 ++ shortSplitGo fuel run1.getLast? afterRun
    else c :: shortSplitGo fuel (some c) rest

/-- TAIL_SPLIT_PATTERN.sub (line 226 with tail_split, lines 210-217): a
word of at least 3 letters, a line break, then a 1-2 letter lowercase word
at a boundary. -/
def tailSplitGo : ℕ → Option Char → List Char → List Char
  | 0, _, cs => cs
  | _ + 1, _, [] => []
  | fuel + 1, prev, c :: rest =>
    if boundaryBefore prev && isAsciiLetter c then
      let run1 := (c :: rest).takeWhile isAsciiLetter
      let afterRun := (c :: rest).drop run1.length
      let ws := afterRun.takeWhile pyIsSpaceChar
      let g2start := afterRun.drop ws.length
      let lowrun := g2start.takeWhile SecExtract.isLowerAZ
      if decide (3 ≤ run1.length) && ws.any (fun w => w = '\n') &&
          decide (1 ≤ lowrun.length) && decide (lowrun.length ≤ 2) &&
          (match g2start.drop lowrun.length with
           | n :: _ => !(pyIsWordChar n)
           | [] => true) then
        (if String.mk (lowerRun run1) ∈ commonShortWords ∨
            String.mk (lowerRun lowrun) ∈ commonShortWords then
          run1 ++ ' ' :: lowrun else run1 ++ lowrun) ++
          tailSplitGo fuel lowrun.getLast? (g2start.drop lowrun.length)
      else run1 ++ tailSplitGo fuel run1.getLast? afterRun
    else c :: tailSplitGo fuel (some c) rest

/-- starts_with_any over the suffix fragments (lines 177-182, 219-224). -/
def startsWithSuffix (low : List Char) : Bool :=
  suffixFragments.any (fun f => f.toList.isPrefixOf low)

/-- SUFFIX_SPLIT_PATTERN.sub (line 227 with suffix_split, lines 219-224):
a word of at least 3 letters, a line break, then at least 2 lowercase
letters; joined without a space when the right part starts with a common
suffix fragment, with a space otherwise. -/
def suffixSplitGo : ℕ → Option Char → List Char → List Char
  | 0, _, cs => cs
  | _ + 1, _, [] => []
  | fuel + 1, prev, c :: rest =>
    if boundaryBefore prev && isAsciiLetter c then
      let run1 := (c :: rest).takeWhile isAsciiLetter
      let afterRun := (c :: rest).drop run1.length
      let ws := afterRun.takeWhile pyIsSpaceChar
      let g2start := afterRun.drop ws.length
      let lowrun := g2start.takeWhile SecExtract.isLowerAZ
      if decide (3 ≤ run1.length) && ws.any (fun w => w = '\n') &&
          decide (2 ≤ lowrun.length) then
        (if startsWithSuffix lowrun then run1 ++ lowrun
          else run1 ++ ' ' :: lowrun) ++
          suffixSplitGo fuel lowrun.getLast? (g2start.drop lowrun.length)
      else run1 ++ suffixSplitGo fuel run1.getLast? afterRun
    else c :: suffixSplitGo fuel (some c) rest

/-- re.sub(r"\s*\n+\s*", " ", _) (line 228): every whitespace run that
contains a newline becomes one space. -/
def nlRunGo : ℕ → List Char → List Char
  | 0, cs => cs
  | _ + 1, [] => []
  | fuel + 1, c :: rest =>
    if pyIsSpaceChar c then
      (if ((c :: rest).takeWhile pyIsSpaceChar).any (fun w => w = '\n')
        then [' ']
        else (c :: rest).takeWhile pyIsSpaceChar) ++
        nlRunGo fuel ((c :: rest).dropWhile pyIsSpaceChar)
    else c :: nlRunGo fuel rest

/-- A trademark-like symbol of lines 229-230. -/
def tmChar (c : Char) : Bool :=
  c = '®' || c = '™' || c = '℠'

/-- re.sub(r"([A-Za-z])\s+([trademark symbols])", r"\1\2", _) (line 229). -/
def tmLeftGo : ℕ → List Char → List Char
  | 0, cs => cs
  | _ + 1, [] => []
  | fuel + 1, c :: rest =>
    if isAsciiLetter c &&
        !(rest.takeWhile pyIsSpaceChar).isEmpty &&
        (match rest.dropWhile pyIsSpaceChar with
         | s :: _ => tmChar s
         | [] => false) then
      match rest.dropWhile pyIsSpaceChar with
      | s :: tail => c :: s :: tmLeftGo fuel tail
      | [] => [c]
    else c :: tmLeftGo fuel rest

/-- re.sub(r"([trademark symbols])\s+([A-Za-z])", r"\1 \2", _) (line
230). -/
def tmRightGo : ℕ → List Char → List Char
  | 0, cs => cs
  | _ + 1, [] => []
  | fuel + 1, c :: rest =>
    if tmChar c && !(rest.takeWhile pyIsSpaceChar).isEmpty &&
        (match rest.dropWhile pyIsSpaceChar with
         | s :: _ => isAsciiLetter s
         | [] => false) then
      match rest.dropWhile pyIsSpaceChar with
      | s :: tail => c :: ' ' :: s :: tmRightGo fuel tail
      | [] => [c]
    else c :: tmRightGo fuel rest

/-- re.sub(r"“\s+", "“", _) (line 231). -/
def quoteOpenGo : ℕ → List Char → List Char
  | 0, cs => cs
  | _ + 1, [] => []
  | fuel + 1, c :: rest =>
    if c = '“' && !(rest.takeWhile pyIsSpaceChar).isEmpty then
      c :: quoteOpenGo fuel (rest.dropWhile pyIsSpaceChar)
    else c :: quoteOpenGo fuel rest

/-- re.sub(r"\s+”", "”", _) (line 232). -/
def quoteCloseGo : ℕ → List Char → List Char
  | 0, cs => cs
  | _ + 1, [] => []
  | fuel + 1, c :: rest =>
    if pyIsSpaceChar c then
      match (c :: rest).dropWhile pyIsSpaceChar with
      | '”' :: tail => '”' :: quoteCloseGo fuel tail
      | _ => ((c :: rest).takeWhile pyIsSpaceChar) ++
          quoteCloseGo fuel ((c :: rest).dropWhile pyIsSpaceChar)
    else c :: quoteCloseGo fuel rest

/-- replace(BULLET_TOKEN, "\n") (line 233). -/
def tokenToNlGo : ℕ → List Char → List Char
  | 0, cs => cs
  | _ + 1, [] => []
  | fuel + 1, c :: rest =>
    if bulletToken.isPrefixOf (c :: rest) then
      '\n' :: tokenToNlGo fuel ((c :: rest).drop bulletToken.length)
    else c :: tokenToNlGo fuel rest

/-- re.sub(r"\s*\x7b2,\x7d", " ", _) (line 234): whitespace runs of at
least two characters become one space. -/
def wsPairGo : ℕ → List Char → List Char
  | 0, cs => cs
  | _ + 1, [] => []
  | fuel + 1, c :: rest =>
    if pyIsSpaceChar c then
      (if 2 ≤ ((c :: rest).takeWhile pyIsSpaceChar).length then [' ']
        else [c]) ++ wsPairGo fuel ((c :: rest).dropWhile pyIsSpaceChar)
    else c :: wsPairGo fuel rest

/-- normalize_excerpt_text (sec_quality.py lines 184-237). -/
def normalize_excerpt_text (text : String) : String :=
  if text = "" then ""
  else
    let s1 := crToNl ((text.toList).map exChar)
    let s2 := hyphenJoinGo s1.length s1
    let s3 := bulletGo s2.length s2
    let s4 := shortSplitGo s3.length none s3
    let s5 := tailSplitGo s4.length none s4
    let s6 := suffixSplitGo s5.length none s5
    let s7 := nlRunGo s6.length s6
    let s8 := tmLeftGo s7.length s7
    let s9 := tmRightGo s8.length s8
    let s10 := quoteOpenGo s9.length s9
    let s11 := quoteCloseGo s10.length s10
    let s12 := tokenToNlGo s11.length s11
    let s13 := wsPairGo s12.length s12
    String.mk (pyStripChars s13)

end SecQuality

namespace SecQuality

/-- The hyphen class of compile_weighted_patterns (line 352). -/
def qHyphenChar (c : Char) : Bool :=
  c = '-' || c = '‐' || c = '‑' || c = '‒' || c = '–' ||
    c = '—' || c = '−' || c = '\x27' || c = '‘' || c = '’'

/-- Matching of one literal part (already lowered) at the head of the
lowered text; parts are joined by whitespace or by one hyphen-class
character plus optional whitespace (the joiner of line 358). -/
def matchPartsAt : List (List Char) → List Char → Option ℕ
  | [], _ => some 0
  | [p], cs =>
    if p.isPrefixOf cs then some p.length else none
  | p :: q :: ps, cs =>
    if p.isPrefixOf cs then
      let after := cs.drop p.length
      match after with
      | [] => none
      | a :: _ =>
        if pyIsSpaceChar a then
          let ws := after.takeWhile pyIsSpaceChar
          (matchPartsAt (q :: ps) (after.drop ws.length)).map
            (fun n => p.length + ws.length + n)
        else if qHyphenChar a then
          let after2 := (after.drop 1).dropWhile pyIsSpaceChar
          (matchPartsAt (q :: ps) after2).map
            (fun n => p.length + 1 +
              ((after.drop 1).takeWhile pyIsSpaceChar).length + n)
        else none
    else none

/-- findall count of a compiled term pattern: case-insensitive,
non-overlapping, with word boundaries at both ends (the term parts start
and end in word characters). -/
def countTermGo (parts : List (List Char)) : ℕ → Option Char → List Char → ℕ
  | 0, _, _ => 0
  | _ + 1, _, [] => 0
  | fuel + 1, prev, c :: rest =>
    match matchPartsAt parts (c :: rest) with
    | some n =>
      if boundaryBefore prev &&
          (match (c :: rest).drop n with
           | x :: _ => !(pyIsWordChar x)
           | [] => true) && decide (0 < n) then
        1 + countTermGo parts fuel ((c :: rest).take n).getLast?
          ((c :: rest).drop n)
      else countTermGo parts fuel (some c) rest
    | none => countTermGo parts fuel (some c) rest

/-- The number of matches of a term pattern in a paragraph. -/
def termCount (term : String) (para : String) : ℕ :=
  let low := para.toList.map pyLowerChar
  let parts := (pyWords term.toList).map lowerRun
  countTermGo parts low.length none low

/-- A shift term of the shifts artifact (term plus score). -/
structure ShiftTermQ where
  term : String
  score : ℚ
deriving DecidableEq

/-- One year pair of the shifts artifact. -/
structure ShiftPairQ where
  fromYear : ℤ
  toYear : ℤ
  topRisers : List ShiftTermQ
  topFallers : List ShiftTermQ
deriving DecidableEq

/-- SectionYear of sec_quality.py (lines 91-95). -/
structure QSection where
  year : ℤ
  paragraphs : List String
  confidence : Option ℚ
deriving DecidableEq

/-- An entry of representativeParagraphs. -/
structure ExcerptPara where
  year : ℤ
  paragraphIndex : ℕ
  text : String
deriving DecidableEq

/-- |q| on exact rationals, written out. -/
def qabs (q : ℚ) : ℚ := if q < 0 then -q else q

/-- max on exact rationals, written out. -/
def qmaxQ (a b : ℚ) : ℚ := if a ≤ b then b else a

/-- compile_weighted_patterns (lines 349-364): stripped non-empty terms
with weight max(|score|, 0.5). -/
def compile_weighted (terms : List ShiftTermQ) : List (String × ℚ) :=
  terms.filterMap (fun it =>
    if pyStrip it.term = "" then none
    else some (pyStrip it.term, qmaxQ (qabs it.score) (mkRat 1 2)))

/-- _paragraph_is_candidate (lines 368-378): length in [220, 2600] and a
digit share of at most 0.22, compared exactly. -/
def paragraph_is_candidate (para : String) : Bool :=
  if para = "" then false
  else if para.length < 220 then false
  else if 2600 < para.length then false
  else
    decide ((para.toList.filter (fun c => c.isDigit)).length * 100
      ≤ 22 * max para.length 1)

/-- The score contribution of one pattern list of add_hits (lines
404-413): terms with a positive match count contribute
multiplier * weight * min(count, 3). -/
def addHitsScore (para : String) (pats : List (String × ℚ)) (mult : ℚ) : ℚ :=
  (pats.map (fun tw =>
    if termCount tw.1 para = 0 then 0
    else mult * tw.2 * ((min (termCount tw.1 para) 3 : ℕ) : ℚ))).sum

/-- The hit terms collected by add_hits. -/
def addHitsTerms (para : String) (pats : List (String × ℚ)) : List String :=
  (pats.filter (fun tw => decide (0 < termCount tw.1 para))).map
    (fun tw => tw.1)

/-- Order-preserving first-occurrence deduplication (lines 424-430). -/
def dedupFirst : List String → List String → List String
  | _, [] => []
  | seen, t :: ts =>
    if t ∈ seen then dedupFirst seen ts
    else t :: dedupFirst (t :: seen) ts

/-- score_paragraph (sec_quality.py lines 385-433); the direction is the
flag dirTo (direction "to" versus "from"); returns the score and the
deduplicated hit terms. -/
def score_paragraph (para : String) (risers fallers : List (String × ℚ))
    (dirTo : Bool) : ℚ × List String :=
  if !paragraph_is_candidate para then (0, [])
  else
    if !((if dirTo then risers else fallers).any
        (fun tw => decide (0 < termCount tw.1 para))) then (0, [])
    else
      (addHitsScore para (if dirTo then risers else fallers) 1 +
        addHitsScore para (if dirTo then fallers else risers) (mkRat 1 4),
      dedupFirst []
        (addHitsTerms para (if dirTo then risers else fallers) ++
          addHitsTerms para (if dirTo then fallers else risers)))

/-- The scored paragraph records of select_top_paragraphs (lines 443-458):
score, paragraph index and normalized text. -/
def scoredList (paras : List String) (risers fallers : List (String × ℚ))
    (dirTo : Bool) : List (ℚ × ℕ × String) :=
  (List.range paras.length).filterMap (fun idx =>
    if normalize_excerpt_text (paras.getD idx "") = "" then none
    else if (score_paragraph (normalize_excerpt_text (paras.getD idx ""))
        risers fallers dirTo).1 ≤ 0 then none
    else some ((score_paragraph (normalize_excerpt_text (paras.getD idx ""))
      risers fallers dirTo).1, idx,
      normalize_excerpt_text (paras.getD idx "")))

/-- The sort of line 463: ascending in (-score, len(text)), stable. -/
def scoredLe (a b : ℚ × ℕ × String) : Bool :=
  decide (b.1 < a.1 ∨ (a.1 = b.1 ∧ a.2.2.length ≤ b.2.2.length))

/-- Maximum similarity to the already selected indices (line 492). -/
noncomputable def maxSim (sims : ℕ → ℕ → ℝ) (idx : ℕ)
    (selected : List ℕ) : ℝ :=
  match selected.map (sims idx) with
  | [] => 0
  | x :: xs => xs.foldl max x

/-- The MMR value of a candidate (lines 488-493). -/
noncomputable def mmrVal (sims : ℕ → ℕ → ℝ) (scores : List ℚ)
    (selected : List ℕ) (idx : ℕ) : ℝ :=
  if selected.isEmpty then ((scores.getD idx 0 : ℚ) : ℝ)
  else ((scores.getD idx 0 : ℚ) : ℝ) - (35 / 100 : ℝ) * maxSim sims idx selected

/-- The argmax pass over the candidates (lines 486-496): a later candidate
replaces the best only with a strictly larger MMR value. -/
noncomputable def mmrPick (sims : ℕ → ℕ → ℝ) (scores : List ℚ)
    (selected : List ℕ) (cands : List ℕ) : Option ℕ :=
  cands.foldl (fun best idx =>
    match best with
    | none => some idx
    | some b =>
      if mmrVal sims scores selected b < mmrVal sims scores selected idx
        then some idx else some b) none

/-- The MMR selection loop (lines 485-500); at most 3 =
MAX_PARAGRAPHS_PER_YEAR indices are selected, and the loop runs at most 3
iterations, so a fuel of 3 is exact. -/
noncomputable def mmrLoop (sims : ℕ → ℕ → ℝ) (scores : List ℚ) :
    ℕ → List ℕ → List ℕ → List ℕ
  | 0, _, sel => sel
  | fuel + 1, cands, sel =>
    if cands.isEmpty || decide (3 ≤ sel.length) then sel
    else
      match mmrPick sims scores sel cands with
      | none => sel
      | some b => mmrLoop sims scores fuel (cands.erase b) (sel ++ [b])

/-- The final sort of line 503: descending score, stable. -/
def byScoreDesc (a b : ℚ × ℕ × String) : Bool := decide (b.1 ≤ a.1)

/-- select_top_paragraphs (sec_quality.py lines 435-513).  The tfidf
cosine-similarity matrix of the scored texts and the possibility that
fitting it raises (empty vocabulary) are abstracted as an oracle on the
text list: the oracle decides whether fitting succeeds and provides the
similarity values.  All claims proved below hold for every oracle. -/
noncomputable def select_top_paragraphs
    (oracle : List String → Bool × (ℕ → ℕ → ℝ)) (paras : List String)
    (year : ℤ) (risers fallers : List (String × ℚ)) (dirTo : Bool) :
    List ExcerptPara :=
  if scoredList paras risers fallers dirTo = [] then []
  else
    if (oracle (((scoredList paras risers fallers dirTo).mergeSort
        scoredLe).map (fun x => x.2.2))).1 = false then
      ((((scoredList paras risers fallers dirTo).mergeSort
        scoredLe).take 3).map (fun x => ⟨year, x.2.1, x.2.2⟩))
    else
      ((((mmrLoop (oracle (((scoredList paras risers fallers dirTo).mergeSort
          scoredLe).map (fun x => x.2.2))).2
          (((scoredList paras risers fallers dirTo).mergeSort
            scoredLe).map (fun x => x.1)) 3
          (List.range ((scoredList paras risers fallers dirTo).mergeSort
            scoredLe).length) []).filterMap
          (fun i => (((scoredList paras risers fallers dirTo).mergeSort
            scoredLe)).get? i)).mergeSort byScoreDesc).map
        (fun x => ⟨year, x.2.1, x.2.2⟩))

/-- is_valid_section of sec_quality.py (lines 516-521): confidence absent
or at least 0.5, and a non-empty paragraphs list. -/
def q_is_valid_section : Option QSection → Bool
  | none => false
  | some s =>
    (match s.confidence with
     | none => true
     | some c => decide (mkRat 1 2 ≤ c)) && !s.paragraphs.isEmpty

/-- The sections_by_year dict of line 528: a later section with the same
year overwrites an earlier one. -/
def sectionsByYear (sections : List QSection) (y : ℤ) : Option QSection :=
  sections.reverse.find? (fun s => s.year == y)

/-- build_highlight_terms (lines 323-336). -/
def hlGo : List String → List String → List String
  | _, [] => []
  | seen, t :: ts =>
    if String.mk (lowerRun (pyStripChars t.toList)) = "" ∨
        String.mk (lowerRun (pyStripChars t.toList)) ∈ seen then
      hlGo seen ts
    else t :: hlGo (String.mk (lowerRun (pyStripChars t.toList)) :: seen) ts

/-- build_highlight_terms (lines 323-336): the first 15 risers and 15
fallers, deduplicated by stripped lowercase key. -/
def build_highlight_terms (rs fs : List ShiftTermQ) : List String :=
  hlGo [] ((rs.take 15).map (fun t => t.term) ++
    (fs.take 15).map (fun t => t.term))

/-- One emitted excerpt pair. -/
structure PairOut where
  fromYear : ℤ
  toYear : ℤ
  highlightTerms : List String
  representativeParagraphs : List ExcerptPara

/-- build_excerpt_pairs (sec_quality.py lines 524-562). -/
noncomputable def build_excerpt_pairs
    (oracle : List String → Bool × (ℕ → ℕ → ℝ)) (sections : List QSection)
    (shifts : List ShiftPairQ) : List PairOut :=
  shifts.map (fun shift =>
    ⟨shift.fromYear, shift.toYear,
      build_highlight_terms shift.topRisers shift.topFallers,
      if q_is_valid_section (sectionsByYear sections shift.fromYear) &&
          q_is_valid_section (sectionsByYear sections shift.toYear) then
        (match sectionsByYear sections shift.toYear,
            sectionsByYear sections shift.fromYear with
         | some ts, some fs2 =>
           select_top_paragraphs oracle ts.paragraphs shift.toYear
             (compile_weighted (shift.topRisers.take 15))
             (compile_weighted (shift.topFallers.take 15)) true ++
           select_top_paragraphs oracle fs2.paragraphs shift.fromYear
             (compile_weighted (shift.topRisers.take 15))
             (compile_weighted (shift.topFallers.take 15)) false
         | _, _ => [])
      else []⟩)

end SecQuality

/-! ## Theorems -/

theorem ws_collapse_true (cs : List Char) :
    collapseWsGo true cs = collapseWsGo false (cs.dropWhile pyIsSpaceChar) := by
  induction cs with
  | nil => rfl
  | cons c rest ih =>
    by_cases h : pyIsSpaceChar c
    · simp [collapseWsGo, h, ih, List.dropWhile_cons]
    · simp [collapseWsGo, h, List.dropWhile_cons]

theorem wordsAux_drop_space (cs : List Char) :
    pyWordsAux (cs.dropWhile pyIsSpaceChar) [] = pyWordsAux cs [] := by
  induction cs with
  | nil => rfl
  | cons c rest ih =>
    by_cases h : pyIsSpaceChar c
    · simp [List.dropWhile_cons, h, ih, pyWordsAux]
    · simp [List.dropWhile_cons, h]

theorem strip_cons_space {d : Char} (hd : pyIsSpaceChar d) (cs : List Char) :
    pyStripChars (d :: cs) = pyStripChars cs := by
  simp [pyStripChars, List.dropWhile_cons, hd]

theorem collapse_word_front (w r : List Char)
    (hw : ∀ c ∈ w, pyIsSpaceChar c = false) :
    collapseWsGo false (w ++ r) = w ++ collapseWsGo false r := by
  induction w with
  | nil => rfl
  | cons c tl ih =>
    have hc : pyIsSpaceChar c = false := hw c (by simp)
    simp [collapseWsGo, hc]
    exact ih (fun d hd => hw d (by simp [hd]))

theorem wordsAux_word_front (w : List Char) (r acc : List Char)
    (hw : ∀ c ∈ w, pyIsSpaceChar c = false) :
    pyWordsAux (w ++ r) acc = pyWordsAux r (w.reverse ++ acc) := by
  induction w generalizing acc with
  | nil => simp
  | cons c tl ih =>
    have hc : pyIsSpaceChar c = false := hw c (by simp)
    simp only [List.cons_append, pyWordsAux, hc, Bool.false_eq_true, if_false,
      List.reverse_cons, List.append_assoc, List.singleton_append]
    exact ih (c :: acc) (fun d hd => hw d (by simp [hd]))

theorem dropWhile_all_prefix {p : Char → Bool} (sp r : List Char)
    (hsp : ∀ c ∈ sp, p c) :
    (sp ++ r).dropWhile p = r.dropWhile p := by
  induction sp with
  | nil => rfl
  | cons c tl ih =>
    have hc : p c = true := hsp c (by simp)
    simp only [List.cons_append, List.dropWhile_cons, hc, if_true]
    exact ih (fun d hd => hsp d (by simp [hd]))

theorem dropWhile_no_match (l : List Char) {p : Char → Bool}
    (hl : ∀ c ∈ l, p c = false) : l.dropWhile p = l := by
  cases l with
  | nil => rfl
  | cons c tl => simp [List.dropWhile_cons, hl c (by simp)]

theorem strip_append_spaces (X sp : List Char)
    (hsp : ∀ c ∈ sp, pyIsSpaceChar c) :
    pyStripChars (X ++ sp) = pyStripChars X := by
  unfold pyStripChars
  by_cases hX : X.dropWhile pyIsSpaceChar = []
  · have hXall : ∀ c ∈ X, pyIsSpaceChar c := List.dropWhile_eq_nil_iff.1 hX
    have h1 : (X ++ sp).dropWhile pyIsSpaceChar = [] :=
      List.dropWhile_eq_nil_iff.2 (by
        intro c hc
        rcases List.mem_append.1 hc with h | h
        · exact hXall c h
        · exact hsp c h)
    rw [hX, h1]
  · rw [List.dropWhile_append, if_neg (by simpa [List.isEmpty_iff] using hX),
      List.reverse_append,
      dropWhile_all_prefix sp.reverse _ (fun c hc => hsp c (List.mem_reverse.1 hc))]

theorem strip_no_space (cs : List Char)
    (h : ∀ c ∈ cs, pyIsSpaceChar c = false) : pyStripChars cs = cs := by
  unfold pyStripChars
  rw [dropWhile_no_match cs h,
    dropWhile_no_match cs.reverse (fun c hc => h c (List.mem_reverse.1 hc)),
    List.reverse_reverse]

theorem dropWhile_head_false {p : Char → Bool} :
    ∀ (l : List Char) {d : Char} {t : List Char},
      l.dropWhile p = d :: t → p d = false := by
  intro l
  induction l with
  | nil => intro d t h; simp at h
  | cons c tl ih =>
    intro d t h
    rw [List.dropWhile_cons] at h
    by_cases hpc : p c = true
    · rw [if_pos hpc] at h
      exact ih h
    · rw [if_neg hpc] at h
      cases h
      simpa using hpc

theorem wordsAux_acc_ne_nil :
    ∀ (cs acc : List Char), acc ≠ [] → pyWordsAux cs acc ≠ [] := by
  intro cs
  induction cs with
  | nil =>
    intro acc hacc
    simp [pyWordsAux, List.isEmpty_iff, hacc]
  | cons c rest ih =>
    intro acc hacc
    by_cases hc : pyIsSpaceChar c
    · simp [pyWordsAux, hc, List.isEmpty_iff, hacc]
    · simpa [pyWordsAux, hc] using ih (c :: acc) (by simp)

theorem joinWords_cons (w : List Char) (ws : List (List Char)) (h : ws ≠ []) :
    joinWords (w :: ws) = w ++ ' ' :: joinWords ws := by
  cases ws with
  | nil => exact absurd rfl h
  | cons w2 ws2 => rfl

theorem strip_word_gap (w : List Char) (hw : ∀ c ∈ w, pyIsSpaceChar c = false)
    (hwne : w ≠ []) (e : Char) (Z' : List Char)
    (he : pyIsSpaceChar e = false) :
    pyStripChars (w ++ ' ' :: (e :: Z')) = w ++ ' ' :: pyStripChars (e :: Z') := by
  unfold pyStripChars
  have hlead : (w ++ ' ' :: (e :: Z')).dropWhile pyIsSpaceChar
      = w ++ ' ' :: (e :: Z') := by
    cases w with
    | nil => exact absurd rfl hwne
    | cons c0 w0 => simp [List.dropWhile_cons, hw c0 (by simp)]
  have hleadZ : (e :: Z').dropWhile pyIsSpaceChar = e :: Z' := by
    simp [List.dropWhile_cons, he]
  rw [hlead, hleadZ]
  have hrev : (w ++ ' ' :: (e :: Z')).reverse
      = (e :: Z').reverse ++ ' ' :: w.reverse := by
    simp
  rw [hrev]
  have hne : (e :: Z').reverse.dropWhile pyIsSpaceChar ≠ [] := by
    intro hnil
    have := List.dropWhile_eq_nil_iff.1 hnil e (by simp)
    rw [he] at this
    exact absurd this (by simp)
  rw [List.dropWhile_append, if_neg (by simpa [List.isEmpty_iff] using hne)]
  simp


theorem dropWhile_length_le (p : Char → Bool) (l : List Char) :
    (l.dropWhile p).length ≤ l.length := by
  induction l with
  | nil => simp
  | cons d tl ih =>
    rw [List.dropWhile_cons]
    split
    · exact Nat.le_trans ih (Nat.le_succ _)
    · simp

theorem stripCollapse_eq_joinWords (cs : List Char) :
    pyStripChars (collapseWs cs) = joinWords (pyWords cs) := by
  suffices h : ∀ (n : ℕ) (cs : List Char), cs.length ≤ n →
      pyStripChars (collapseWsGo false cs) = joinWords (pyWordsAux cs []) from
    h cs.length cs le_rfl
  intro n
  induction n with
  | zero =>
    intro cs hlen
    have : cs = [] := List.length_eq_zero.1 (Nat.le_zero.1 hlen)
    subst this
    rfl
  | succ n ih =>
    intro cs hlen
    match cs with
    | [] => rfl
    | c :: rest =>
      have hrestn : rest.length ≤ n := by simpa using hlen
      by_cases hc : pyIsSpaceChar c
      · have lhs : pyStripChars (collapseWsGo false (c :: rest))
            = pyStripChars (collapseWsGo false (rest.dropWhile pyIsSpaceChar)) := by
          simp only [collapseWsGo, hc, if_true, Bool.false_eq_true, if_false]
          rw [strip_cons_space (show pyIsSpaceChar ' ' = true by decide) _,
            ws_collapse_true]
        have rhs : pyWordsAux (c :: rest) [] =
            pyWordsAux (rest.dropWhile pyIsSpaceChar) [] := by
          simp [pyWordsAux, hc, wordsAux_drop_space]
        rw [lhs, rhs]
        exact ih _ (le_trans (dropWhile_length_le pyIsSpaceChar rest) hrestn)
      · have hcf : pyIsSpaceChar c = false := by simpa using hc
        set w' := rest.takeWhile (fun d => !pyIsSpaceChar d) with hw'def
        set r := rest.dropWhile (fun d => !pyIsSpaceChar d) with hrdef
        have hrest : w' ++ r = rest := List.takeWhile_append_dropWhile _ _
        have hw' : ∀ d ∈ w', pyIsSpaceChar d = false := by
          intro d hd
          have := List.mem_takeWhile_imp hd
          simpa using this
        have hcw' : ∀ d ∈ (c :: w'), pyIsSpaceChar d = false := by
          intro d hd
          rcases List.mem_cons.1 hd with h | h
          · subst h
            exact hcf
          · exact hw' d h
        have lhs1 : collapseWsGo false (c :: rest)
            = (c :: w') ++ collapseWsGo false r := by
          conv_lhs => rw [← hrest]
          simp only [collapseWsGo, hcf, Bool.false_eq_true, if_false]
          rw [collapse_word_front w' r hw']
          simp
        have rhs1 : pyWordsAux (c :: rest) [] = pyWordsAux r (w'.reverse ++ [c]) := by
          conv_lhs => rw [← hrest]
          simp only [List.cons_append, pyWordsAux, hcf, Bool.false_eq_true, if_false]
          rw [wordsAux_word_front w' r [c] hw']
        rw [lhs1, rhs1]
        have haccrev : (w'.reverse ++ [c]).reverse = c :: w' := by simp
        match hr : r with
        | [] =>
          rw [show collapseWsGo false ([] : List Char) = [] from rfl]
          rw [List.append_nil]
          rw [strip_no_space _ hcw']
          simp [pyWordsAux, joinWords]
        | d :: rt =>
          have hd : pyIsSpaceChar d = true := by
            have := dropWhile_head_false rest hrdef.symm
            simpa using this
          have hrtn : rt.length ≤ n := by
            have h1 := dropWhile_length_le (fun d => !pyIsSpaceChar d) rest
            rw [← hrdef] at h1
            simp at h1
            omega
          have haccne : w'.reverse ++ [c] ≠ [] := by simp
          have rhs2 : pyWordsAux (d :: rt) (w'.reverse ++ [c])
              = (c :: w') :: pyWordsAux (rt.dropWhile pyIsSpaceChar) [] := by
            simp only [pyWordsAux, hd, if_true, haccrev]
            rw [if_neg (by simp [List.isEmpty_iff])]
            rw [wordsAux_drop_space]
          have lhs2 : collapseWsGo false (d :: rt)
              = ' ' :: collapseWsGo false (rt.dropWhile pyIsSpaceChar) := by
            simp only [collapseWsGo, hd, if_true, Bool.false_eq_true, if_false]
            rw [ws_collapse_true]
          rw [lhs2, rhs2]
          have hrun : (rt.dropWhile pyIsSpaceChar).length ≤ n :=
            le_trans (dropWhile_length_le pyIsSpaceChar rt) hrtn
          match hru : rt.dropWhile pyIsSpaceChar with
          | [] =>
            rw [show collapseWsGo false ([] : List Char) = [] from rfl]
            rw [strip_append_spaces (c :: w') [' '] (by
              intro x hx
              simp at hx
              subst hx
              decide)]
            rw [strip_no_space _ hcw']
            simp [pyWordsAux, joinWords]
          | e :: ru =>
            have he : pyIsSpaceChar e = false := dropWhile_head_false rt hru
            have lhs3 : collapseWsGo false (e :: ru)
                = e :: collapseWsGo false ru := by
              simp [collapseWsGo, he]
            rw [lhs3]
            rw [strip_word_gap (c :: w') hcw' (by simp) e _ he]
            rw [← lhs3]
            have hlen3 : (e :: ru).length ≤ n := by
              rw [← hru]
              exact hrun
            rw [ih (e :: ru) hlen3]
            have hwne : pyWordsAux (e :: ru) [] ≠ [] := by
              simp only [pyWordsAux, he, Bool.false_eq_true, if_false]
              exact wordsAux_acc_ne_nil ru [e] (by simp)
            rw [joinWords_cons _ _ hwne]

theorem pyLowerChar_extras {c : Char}
    (hmem : pyLowerChar c ∈ extraNormalizerChars) : c ∈ extraNormalizerChars := by
  unfold pyLowerChar at hmem
  split at hmem <;> first
    | (exfalso; revert hmem; decide)
    | exact hmem

theorem wordPredEq (d : Char) :
    (pyIsWordChar d || pyIsSpaceChar d)
      = (pyIsAlnumChar d || pyIsSpaceChar d || decide (d = '_')) := by
  unfold pyIsWordChar pyIsAlnumChar
  cases hA : d.isAlphanum <;> cases hS : pyIsSpaceChar d <;>
    cases hU : (decide (d = '_')) <;> simp [hA, hS, hU]

theorem dashStepEq {lc : Char} (hlc : lc ∉ extraNormalizerChars) :
    (if lc ∈ SecMetrics.hyphenClassChars then ' ' else lc)
      = (if lc = '-' || lc = '–' || lc = '—' then ' ' else lc) := by
  by_cases hd : lc = '-' ∨ lc = '–' ∨ lc = '—'
  · rw [if_pos (by simp [SecMetrics.hyphenClassChars]; tauto),
      if_pos (by simp; tauto)]
  · rw [if_neg (by
      simp only [SecMetrics.hyphenClassChars, extraNormalizerChars] at hlc ⊢
      intro hmem
      simp at hmem hlc
      tauto),
      if_neg (by simp; tauto)]

theorem keptListsEq :
    ∀ (cs : List Char), (∀ c ∈ cs, c ∉ extraNormalizerChars) →
      ((cs.map pyLowerChar).map
          (fun c => if c ∈ SecMetrics.hyphenClassChars then ' ' else c)).filter
          (fun c => pyIsWordChar c || pyIsSpaceChar c)
        = ((cs.map pyLowerChar).map
            (fun c => if c = '-' || c = '–' || c = '—' then ' ' else c)).filter
            (fun c => pyIsAlnumChar c || pyIsSpaceChar c || decide (c = '_')) := by
  intro cs h
  induction cs with
  | nil => rfl
  | cons c tl ih =>
    have hc : c ∉ extraNormalizerChars := h c (by simp)
    have hlc : pyLowerChar c ∉ extraNormalizerChars :=
      fun hmem => hc (pyLowerChar_extras hmem)
    have hstep := dashStepEq hlc
    simp only [List.map_cons, List.filter_cons]
    rw [hstep, wordPredEq]
    rw [ih (fun d hd => h d (by simp [hd]))]

/-- C6 (amended): normalize_canonical_term (sec_metrics.py) and
normalize_variant (build_canonical_terms.py) return the same normalized
string on every input that contains none of the characters on which their
dash/apostrophe handling differs, namely the Unicode hyphen, the
non-breaking hyphen, the figure dash, the minus sign, the ASCII apostrophe
and the curly single quotes (normalize_canonical_term turns these into
spaces, normalize_variant deletes them). -/
theorem c6_normalizers_agree (s : String)
    (h : ∀ c ∈ s.toList, c ∉ extraNormalizerChars) :
    SecMetrics.normalize_canonical_term s = BuildCanonical.normalize_variant s := by
  unfold SecMetrics.normalize_canonical_term BuildCanonical.normalize_variant
  dsimp only []
  rw [keptListsEq s.toList h, stripCollapse_eq_joinWords]

/-- C6 witness: the two normalizers agree on a concrete mixed-case,
ASCII-hyphenated input. -/
theorem c6_normalizers_agree_witness :
    SecMetrics.normalize_canonical_term "Supply-chain  Risk" =
      BuildCanonical.normalize_variant "Supply-chain  Risk" :=
  c6_normalizers_agree "Supply-chain  Risk" (by decide)

/-- C6 counterexample: on the input "risk‐based" (with the Unicode hyphen
U+2010, a HYPHEN_CLASS member), normalize_canonical_term returns
"risk based" while normalize_variant returns "riskbased"; the two
normalizations are not the same function, refuting the claim as stated. -/
theorem c6_counterexample :
    SecMetrics.normalize_canonical_term "risk‐based" = "risk based" ∧
    BuildCanonical.normalize_variant "risk‐based" = "riskbased" ∧
    SecMetrics.normalize_canonical_term "risk‐based" ≠
      BuildCanonical.normalize_variant "risk‐based" := by
  refine ⟨by decide, by decide, by decide⟩


/-! ### C8: the low-confidence warning tag -/

theorem mem_ensure_low_confidence (l : List String) :
    "low_confidence_item1a" ∈ SecFetch.ensure_low_confidence l := by
  unfold SecFetch.ensure_low_confidence
  split
  · assumption
  · simp

/-- C8 (confirmed): whenever the extraction of a filing yields a confidence
below 0.5 or empty section text, the warning list of the assembled
extraction result contains low_confidence_item1a; the missing-document
result build_missing_extraction carries the tag as well. -/
theorem c8_low_confidence_tag (inner : SecFetch.InnerExtract)
    (extra : Option (List String))
    (htrig : inner.confidence < 1/2 ∨ inner.sectionText = "") :
    "low_confidence_item1a" ∈
        (SecFetch.extract_item1a_from_html_bytes inner extra).warnings ∧
    "low_confidence_item1a" ∈ SecFetch.build_missing_extraction.warnings := by
  constructor
  · unfold SecFetch.extract_item1a_from_html_bytes
    have hcond : inner.confidence < 1/2 ∨ pyStrip inner.sectionText = "" := by
      rcases htrig with h | h
      · exact Or.inl h
      · right
        rw [h]
        rfl
    rw [if_pos hcond]
    exact mem_ensure_low_confidence _
  · show "low_confidence_item1a" ∈ SecFetch.ensure_low_confidence ["html_missing"]
    exact mem_ensure_low_confidence _

/-- C8 witness: a concrete failed extraction (confidence 0, empty text). -/
theorem c8_low_confidence_tag_witness :
    "low_confidence_item1a" ∈
        (SecFetch.extract_item1a_from_html_bytes
          ⟨"", 0, "not_found", ["item1a_not_found"]⟩ none).warnings ∧
    "low_confidence_item1a" ∈ SecFetch.build_missing_extraction.warnings :=
  c8_low_confidence_tag ⟨"", 0, "not_found", ["item1a_not_found"]⟩ none
    (Or.inl (by norm_num))

/-! ### C9: the variant-overlap validation error -/

namespace BuildCanonical

theorem validate_ok (v : String) (cid : String) (errs warns : List String)
    (hacc : variantAccepted v) :
    ∃ w, validate_variant (.str v) cid errs warns
      = (some (normalize_variant (pyStrip v)), errs, w) := by
  obtain ⟨h1, h2, h3, h4, h5⟩ := hacc
  unfold validate_variant
  dsimp only []
  rw [if_neg h1, if_neg h2]
  rw [if_neg (by
    intro hbad
    rw [h3] at hbad
    simp at hbad)]
  rw [if_neg h4]
  rw [if_neg (by
    intro hcon
    rcases h5 with h5 | h5
    · omega
    · exact hcon.2 h5)]
  by_cases h6 : 5 < token_count (normalize_variant (pyStrip v))
  · exact ⟨_, by rw [if_pos h6]⟩
  · exact ⟨_, by rw [if_neg h6]⟩

theorem as_str_dict_concept (cid lab : String) (vs : List String) :
    as_str_dict (mkConceptY cid lab vs)
      = some [("id", YVal.str cid), ("label", YVal.str lab),
          ("variants", YVal.list (vs.map YVal.str))] := rfl

theorem processConcept_normal (cid lab : String) (vs : List String)
    (st : CState) (hcid : cid ≠ "") (hfresh : cid ∉ st.conceptIds) :
    processConcept (mkConceptY cid lab vs) st
      = conceptTail cid (labelOutOf (some (.str lab))) (notesOutOf none) none st
          (varStage cid (vs.map .str)
            (st.errors ++ labelErrsOf cid (some (.str lab)) ++
              variantsErrsOf cid (some (vs.map .str))) st) := by
  unfold processConcept
  rw [as_str_dict_concept]
  show (if cid = "" then _ else if cid ∈ st.conceptIds then _ else _) = _
  rw [if_neg hcid, if_neg hfresh]
  rfl

theorem processPlainVariant_fresh (cid v : String) (errs warns : List String)
    (vtc : List (String × String)) (hacc : variantAccepted v)
    (hnew : vtc.lookup (normalize_variant (pyStrip v)) = none) :
    ∃ w, processPlainVariant cid (.str v) ⟨errs, warns, [], [], vtc⟩
      = ⟨errs, w, [normalize_variant (pyStrip v)],
          [normalize_variant (pyStrip v)],
          dinsertStr vtc (normalize_variant (pyStrip v)) cid⟩ := by
  obtain ⟨w, hw⟩ := validate_ok v cid errs warns hacc
  refine ⟨w, ?_⟩
  unfold processPlainVariant
  rw [hw]
  show (if normalize_variant (pyStrip v) ∈ ([] : List String) then _ else _) = _
  rw [if_neg (by simp)]
  rw [hnew]
  rfl

theorem processPlainVariant_overlap (cid v existing : String)
    (errs warns : List String) (vtc : List (String × String))
    (hacc : variantAccepted v)
    (hex : vtc.lookup (normalize_variant (pyStrip v)) = some existing)
    (hne : existing ≠ cid) :
    ∃ w, processPlainVariant cid (.str v) ⟨errs, warns, [], [], vtc⟩
      = ⟨errs ++ ["variant overlap: " ++ normalize_variant (pyStrip v) ++
            " in " ++ existing ++ " and " ++ cid], w, [], [], vtc⟩ := by
  obtain ⟨w, hw⟩ := validate_ok v cid errs warns hacc
  refine ⟨w, ?_⟩
  unfold processPlainVariant
  rw [hw]
  show (if normalize_variant (pyStrip v) ∈ ([] : List String) then _ else _) = _
  rw [if_neg (by simp)]
  rw [hex]
  show (if existing ≠ cid then _ else _) = _
  rw [if_pos hne]

theorem string_toList_append (a b : String) :
    (a ++ b).toList = a.toList ++ b.toList := by
  simp [String.toList]

theorem label_errs_none {cid lab : String} (hlab : lab ≠ "") :
    labelErrsOf cid (some (.str lab)) = [] := by
  unfold labelErrsOf
  show (if lab = "" then _ else _) = _
  rw [if_neg hlab]

/-- C9 core: a specification whose concepts are two concepts with distinct
non-empty ids and non-empty labels, each listing one variant, the two
variants having the same normalization and passing the per-variant checks,
fails compilation with exactly the variant-overlap error. -/
theorem compile_terms_overlap (cid1 cid2 lab1 lab2 v1 v2 : String)
    (h1 : cid1 ≠ "") (h2 : cid2 ≠ "") (hne : cid1 ≠ cid2)
    (hl1 : lab1 ≠ "") (hl2 : lab2 ≠ "")
    (hsame : normalize_variant (pyStrip v2) = normalize_variant (pyStrip v1))
    (hacc1 : variantAccepted v1) (hacc2 : variantAccepted v2) :
    compile_terms [("version", YVal.str "1"),
        ("concepts", YVal.list [mkConceptY cid1 lab1 [v1],
          mkConceptY cid2 lab2 [v2]])]
      = .error ["variant overlap: " ++ normalize_variant (pyStrip v1) ++
          " in " ++ cid1 ++ " and " ++ cid2] := by
  obtain ⟨wA, hwA⟩ := processPlainVariant_fresh cid1 v1 [] [] [] hacc1 rfl
  have hstep1 : processConcept (mkConceptY cid1 lab1 [v1]) ⟨[], [], [], [], [], 0⟩
      = conceptTail cid1 lab1 none none ⟨[], [], [], [], [], 0⟩
          ⟨[], wA, [normalize_variant (pyStrip v1)],
            [normalize_variant (pyStrip v1)],
            dinsertStr [] (normalize_variant (pyStrip v1)) cid1⟩ := by
    rw [processConcept_normal cid1 lab1 [v1] _ h1 (by simp)]
    rw [label_errs_none hl1]
    show conceptTail cid1 (labelOutOf (some (.str lab1))) (notesOutOf none) none
        ⟨[], [], [], [], [], 0⟩
        (processPlainVariant cid1 (.str v1) ⟨[], [], [], [], []⟩) = _
    rw [hwA]
    rfl
  -- the state after the first concept
  set st1 := conceptTail cid1 lab1 none none ⟨[], [], [], [], [], 0⟩
      ⟨[], wA, [normalize_variant (pyStrip v1)],
        [normalize_variant (pyStrip v1)],
        dinsertStr [] (normalize_variant (pyStrip v1)) cid1⟩ with hst1def
  have hst1vtc : st1.vtc = [(normalize_variant (pyStrip v1), cid1)] := rfl
  have hst1ids : st1.conceptIds = [cid1] := rfl
  have hex : st1.vtc.lookup (normalize_variant (pyStrip v2)) = some cid1 := by
    rw [hst1vtc, hsame]
    simp [List.lookup]
  obtain ⟨wB, hwB⟩ := processPlainVariant_overlap cid2 v2 cid1 [] st1.warnings
    st1.vtc hacc2 hex hne
  have hstep2 : processConcept (mkConceptY cid2 lab2 [v2]) st1
      = conceptTail cid2 lab2 none none st1
          ⟨["variant overlap: " ++ normalize_variant (pyStrip v2) ++ " in " ++
              cid1 ++ " and " ++ cid2], wB, [], [], st1.vtc⟩ := by
    rw [processConcept_normal cid2 lab2 [v2] st1 h2 (by
      rw [hst1ids]
      simp
      exact fun hcon => hne hcon.symm)]
    rw [label_errs_none hl2]
    show conceptTail cid2 (labelOutOf (some (.str lab2))) (notesOutOf none) none
        st1 (processPlainVariant cid2 (.str v2)
          ⟨[], st1.warnings, [], [], st1.vtc⟩) = _
    rw [hwB]
    rfl
  have hctwo : compile_terms [("version", YVal.str "1"),
      ("concepts", YVal.list [mkConceptY cid1 lab1 [v1],
        mkConceptY cid2 lab2 [v2]])]
      = (if (processConcept (mkConceptY cid2 lab2 [v2])
            (processConcept (mkConceptY cid1 lab1 [v1])
              ⟨[], [], [], [], [], 0⟩)).errors ≠ [] then
          Except.error (processConcept (mkConceptY cid2 lab2 [v2])
            (processConcept (mkConceptY cid1 lab1 [v1])
              ⟨[], [], [], [], [], 0⟩)).errors
        else compile_terms [("version", YVal.str "1"),
          ("concepts", YVal.list [mkConceptY cid1 lab1 [v1],
            mkConceptY cid2 lab2 [v2]])]) := by
    by_cases hcase : (processConcept (mkConceptY cid2 lab2 [v2])
        (processConcept (mkConceptY cid1 lab1 [v1])
          ⟨[], [], [], [], [], 0⟩)).errors = []
    · rw [if_neg (by simp [hcase])]
    · rw [if_pos hcase]
      unfold compile_terms
      show (if (([] : List String) ++ []) ≠ [] then _ else _) = _
      rw [if_neg (by simp)]
      show (if (processConcept (mkConceptY cid2 lab2 [v2])
          (processConcept (mkConceptY cid1 lab1 [v1])
            ⟨[], [], [], [], [], 0⟩)).errors ≠ [] then _ else _) = _
      rw [if_pos hcase]
      rfl
  rw [hctwo, hstep1, hstep2]
  have herr : (conceptTail cid2 lab2 none none st1
      ⟨["variant overlap: " ++ normalize_variant (pyStrip v2) ++ " in " ++
          cid1 ++ " and " ++ cid2], wB, [], [], st1.vtc⟩).errors
      = ["variant overlap: " ++ normalize_variant (pyStrip v2) ++ " in " ++
          cid1 ++ " and " ++ cid2] := rfl
  rw [herr, if_pos (by simp), hsame]

/-- C9 (confirmed): a canonical-terms specification in which two different
concepts (distinct non-empty ids, non-empty labels) both list a variant
with the same normalization that passes the per-variant checks fails
validation: the build exits with code 2 and prints an error line containing
"variant overlap". -/
theorem c9_variant_overlap_exit2 (cid1 cid2 lab1 lab2 v1 v2 : String)
    (h1 : cid1 ≠ "") (h2 : cid2 ≠ "") (hne : cid1 ≠ cid2)
    (hl1 : lab1 ≠ "") (hl2 : lab2 ≠ "")
    (hsame : normalize_variant (pyStrip v2) = normalize_variant (pyStrip v1))
    (hacc1 : variantAccepted v1) (hacc2 : variantAccepted v2) :
    (runCompile [("version", YVal.str "1"),
        ("concepts", YVal.list [mkConceptY cid1 lab1 [v1],
          mkConceptY cid2 lab2 [v2]])]).1 = 2 ∧
    ∃ line ∈ (runCompile [("version", YVal.str "1"),
        ("concepts", YVal.list [mkConceptY cid1 lab1 [v1],
          mkConceptY cid2 lab2 [v2]])]).2,
      List.IsInfix "variant overlap".toList line.toList := by
  have hc := compile_terms_overlap cid1 cid2 lab1 lab2 v1 v2 h1 h2 hne hl1 hl2
    hsame hacc1 hacc2
  unfold runCompile
  rw [hc]
  constructor
  · rfl
  · refine ⟨"error: " ++ ("variant overlap: " ++ normalize_variant (pyStrip v1)
      ++ " in " ++ cid1 ++ " and " ++ cid2), by simp, ?_⟩
    refine ⟨"error: ".toList,
      (": " ++ normalize_variant (pyStrip v1) ++ " in " ++ cid1 ++ " and "
        ++ cid2).toList, ?_⟩
    simp only [string_toList_append, List.append_assoc]
    have hlit : "variant overlap".toList ++ ": ".toList = "variant overlap: ".toList := by
      decide
    rw [← hlit]
    simp only [List.append_assoc]

/-- C9 witness: the concrete collision of the specification scenario, two
concepts both listing the variant "ai". -/
theorem c9_variant_overlap_exit2_witness :
    (runCompile [("version", YVal.str "1"),
        ("concepts", YVal.list [mkConceptY "ai_general" "AI" ["ai"],
          mkConceptY "machine_learning" "Machine learning" ["ai"]])]).1 = 2 ∧
    ∃ line ∈ (runCompile [("version", YVal.str "1"),
        ("concepts", YVal.list [mkConceptY "ai_general" "AI" ["ai"],
          mkConceptY "machine_learning" "Machine learning" ["ai"]])]).2,
      List.IsInfix "variant overlap".toList line.toList :=
  c9_variant_overlap_exit2 "ai_general" "machine_learning" "AI"
    "Machine learning" "ai" "ai" (by decide) (by decide) (by decide)
    (by decide) (by decide) rfl (by decide) (by decide)

end BuildCanonical

namespace SecMetrics

theorem log_odds_stats_eval (cp cc : List (String × ℕ)) (alpha : ℚ)
    (term : String) (hterm : term ∈ vocabOf cp cc)
    (hdp : 0 < (ctotal cp : ℚ) - (cget cp term : ℚ) +
      alpha * ((vocabOf cp cc).length : ℚ))
    (hdc : 0 < (ctotal cc : ℚ) - (cget cc term : ℚ) +
      alpha * ((vocabOf cp cc).length : ℚ)) :
    log_odds_stats cp cc alpha term
      = some (mkShiftStats term (cget cp term) (cget cc term) (ctotal cp)
          (ctotal cc) alpha (vocabOf cp cc).length) := by
  unfold log_odds_stats
  rw [if_neg (by
    intro hempty
    rw [List.isEmpty_iff] at hempty
    rw [hempty] at hterm
    simp at hterm)]
  rw [if_neg (by simp [hterm])]
  rw [if_neg (by push_neg; exact ⟨hdp, hdc⟩)]

theorem shift_ai_eval :
    log_odds_stats [("ai", 0), ("supply", 50)] [("ai", 50), ("supply", 0)]
        (1/100) "ai"
      = some (mkShiftStats "ai" 0 50 50 50 (1/100) 2) := by
  have h := log_odds_stats_eval [("ai", 0), ("supply", 50)]
    [("ai", 50), ("supply", 0)] (1/100) "ai" (by decide)
    (by
      rw [show ctotal [("ai", 0), ("supply", 50)] = 50 from rfl,
        show cget [("ai", 0), ("supply", 50)] "ai" = 0 from rfl,
        show (vocabOf [("ai", 0), ("supply", 50)]
          [("ai", 50), ("supply", 0)]).length = 2 from rfl]
      norm_num)
    (by
      rw [show ctotal [("ai", 50), ("supply", 0)] = 50 from rfl,
        show cget [("ai", 50), ("supply", 0)] "ai" = 50 from rfl,
        show (vocabOf [("ai", 0), ("supply", 50)]
          [("ai", 50), ("supply", 0)]).length = 2 from rfl]
      norm_num)
  exact h

theorem shift_sup_eval :
    log_odds_stats [("ai", 0), ("supply", 50)] [("ai", 50), ("supply", 0)]
        (1/100) "supply"
      = some (mkShiftStats "supply" 50 0 50 50 (1/100) 2) := by
  have h := log_odds_stats_eval [("ai", 0), ("supply", 50)]
    [("ai", 50), ("supply", 0)] (1/100) "supply" (by decide)
    (by
      rw [show ctotal [("ai", 0), ("supply", 50)] = 50 from rfl,
        show cget [("ai", 0), ("supply", 50)] "supply" = 50 from rfl,
        show (vocabOf [("ai", 0), ("supply", 50)]
          [("ai", 50), ("supply", 0)]).length = 2 from rfl]
      norm_num)
    (by
      rw [show ctotal [("ai", 50), ("supply", 0)] = 50 from rfl,
        show cget [("ai", 50), ("supply", 0)] "supply" = 0 from rfl,
        show (vocabOf [("ai", 0), ("supply", 50)]
          [("ai", 50), ("supply", 0)]).length = 2 from rfl]
      norm_num)
  exact h

theorem shift_score_ai :
    lodScore 0 50 50 50 (1/100) 2
      = Real.log ((5001:ℝ)/2) - Real.log ((1:ℝ)/5002) := by
  unfold lodScore
  push_cast
  norm_num

theorem shift_score_sup :
    lodScore 50 0 50 50 (1/100) 2
      = Real.log ((1:ℝ)/5002) - Real.log ((5001:ℝ)/2) := by
  unfold lodScore
  push_cast
  norm_num

theorem shift_score_ai_pos : 0 < lodScore 0 50 50 50 (1/100) 2 := by
  rw [shift_score_ai]
  have h1 := Real.log_pos (by norm_num : (1:ℝ) < 5001/2)
  have h2 := Real.log_neg (by norm_num) (by norm_num : (1:ℝ)/5002 < 1)
  linarith

theorem shift_score_sup_neg : lodScore 50 0 50 50 (1/100) 2 < 0 := by
  rw [shift_score_sup]
  have h1 := Real.log_pos (by norm_num : (1:ℝ) < 5001/2)
  have h2 := Real.log_neg (by norm_num) (by norm_num : (1:ℝ)/5002 < 1)
  linarith

theorem shift_score_ai_lt : lodScore 0 50 50 50 (1/100) 2 < 20 := by
  rw [shift_score_ai]
  have h5002 : Real.log ((1:ℝ)/5002) = - Real.log 5002 := by
    rw [one_div, Real.log_inv]
  have hmul : Real.log ((5001:ℝ)/2) + Real.log 5002 = Real.log 12507501 := by
    rw [← Real.log_mul (by norm_num) (by norm_num)]; norm_num
  have hlt : Real.log (12507501:ℝ) < 20 := by
    rw [Real.log_lt_iff_lt_exp (by norm_num)]
    have h27 : (2.7:ℝ) < Real.exp 1 := lt_trans (by norm_num) Real.exp_one_gt_d9
    have hpow : (2.7:ℝ)^(20:ℕ) < (Real.exp 1)^(20:ℕ) :=
      pow_lt_pow_left₀ h27 (by norm_num) (by norm_num)
    have hexp : Real.exp (20:ℝ) = (Real.exp 1)^(20:ℕ) := by
      rw [show (20:ℝ) = ((20:ℕ) * (1:ℝ)) by norm_num, Real.exp_nat_mul]
    calc (12507501:ℝ) < (2.7:ℝ)^(20:ℕ) := by norm_num
      _ < (Real.exp 1)^(20:ℕ) := hpow
      _ = Real.exp 20 := hexp.symm
  linarith

theorem shift_zden_ai :
    lodZ 0 50 50 50 (1/100) 2
      = lodScore 0 50 50 50 (1/100) 2 / Real.sqrt ((500200:ℝ)/5001) := by
  unfold lodZ
  congr 1
  push_cast
  norm_num

theorem shift_zden_sup :
    lodZ 50 0 50 50 (1/100) 2
      = lodScore 50 0 50 50 (1/100) 2 / Real.sqrt ((500200:ℝ)/5001) := by
  unfold lodZ
  congr 1
  push_cast
  norm_num

theorem shift_sqrt_ge : (10:ℝ) ≤ Real.sqrt ((500200:ℝ)/5001) := by
  rw [show (10:ℝ) = Real.sqrt 100 by
    rw [show (100:ℝ) = 10^2 by norm_num, Real.sqrt_sq (by norm_num : (0:ℝ) ≤ 10)]]
  apply Real.sqrt_le_sqrt; norm_num

theorem shift_z_ai : |lodZ 0 50 50 50 (1/100) 2| < 2 := by
  rw [shift_zden_ai]
  have hsq := shift_sqrt_ge
  have hsqpos : (0:ℝ) < Real.sqrt ((500200:ℝ)/5001) :=
    lt_of_lt_of_le (by norm_num) hsq
  have hpos := shift_score_ai_pos
  have hlt := shift_score_ai_lt
  rw [abs_of_nonneg (div_nonneg hpos.le hsqpos.le), div_lt_iff₀ hsqpos]
  nlinarith

theorem shift_score_sup_eq_neg :
    lodScore 50 0 50 50 (1/100) 2 = - lodScore 0 50 50 50 (1/100) 2 := by
  rw [shift_score_ai, shift_score_sup]; ring

theorem shift_z_sup : |lodZ 50 0 50 50 (1/100) 2| < 2 := by
  rw [shift_zden_sup, abs_div, abs_of_nonneg (Real.sqrt_nonneg _),
    shift_score_sup_eq_neg, abs_neg,
    abs_of_nonneg shift_score_ai_pos.le]
  have hsq := shift_sqrt_ge
  have hsqpos : (0:ℝ) < Real.sqrt ((500200:ℝ)/5001) :=
    lt_of_lt_of_le (by norm_num) hsq
  have hlt := shift_score_ai_lt
  rw [div_lt_iff₀ hsqpos]
  nlinarith

theorem shift_statsList_eval :
    statsList [("ai", 0), ("supply", 50)] [("ai", 50), ("supply", 0)] (1/100)
      = [mkShiftStats "ai" 0 50 50 50 (1/100) 2,
         mkShiftStats "supply" 50 0 50 50 (1/100) 2] := by
  unfold statsList
  rw [show vocabOf [("ai", 0), ("supply", 50)] [("ai", 50), ("supply", 0)]
    = ["ai", "supply"] from rfl]
  rw [List.filterMap_cons_some shift_ai_eval,
    List.filterMap_cons_some shift_sup_eval, List.filterMap_nil]

theorem shift_topRisers_eval :
    topRisers [("ai", 0), ("supply", 50)] [("ai", 50), ("supply", 0)] (1/100)
      = ([mkShiftStats "ai" 0 50 50 50 (1/100) 2,
          mkShiftStats "supply" 50 0 50 50 (1/100) 2].mergeSort riserLe) := by
  unfold topRisers
  rw [shift_statsList_eval]
  exact List.take_of_length_le (by
    rw [(List.mergeSort_perm _ _).length_eq]; norm_num)

theorem shift_topFallers_eval :
    topFallers [("ai", 0), ("supply", 50)] [("ai", 50), ("supply", 0)] (1/100)
      = ([mkShiftStats "ai" 0 50 50 50 (1/100) 2,
          mkShiftStats "supply" 50 0 50 50 (1/100) 2].mergeSort fallerLe) := by
  unfold topFallers
  rw [shift_statsList_eval]
  exact List.take_of_length_le (by
    rw [(List.mergeSort_perm _ _).length_eq]; norm_num)

end SecMetrics

namespace SecMetrics

/-- C4 (amended): the shift analyzer computes, for every term of the union
vocabulary whose smoothed denominators are positive, exactly the claimed
smoothed log-odds score, z statistic, per-10k rates, delta and
distinctiveness flag; and on the concrete scenario counts_prev =
(ai 0, supply 50), counts_curr = (ai 50, supply 0) with alpha = 1/100,
"ai" appears among the top risers with positive score, "supply" among the
top fallers with negative score, both satisfy the delta and combined-count
gates, yet neither is marked distinctive because the magnitude of z stays
below 2. -/
theorem c4_log_odds (cp cc : List (String × ℕ)) (alpha : ℚ) (term : String)
    (hterm : term ∈ vocabOf cp cc)
    (hdp : 0 < (ctotal cp : ℚ) - (cget cp term : ℚ) +
      alpha * ((vocabOf cp cc).length : ℚ))
    (hdc : 0 < (ctotal cc : ℚ) - (cget cc term : ℚ) +
      alpha * ((vocabOf cp cc).length : ℚ)) :
    (∃ r, log_odds_stats cp cc alpha term = some r ∧
      r.score =
        Real.log ((((cget cc term : ℚ) + alpha) /
          ((ctotal cc : ℚ) - (cget cc term : ℚ) +
            alpha * ((vocabOf cp cc).length : ℚ)) : ℚ) : ℝ) -
        Real.log ((((cget cp term : ℚ) + alpha) /
          ((ctotal cp : ℚ) - (cget cp term : ℚ) +
            alpha * ((vocabOf cp cc).length : ℚ)) : ℚ) : ℝ) ∧
      r.z = r.score / Real.sqrt (((1 / ((cget cc term : ℚ) + alpha) +
          1 / ((cget cp term : ℚ) + alpha) : ℚ)) : ℝ) ∧
      r.per10kPrev = (cget cp term : ℚ) / (ctotal cp : ℚ) * 10000 ∧
      r.per10kCurr = (cget cc term : ℚ) / (ctotal cc : ℚ) * 10000 ∧
      r.deltaPer10k = r.per10kCurr - r.per10kPrev ∧
      (r.distinctive ↔ (2 ≤ |r.z| ∧ (1/2 : ℚ) ≤ |r.deltaPer10k| ∧
        8 ≤ r.countPrev + r.countCurr))) ∧
    (∃ ra ∈ topRisers [("ai", 0), ("supply", 50)] [("ai", 50), ("supply", 0)]
        (1/100),
      ra.term = "ai" ∧ 0 < ra.score ∧ (1/2 : ℚ) ≤ |ra.deltaPer10k| ∧
        8 ≤ ra.countPrev + ra.countCurr ∧ ¬ ra.distinctive) ∧
    (∃ rs ∈ topFallers [("ai", 0), ("supply", 50)] [("ai", 50), ("supply", 0)]
        (1/100),
      rs.term = "supply" ∧ rs.score < 0 ∧ (1/2 : ℚ) ≤ |rs.deltaPer10k| ∧
        8 ≤ rs.countPrev + rs.countCurr ∧ ¬ rs.distinctive) := by
  refine ⟨⟨mkShiftStats term (cget cp term) (cget cc term) (ctotal cp)
      (ctotal cc) alpha (vocabOf cp cc).length,
      log_odds_stats_eval cp cc alpha term hterm hdp hdc,
      rfl, rfl, ?_, ?_, rfl, Iff.rfl⟩, ?_, ?_⟩
  · show per10k (cget cp term) (ctotal cp) = _
    by_cases h : ctotal cp = 0
    · simp [per10k, h]
    · simp [per10k, h]
  · show per10k (cget cc term) (ctotal cc) = _
    by_cases h : ctotal cc = 0
    · simp [per10k, h]
    · simp [per10k, h]
  · refine ⟨mkShiftStats "ai" 0 50 50 50 (1/100) 2, ?_, rfl,
      shift_score_ai_pos, ?_, by show 8 ≤ 0 + 50; norm_num, ?_⟩
    · rw [shift_topRisers_eval]
      exact ((List.mergeSort_perm _ _).mem_iff).mpr (by simp)
    · show (1/2 : ℚ) ≤ |per10k 50 50 - per10k 0 50|
      norm_num [per10k]
    · intro hd
      exact absurd hd.1 (not_le.mpr shift_z_ai)
  · refine ⟨mkShiftStats "supply" 50 0 50 50 (1/100) 2, ?_, rfl,
      shift_score_sup_neg, ?_, by show 8 ≤ 50 + 0; norm_num, ?_⟩
    · rw [shift_topFallers_eval]
      exact ((List.mergeSort_perm _ _).mem_iff).mpr (by simp)
    · show (1/2 : ℚ) ≤ |per10k 0 50 - per10k 50 50|
      norm_num [per10k]
    · intro hd
      exact absurd hd.1 (not_le.mpr shift_z_sup)

end SecMetrics

theorem c4_log_odds_witness :
    (∃ r, SecMetrics.log_odds_stats [("ai", 0), ("supply", 50)]
        [("ai", 50), ("supply", 0)] (1/100) "ai" = some r ∧
      r.score =
        Real.log ((((SecMetrics.cget [("ai", 50), ("supply", 0)] "ai" : ℚ) + (1/100)) /
          ((SecMetrics.ctotal [("ai", 50), ("supply", 0)] : ℚ) -
            (SecMetrics.cget [("ai", 50), ("supply", 0)] "ai" : ℚ) +
            (1/100) * ((SecMetrics.vocabOf [("ai", 0), ("supply", 50)]
              [("ai", 50), ("supply", 0)]).length : ℚ)) : ℚ) : ℝ) -
        Real.log ((((SecMetrics.cget [("ai", 0), ("supply", 50)] "ai" : ℚ) + (1/100)) /
          ((SecMetrics.ctotal [("ai", 0), ("supply", 50)] : ℚ) -
            (SecMetrics.cget [("ai", 0), ("supply", 50)] "ai" : ℚ) +
            (1/100) * ((SecMetrics.vocabOf [("ai", 0), ("supply", 50)]
              [("ai", 50), ("supply", 0)]).length : ℚ)) : ℚ) : ℝ) ∧
      r.z = r.score / Real.sqrt
          (((1 / ((SecMetrics.cget [("ai", 50), ("supply", 0)] "ai" : ℚ) + (1/100)) +
            1 / ((SecMetrics.cget [("ai", 0), ("supply", 50)] "ai" : ℚ) + (1/100)) : ℚ)) : ℝ) ∧
      r.per10kPrev = (SecMetrics.cget [("ai", 0), ("supply", 50)] "ai" : ℚ) /
          (SecMetrics.ctotal [("ai", 0), ("supply", 50)] : ℚ) * 10000 ∧
      r.per10kCurr = (SecMetrics.cget [("ai", 50), ("supply", 0)] "ai" : ℚ) /
          (SecMetrics.ctotal [("ai", 50), ("supply", 0)] : ℚ) * 10000 ∧
      r.deltaPer10k = r.per10kCurr - r.per10kPrev ∧
      (r.distinctive ↔ (2 ≤ |r.z| ∧ (1/2 : ℚ) ≤ |r.deltaPer10k| ∧
        8 ≤ r.countPrev + r.countCurr))) ∧
    (∃ ra ∈ SecMetrics.topRisers [("ai", 0), ("supply", 50)]
        [("ai", 50), ("supply", 0)] (1/100),
      ra.term = "ai" ∧ 0 < ra.score ∧ (1/2 : ℚ) ≤ |ra.deltaPer10k| ∧
        8 ≤ ra.countPrev + ra.countCurr ∧ ¬ ra.distinctive) ∧
    (∃ rs ∈ SecMetrics.topFallers [("ai", 0), ("supply", 50)]
        [("ai", 50), ("supply", 0)] (1/100),
      rs.term = "supply" ∧ rs.score < 0 ∧ (1/2 : ℚ) ≤ |rs.deltaPer10k| ∧
        8 ≤ rs.countPrev + rs.countCurr ∧ ¬ rs.distinctive) :=
  SecMetrics.c4_log_odds [("ai", 0), ("supply", 50)] [("ai", 50), ("supply", 0)]
    (1/100) "ai" (by decide)
    (by
      rw [show SecMetrics.ctotal [("ai", 0), ("supply", 50)] = 50 from rfl,
        show SecMetrics.cget [("ai", 0), ("supply", 50)] "ai" = 0 from rfl,
        show (SecMetrics.vocabOf [("ai", 0), ("supply", 50)]
          [("ai", 50), ("supply", 0)]).length = 2 from rfl]
      norm_num)
    (by
      rw [show SecMetrics.ctotal [("ai", 50), ("supply", 0)] = 50 from rfl,
        show SecMetrics.cget [("ai", 50), ("supply", 0)] "ai" = 50 from rfl,
        show (SecMetrics.vocabOf [("ai", 0), ("supply", 50)]
          [("ai", 50), ("supply", 0)]).length = 2 from rfl]
      norm_num)

theorem c4_counterexample :
    ∃ r, SecMetrics.log_odds_stats [("ai", 0), ("supply", 50)]
        [("ai", 50), ("supply", 0)] (1/100) "ai" = some r ∧
      ¬ r.distinctive := by
  refine ⟨SecMetrics.mkShiftStats "ai" 0 50 50 50 (1/100) 2,
    SecMetrics.shift_ai_eval, ?_⟩
  intro hd
  exact absurd hd.1 (not_le.mpr SecMetrics.shift_z_ai)

theorem pySorted_perm {α : Type} [LinearOrder α] (l : List α) :
    (pySorted l).Perm l :=
  List.mergeSort_perm l _

theorem pySorted_pairwise {α : Type} [LinearOrder α] (l : List α) :
    (pySorted l).Pairwise (· ≤ ·) := by
  have h := @List.sorted_mergeSort α (fun a b : α => decide (a ≤ b))
    (fun a b c hab hbc => by
      simp only [decide_eq_true_eq] at *
      exact le_trans hab hbc)
    (fun a b => by
      simp only [Bool.or_eq_true, decide_eq_true_eq]
      exact le_total a b)
    l
  exact h.imp (fun hab => of_decide_eq_true hab)

theorem sorted_getD_le {α : Type} [LinearOrder α] (s : List α) (d : α)
    (hs : s.Pairwise (· ≤ ·)) (i j : ℕ) (hij : i ≤ j) (hj : j < s.length) :
    s.getD i d ≤ s.getD j d := by
  rcases lt_or_eq_of_le hij with hlt | heq
  · rw [List.getD_eq_getElem s d (lt_of_le_of_lt hij hj),
      List.getD_eq_getElem s d hj]
    exact List.pairwise_iff_get.mp hs ⟨i, _⟩ ⟨j, _⟩ hlt
  · rw [heq]
theorem bankRound_ge_floor {α : Type} [LinearOrderedField α] [FloorRing α]
    (x : α) : ⌊x⌋ ≤ bankRound x := by
  unfold bankRound
  split_ifs <;> omega

theorem bankRound_le_floor_add_one {α : Type} [LinearOrderedField α]
    [FloorRing α] (x : α) : bankRound x ≤ ⌊x⌋ + 1 := by
  unfold bankRound
  split_ifs <;> omega

theorem bankRound_mono {α : Type} [LinearOrderedField α] [FloorRing α]
    (x y : α) (h : x ≤ y) : bankRound x ≤ bankRound y := by
  have hf : ⌊x⌋ ≤ ⌊y⌋ := Int.floor_le_floor h
  rcases lt_or_eq_of_le hf with hlt | heq
  · calc bankRound x ≤ ⌊x⌋ + 1 := bankRound_le_floor_add_one x
      _ ≤ ⌊y⌋ := by omega
      _ ≤ bankRound y := bankRound_ge_floor y
  · have hr : x - (⌊x⌋ : α) ≤ y - (⌊y⌋ : α) := by
      rw [← heq]; linarith
    unfold bankRound
    rw [← heq]
    split_ifs <;> first | omega | linarith

theorem round2_mono {α : Type} [LinearOrderedField α] [FloorRing α]
    (x y : α) (h : x ≤ y) : round2 x ≤ round2 y := by
  unfold round2
  have := bankRound_mono (x * 100) (y * 100) (by linarith)
  have hcast : ((bankRound (x * 100) : ℤ) : α) ≤ ((bankRound (y * 100) : ℤ) : α) := by
    exact_mod_cast this
  linarith

theorem percentile_eq_valAt {α : Type} [LinearOrderedField α]
    (values : List α) (hv : values ≠ []) (p : ℚ) (hp : 0 ≤ p) :
    percentile values p
      = some (valAt (pySorted values) (((values.length : ℤ) - 1) * (p / 100))) := by
  have hlen : 1 ≤ values.length := List.length_pos.mpr hv
  have ht0 : 0 ≤ (((values.length : ℤ) - 1) * (p / 100) : ℚ) := by
    apply mul_nonneg
    · have h1 : (1 : ℚ) ≤ (values.length : ℚ) := by exact_mod_cast hlen
      push_cast
      linarith
    · positivity
  unfold percentile
  rw [if_neg hv]
  set t : ℚ := ((values.length : ℤ) - 1) * (p / 100) with hT
  by_cases hfe : ⌊t⌋ = ⌈t⌉
  · rw [if_pos hfe]
    have hti : (⌊t⌋ : ℚ) = t :=
      le_antisymm (Int.floor_le t) (by rw [hfe]; exact Int.le_ceil t)
    have hfr : t - (⌊t⌋ : ℚ) = 0 := by rw [hti]; ring
    have htr : pyTrunc t = ⌊t⌋ := by unfold pyTrunc; rw [if_pos ht0]
    unfold valAt
    rw [hfr, htr]
    push_cast
    ring_nf
  · rw [if_neg hfe]
    unfold valAt
    rfl
theorem valAt_mono {α : Type} [LinearOrderedField α] (s : List α)
    (hs : s.Pairwise (· ≤ ·)) (t1 t2 : ℚ) (h0 : 0 ≤ t1) (h12 : t1 ≤ t2)
    (hlen : t2 ≤ (s.length : ℚ) - 1) : valAt s t1 ≤ valAt s t2 := by
  have h02 : 0 ≤ t2 := le_trans h0 h12
  have hf1 : (0 : ℤ) ≤ ⌊t1⌋ := Int.floor_nonneg.mpr h0
  have hf2 : (0 : ℤ) ≤ ⌊t2⌋ := Int.floor_nonneg.mpr h02
  have hslen : (1 : ℚ) ≤ (s.length : ℚ) := by linarith
  have hslen1 : 1 ≤ s.length := by exact_mod_cast hslen
  have hc2 : ⌈t2⌉ ≤ (s.length : ℤ) - 1 := by
    rw [Int.ceil_le]; push_cast; linarith
  have hc1 : ⌈t1⌉ ≤ (s.length : ℤ) - 1 :=
    le_trans (Int.ceil_le_ceil h12) hc2
  have hfc1 : ⌊t1⌋ ≤ ⌈t1⌉ := Int.floor_le_ceil t1
  have hfc2 : ⌊t2⌋ ≤ ⌈t2⌉ := Int.floor_le_ceil t2
  have hcf1 : ⌈t1⌉ ≤ ⌊t1⌋ + 1 := Int.ceil_le_floor_add_one t1
  have hr1l : (0 : α) ≤ ((t1 - (⌊t1⌋ : ℚ) : ℚ) : α) := by
    have := Int.floor_le t1
    have h : (0 : ℚ) ≤ t1 - (⌊t1⌋ : ℚ) := by linarith
    exact_mod_cast h
  have hr1u : ((t1 - (⌊t1⌋ : ℚ) : ℚ) : α) ≤ 1 := by
    have := Int.lt_floor_add_one t1
    have h : t1 - (⌊t1⌋ : ℚ) ≤ 1 := by linarith
    exact_mod_cast h
  have hr2l : (0 : α) ≤ ((t2 - (⌊t2⌋ : ℚ) : ℚ) : α) := by
    have := Int.floor_le t2
    have h : (0 : ℚ) ≤ t2 - (⌊t2⌋ : ℚ) := by linarith
    exact_mod_cast h
  have hr2u : ((t2 - (⌊t2⌋ : ℚ) : ℚ) : α) ≤ 1 := by
    have := Int.lt_floor_add_one t2
    have h : t2 - (⌊t2⌋ : ℚ) ≤ 1 := by linarith
    exact_mod_cast h
  rcases lt_or_eq_of_le (Int.floor_le_floor h12) with hflt | hfeq
  · -- distinct floors: go through the order statistic at the floor of t2
    have hmid : valAt s t1 ≤ s.getD ⌊t2⌋.toNat 0 := by
      have hif : ⌊t1⌋.toNat ≤ ⌊t2⌋.toNat := by omega
      have hic : ⌈t1⌉.toNat ≤ ⌊t2⌋.toNat := by omega
      have hjlt : ⌊t2⌋.toNat < s.length := by omega
      have ha := sorted_getD_le s 0 hs ⌊t1⌋.toNat ⌊t2⌋.toNat hif hjlt
      have hb := sorted_getD_le s 0 hs ⌈t1⌉.toNat ⌊t2⌋.toNat hic hjlt
      unfold valAt
      nlinarith [ha, hb, hr1l, hr1u]
    have hmid2 : s.getD ⌊t2⌋.toNat 0 ≤ valAt s t2 := by
      have hac : s.getD ⌊t2⌋.toNat 0 ≤ s.getD ⌈t2⌉.toNat 0 := by
        by_cases hfr : t2 - (⌊t2⌋ : ℚ) = 0
        · have hteq : (⌊t2⌋ : ℚ) = t2 := by linarith
          have hce : ⌈((⌊t2⌋ : ℤ) : ℚ)⌉ = ⌊t2⌋ := Int.ceil_intCast ⌊t2⌋
          rw [hteq] at hce
          rw [hce]
        · have hclt : ⌊t2⌋ < ⌈t2⌉ := by
            rcases lt_or_eq_of_le hfc2 with h | h
            · exact h
            · exfalso
              have : (⌈t2⌉ : ℚ) = ⌊t2⌋ := by exact_mod_cast h.symm
              have h1 := Int.le_ceil t2
              have h2 := Int.floor_le t2
              apply hfr
              have : t2 ≤ (⌊t2⌋ : ℚ) := by rw [← this]; exact h1
              linarith
          exact sorted_getD_le s 0 hs ⌊t2⌋.toNat ⌈t2⌉.toNat (by omega)
            (by omega)
      unfold valAt
      nlinarith [hac, hr2l, hr2u]
    exact le_trans hmid hmid2
  · -- equal floors
    by_cases hfr2 : t2 - (⌊t2⌋ : ℚ) = 0
    · have hfr1 : t1 - (⌊t1⌋ : ℚ) = 0 := by
        have h1 := Int.floor_le t1
        rw [hfeq] at h1 ⊢
        have h2 : t1 - (⌊t2⌋ : ℚ) ≤ t2 - (⌊t2⌋ : ℚ) := by linarith
        linarith
      have : t1 = t2 := by
        have h1 : t1 = (⌊t1⌋ : ℚ) := by linarith
        have h2 : t2 = (⌊t2⌋ : ℚ) := by linarith
        rw [h1, h2, hfeq]
      rw [this]
    · have hc2e : ⌈t2⌉ = ⌊t2⌋ + 1 := by
        have hclt : ⌊t2⌋ < ⌈t2⌉ := by
          rcases lt_or_eq_of_le hfc2 with h | h
          · exact h
          · exfalso
            have : (⌈t2⌉ : ℚ) = ⌊t2⌋ := by exact_mod_cast h.symm
            have h1 := Int.le_ceil t2
            have h2 := Int.floor_le t2
            apply hfr2
            have : t2 ≤ (⌊t2⌋ : ℚ) := by rw [← this]; exact h1
            linarith
        have := Int.ceil_le_floor_add_one t2
        omega
      have hjlt : (⌊t2⌋.toNat + 1) < s.length := by omega
      have hab : s.getD ⌊t2⌋.toNat 0 ≤ s.getD (⌊t2⌋.toNat + 1) 0 :=
        sorted_getD_le s 0 hs _ _ (by omega) hjlt
      have hv2 : valAt s t2
          = s.getD ⌊t2⌋.toNat 0 * (1 - ((t2 - (⌊t2⌋ : ℚ) : ℚ) : α)) +
            s.getD (⌊t2⌋.toNat + 1) 0 * ((t2 - (⌊t2⌋ : ℚ) : ℚ) : α) := by
        unfold valAt
        rw [hc2e]
        have : (⌊t2⌋ + 1).toNat = ⌊t2⌋.toNat + 1 := by omega
        rw [this]
      have hr12 : ((t1 - (⌊t1⌋ : ℚ) : ℚ) : α) ≤ ((t2 - (⌊t2⌋ : ℚ) : ℚ) : α) := by
        have h : t1 - (⌊t1⌋ : ℚ) ≤ t2 - (⌊t2⌋ : ℚ) := by
          rw [hfeq]; linarith
        exact_mod_cast h
      by_cases hfr1 : t1 - (⌊t1⌋ : ℚ) = 0
      · have hz : ((t1 - (⌊t1⌋ : ℚ) : ℚ) : α) = 0 := by exact_mod_cast hfr1
        have hv1 : valAt s t1 = s.getD ⌊t1⌋.toNat 0 := by
          unfold valAt
          rw [hz]
          ring
        rw [hv1, hv2, hfeq]
        nlinarith [hab, hr2l, hr2u]
      · have hc1e : ⌈t1⌉ = ⌊t1⌋ + 1 := by
          have hclt : ⌊t1⌋ < ⌈t1⌉ := by
            rcases lt_or_eq_of_le hfc1 with h | h
            · exact h
            · exfalso
              have : (⌈t1⌉ : ℚ) = ⌊t1⌋ := by exact_mod_cast h.symm
              have h1 := Int.le_ceil t1
              have h2 := Int.floor_le t1
              apply hfr1
              have : t1 ≤ (⌊t1⌋ : ℚ) := by rw [← this]; exact h1
              linarith
          omega
        have hv1 : valAt s t1
            = s.getD ⌊t2⌋.toNat 0 * (1 - ((t1 - (⌊t1⌋ : ℚ) : ℚ) : α)) +
              s.getD (⌊t2⌋.toNat + 1) 0 * ((t1 - (⌊t1⌋ : ℚ) : ℚ) : α) := by
          unfold valAt
          rw [hc1e, hfeq]
          have : (⌊t2⌋ + 1).toNat = ⌊t2⌋.toNat + 1 := by omega
          rw [this]
        rw [hv1, hv2]
        nlinarith [hab, hr12, hr1l, hr2u]
theorem percentile_pair_le {α : Type} [LinearOrderedField α]
    (values : List α) (p1 p2 : ℚ) (hv : values ≠ []) (h0 : 0 ≤ p1)
    (h12 : p1 ≤ p2) (h100 : p2 ≤ 100) :
    ∃ a b, percentile values p1 = some a ∧ percentile values p2 = some b ∧
      a ≤ b := by
  have hp20 : 0 ≤ p2 := le_trans h0 h12
  have hlen1 : 1 ≤ values.length := List.length_pos.mpr hv
  have hlenq : (1 : ℚ) ≤ (values.length : ℚ) := by exact_mod_cast hlen1
  have hc : (0 : ℚ) ≤ ((values.length : ℤ) : ℚ) - 1 := by push_cast; linarith
  refine ⟨_, _, percentile_eq_valAt values hv p1 h0,
    percentile_eq_valAt values hv p2 hp20, ?_⟩
  have hlength : (pySorted values).length = values.length :=
    (pySorted_perm values).length_eq
  apply valAt_mono (pySorted values) (pySorted_pairwise values)
  · exact mul_nonneg hc (by positivity)
  · exact mul_le_mul_of_nonneg_left (by linarith) hc
  · rw [hlength]
    have hd1 : p2 / 100 ≤ 1 := by linarith
    have hd0 : 0 ≤ p2 / 100 := by positivity
    push_cast
    push_cast at hc
    nlinarith [hc, hd1, hd0]

namespace SecMetrics

theorem build_metrics_ok (rng : ℕ → ℕ) (sections : List SectionYear)
    (m : MetricsOut) (hm : build_metrics rng sections = Except.ok m) :
    m = metricsOut rng sections := by
  unfold build_metrics at hm
  split_ifs at hm
  all_goals first
  | exact Except.noConfusion hm
  | exact (Except.ok.inj hm).symm

theorem bootSamples_ne_nil (rng : ℕ → ℕ) (docs : List String)
    (prev curr : SectionYear) : bootSamples rng docs prev curr ≠ [] := by
  unfold bootSamples
  intro h
  have hl := congrArg List.length h
  simp at hl

theorem compute_bootstrap_ci_le (rng : ℕ → ℕ) (docs : List String)
    (prev curr : SectionYear) (lo hi : ℝ)
    (hlo : (compute_bootstrap_ci rng docs prev curr).1 = some lo)
    (hhi : (compute_bootstrap_ci rng docs prev curr).2 = some hi) :
    lo ≤ hi := by
  unfold compute_bootstrap_ci at hlo hhi
  split_ifs at hlo hhi with hg
  obtain ⟨a, b, ha, hb, hab⟩ := percentile_pair_le
      (bootSamples rng docs prev curr) 5 95
      (bootSamples_ne_nil rng docs prev curr) (by norm_num) (by norm_num)
      (by norm_num)
  simp only at hlo hhi
  rw [ha] at hlo
  rw [hb] at hhi
  cases hlo
  cases hhi
  exact hab

theorem drift_ci_le (rng : ℕ → ℕ) (sections : List SectionYear) (idx : ℕ)
    (lo hi : ℝ)
    (hlo : (driftAt rng sections idx).2.1 = some lo)
    (hhi : (driftAt rng sections idx).2.2 = some hi) : lo ≤ hi := by
  unfold driftAt at hlo hhi
  split_ifs at hlo hhi with h0
  rcases hp : lastIdxOf (validYears sections)
      (sections.getD (idx - 1) default).year with _ | pi <;>
    rcases hq : lastIdxOf (validYears sections)
      (sections.getD idx default).year with _ | ci <;>
    rw [hp, hq] at hlo hhi <;>
    simp only at hlo hhi
  · exact absurd hlo (by simp)
  · exact absurd hlo (by simp)
  · exact absurd hlo (by simp)
  · rcases hc1 : (compute_bootstrap_ci rng (validTexts sections)
        (sections.getD (idx - 1) default) (sections.getD idx default)).1
        with _ | lo0
    · rw [hc1] at hlo; exact absurd hlo (by simp)
    · rcases hc2 : (compute_bootstrap_ci rng (validTexts sections)
          (sections.getD (idx - 1) default) (sections.getD idx default)).2
          with _ | hi0
      · rw [hc2] at hhi; exact absurd hhi (by simp)
      · rw [hc1] at hlo
        rw [hc2] at hhi
        simp only [Option.map_some', Option.some.injEq] at hlo hhi
        rw [← hlo, ← hhi]
        exact round2_mono lo0 hi0
          (compute_bootstrap_ci_le rng (validTexts sections) _ _ lo0 hi0
            hc1 hc2)

end SecMetrics
/-- C10: percentile with linear interpolation is monotone in the requested
percentile over a fixed non-empty sample list, and consequently, whenever
both confidence-interval bounds are populated in the metrics artifact of
build_metrics, the low drift bound is at most the high one. -/
theorem c10_percentile_monotone (values : List ℝ) (p1 p2 : ℚ)
    (hv : values ≠ []) (h0 : 0 ≤ p1) (h12 : p1 ≤ p2) (h100 : p2 ≤ 100) :
    (∃ a b, percentile values p1 = some a ∧ percentile values p2 = some b ∧
      a ≤ b) ∧
    (∀ (rng : ℕ → ℕ) (sections : List SecMetrics.SectionYear)
      (m : SecMetrics.MetricsOut) (idx : ℕ) (lo hi : ℝ),
      SecMetrics.build_metrics rng sections = Except.ok m →
      m.drift_ci_low.getD idx none = some lo →
      m.drift_ci_high.getD idx none = some hi → lo ≤ hi) := by
  constructor
  · exact percentile_pair_le values p1 p2 hv h0 h12 h100
  · intro rng sections m idx lo hi hm hlo hhi
    rw [SecMetrics.build_metrics_ok rng sections m hm] at hlo hhi
    have hprojl : (SecMetrics.metricsOut rng sections).drift_ci_low
        = (List.range sections.length).map
          (fun i => (SecMetrics.driftAt rng sections i).2.1) := rfl
    have hprojh : (SecMetrics.metricsOut rng sections).drift_ci_high
        = (List.range sections.length).map
          (fun i => (SecMetrics.driftAt rng sections i).2.2) := rfl
    rw [hprojl] at hlo
    rw [hprojh] at hhi
    by_cases hidx : idx < sections.length
    · rw [List.getD_eq_getElem _ _ (by simpa using hidx)] at hlo hhi
      simp only [List.getElem_map, List.getElem_range] at hlo hhi
      exact SecMetrics.drift_ci_le rng sections idx lo hi hlo hhi
    · push_neg at hidx
      rw [List.getD_eq_default _ _ (by simpa using hidx)] at hlo
      exact Option.noConfusion hlo

theorem c10_percentile_monotone_witness :
    (([(0 : ℝ)] : List ℝ) ≠ [] ∧ (0 : ℚ) ≤ 5 ∧ (5 : ℚ) ≤ 95 ∧
      (95 : ℚ) ≤ 100) ∧
    ((∃ a b, percentile [(0 : ℝ)] 5 = some a ∧
        percentile [(0 : ℝ)] 95 = some b ∧ a ≤ b) ∧
      (∀ (rng : ℕ → ℕ) (sections : List SecMetrics.SectionYear)
        (m : SecMetrics.MetricsOut) (idx : ℕ) (lo hi : ℝ),
        SecMetrics.build_metrics rng sections = Except.ok m →
        m.drift_ci_low.getD idx none = some lo →
        m.drift_ci_high.getD idx none = some hi → lo ≤ hi)) :=
  ⟨⟨by simp, by norm_num, by norm_num, by norm_num⟩,
    c10_percentile_monotone [(0 : ℝ)] 5 95 (by simp) (by norm_num)
      (by norm_num) (by norm_num)⟩

theorem bankRound_zero : bankRound (0 : ℝ) = 0 := by
  unfold bankRound; norm_num

theorem bankRound_hundred : bankRound (100 : ℝ) = 100 := by
  unfold bankRound; norm_num

theorem round2_zero : round2 (0 : ℝ) = 0 := by
  unfold round2
  rw [show (0 : ℝ) * 100 = 0 by ring, bankRound_zero]
  norm_num

theorem round2_one : round2 (1 : ℝ) = 1 := by
  unfold round2
  rw [show (1 : ℝ) * 100 = 100 by ring, bankRound_hundred]
  norm_num

namespace SecMetrics

theorem docFreq_le (docs : List String) (t : String) :
    docFreq docs t ≤ docs.length :=
  List.length_filter_le _ _

theorem idfVal_nonneg (n df : ℕ) (h : df ≤ n) : 0 ≤ idfVal n df := by
  unfold idfVal
  have hlog : 0 ≤ Real.log ((1 + (n : ℝ)) / (1 + (df : ℝ))) := by
    apply Real.log_nonneg
    rw [le_div_iff₀ (by positivity)]
    have : (df : ℝ) ≤ (n : ℝ) := by exact_mod_cast h
    linarith
  linarith

theorem tfidfEntry_nonneg (docs : List String) (d t : String) :
    0 ≤ tfidfEntry docs d t := by
  unfold tfidfEntry
  exact mul_nonneg (by positivity) (idfVal_nonneg _ _ (docFreq_le docs t))

theorem bInsert_perm {α : Type} (le : α → α → Bool) (x : α) (l : List α) :
    (bInsert le x l).Perm (x :: l) := by
  induction l with
  | nil => exact List.Perm.refl _
  | cons y ys ih =>
    unfold bInsert
    split_ifs
    · exact List.Perm.refl _
    · exact (List.Perm.cons y ih).trans (List.Perm.swap x y ys)

theorem bSort_perm {α : Type} (le : α → α → Bool) (l : List α) :
    (bSort le l).Perm l := by
  induction l with
  | nil => exact List.Perm.refl _
  | cons x xs ih =>
    exact (bInsert_perm le x (bSort le xs)).trans (List.Perm.cons x ih)

theorem fitVocab_nodup (docs : List String) : (fitVocab docs).Nodup := by
  unfold fitVocab
  exact ((bSort_perm _ _).nodup_iff).mpr (List.nodup_dedup _)

theorem rowDot_comm (docs : List String) (a b : String) :
    rowDot docs a b = rowDot docs b a := by
  unfold rowDot
  congr 1
  exact List.map_congr_left (fun t _ => mul_comm _ _)

theorem rowDot_nonneg (docs : List String) (a b : String) :
    0 ≤ rowDot docs a b := by
  unfold rowDot
  apply List.sum_nonneg
  intro x hx
  obtain ⟨t, _, rfl⟩ := List.mem_map.mp hx
  exact mul_nonneg (tfidfEntry_nonneg docs a t) (tfidfEntry_nonneg docs b t)

theorem sumSq_nonneg (docs : List String) (a : String) :
    0 ≤ ((fitVocab docs).map (fun t => tfidfEntry docs a t ^ 2)).sum := by
  apply List.sum_nonneg
  intro x hx
  obtain ⟨t, _, rfl⟩ := List.mem_map.mp hx
  positivity

theorem rowDot_le_norms (docs : List String) (a b : String) :
    rowDot docs a b ≤ rowNorm docs a * rowNorm docs b := by
  have hnd := fitVocab_nodup docs
  have hdot : rowDot docs a b = ∑ t in (fitVocab docs).toFinset,
      tfidfEntry docs a t * tfidfEntry docs b t := by
    unfold rowDot
    exact (List.sum_toFinset _ hnd).symm
  have hu : ((fitVocab docs).map (fun t => tfidfEntry docs a t ^ 2)).sum
      = ∑ t in (fitVocab docs).toFinset, tfidfEntry docs a t ^ 2 :=
    (List.sum_toFinset _ hnd).symm
  have hv : ((fitVocab docs).map (fun t => tfidfEntry docs b t ^ 2)).sum
      = ∑ t in (fitVocab docs).toFinset, tfidfEntry docs b t ^ 2 :=
    (List.sum_toFinset _ hnd).symm
  have hcs := Finset.sum_mul_sq_le_sq_mul_sq (fitVocab docs).toFinset
    (fun t => tfidfEntry docs a t) (fun t => tfidfEntry docs b t)
  have hdnn := rowDot_nonneg docs a b
  unfold rowNorm
  rw [← Real.sqrt_mul (sumSq_nonneg docs a)]
  rw [Real.le_sqrt hdnn]
  · rw [hdot, hu, hv]
    exact hcs
  · exact mul_nonneg (sumSq_nonneg docs a) (sumSq_nonneg docs b)

theorem normFac_pos (x : ℝ) (hx : 0 ≤ x) : 0 < normFac x := by
  unfold normFac
  split_ifs with h
  · norm_num
  · exact lt_of_le_of_ne hx (Ne.symm h)

theorem le_normFac (x : ℝ) (hx : 0 ≤ x) : x ≤ normFac x := by
  unfold normFac
  split_ifs with h
  · rw [h]; norm_num
  · exact le_refl x

theorem rowNorm_nonneg (docs : List String) (a : String) :
    0 ≤ rowNorm docs a := Real.sqrt_nonneg _

theorem cosSim_comm (docs : List String) (a b : String) :
    cosSim docs a b = cosSim docs b a := by
  unfold cosSim
  rw [rowDot_comm, mul_comm (normFac (rowNorm docs a))]

theorem cosSim_nonneg (docs : List String) (a b : String) :
    0 ≤ cosSim docs a b := by
  unfold cosSim
  apply div_nonneg (rowDot_nonneg docs a b)
  exact le_of_lt (mul_pos (normFac_pos _ (rowNorm_nonneg docs a))
    (normFac_pos _ (rowNorm_nonneg docs b)))

theorem cosSim_le_one (docs : List String) (a b : String) :
    cosSim docs a b ≤ 1 := by
  unfold cosSim
  rw [div_le_one (mul_pos (normFac_pos _ (rowNorm_nonneg docs a))
    (normFac_pos _ (rowNorm_nonneg docs b)))]
  calc rowDot docs a b ≤ rowNorm docs a * rowNorm docs b :=
        rowDot_le_norms docs a b
    _ ≤ normFac (rowNorm docs a) * normFac (rowNorm docs b) := by
        apply mul_le_mul (le_normFac _ (rowNorm_nonneg docs a))
          (le_normFac _ (rowNorm_nonneg docs b)) (rowNorm_nonneg docs b)
        exact le_of_lt (normFac_pos _ (rowNorm_nonneg docs a))

end SecMetrics
namespace SecMetrics

theorem simEntry_eval (rng : ℕ → ℕ) (sections : List SectionYear) (i j : ℕ)
    (hi : i < (validYears sections).length)
    (hj : j < (validYears sections).length) :
    ((metricsOut rng sections).cosineSimilarity.getD i []).getD j 0
      = simCell (validTexts sections) i j := by
  have hproj : (metricsOut rng sections).cosineSimilarity
      = (List.range (validYears sections).length).map
        (fun i => (List.range (validYears sections).length).map
          (fun j => simCell (validTexts sections) i j)) := rfl
  rw [hproj]
  have h1 : ((List.range (validYears sections).length).map
        (fun i => (List.range (validYears sections).length).map
          (fun j => simCell (validTexts sections) i j))).getD i []
      = (List.range (validYears sections).length).map
        (fun j => simCell (validTexts sections) i j) := by
    rw [List.getD_eq_getElem _ _ (by simpa using hi)]
    simp only [List.getElem_map, List.getElem_range]
  rw [h1]
  rw [List.getD_eq_getElem _ _ (by simpa using hj)]
  simp only [List.getElem_map, List.getElem_range]

/-- C2: in the similarity payload emitted by build_metrics, the
cosineSimilarity matrix is square over the valid years, its diagonal
entries equal 1.0 exactly, it is symmetric, and every off-diagonal entry is
the raw cosine similarity of the corresponding valid texts rounded to 2
decimals, a value between 0 and 1. -/
theorem c2_similarity_matrix (rng : ℕ → ℕ) (sections : List SectionYear)
    (m : MetricsOut) (hm : build_metrics rng sections = Except.ok m) :
    m.cosineSimilarity.length = m.simYears.length ∧
    (∀ row ∈ m.cosineSimilarity, row.length = m.simYears.length) ∧
    (∀ i, i < m.simYears.length →
      (m.cosineSimilarity.getD i []).getD i 0 = 1) ∧
    (∀ i j, i < m.simYears.length → j < m.simYears.length →
      (m.cosineSimilarity.getD i []).getD j 0
        = (m.cosineSimilarity.getD j []).getD i 0) ∧
    (∀ i j, i < m.simYears.length → j < m.simYears.length → i ≠ j →
      (m.cosineSimilarity.getD i []).getD j 0
          = round2 (cosSim (validTexts sections)
            ((validTexts sections).getD i "")
            ((validTexts sections).getD j "")) ∧
        0 ≤ (m.cosineSimilarity.getD i []).getD j 0 ∧
        (m.cosineSimilarity.getD i []).getD j 0 ≤ 1) := by
  rw [build_metrics_ok rng sections m hm]
  have hyl : (metricsOut rng sections).simYears.length
      = (validYears sections).length := rfl
  refine ⟨?_, ?_, ?_, ?_, ?_⟩
  · rw [hyl]
    show ((List.range (validYears sections).length).map _).length = _
    simp
  · intro row hrow
    rw [hyl]
    have : (metricsOut rng sections).cosineSimilarity
        = (List.range (validYears sections).length).map
          (fun i => (List.range (validYears sections).length).map
            (fun j => simCell (validTexts sections) i j)) := rfl
    rw [this] at hrow
    obtain ⟨i, _, rfl⟩ := List.mem_map.mp hrow
    simp
  · intro i hi
    rw [hyl] at hi
    rw [simEntry_eval rng sections i i hi hi]
    unfold simCell
    rw [if_pos rfl]
  · intro i j hi hj
    rw [hyl] at hi hj
    rw [simEntry_eval rng sections i j hi hj,
      simEntry_eval rng sections j i hj hi]
    unfold simCell
    by_cases hij : i = j
    · subst hij; rfl
    · rw [if_neg hij, if_neg (Ne.symm hij), cosSim_comm]
  · intro i j hi hj hij
    rw [hyl] at hi hj
    rw [simEntry_eval rng sections i j hi hj]
    unfold simCell
    rw [if_neg hij]
    refine ⟨rfl, ?_, ?_⟩
    · rw [← round2_zero]
      exact round2_mono _ _ (cosSim_nonneg _ _ _)
    · rw [← round2_one]
      exact round2_mono _ _ (cosSim_le_one _ _ _)

end SecMetrics

theorem c2_similarity_matrix_witness :
    (SecMetrics.build_metrics (fun _ => 0)
        [⟨2000, "competition", ["competition"], some 1⟩]
      = Except.ok (SecMetrics.metricsOut (fun _ => 0)
        [⟨2000, "competition", ["competition"], some 1⟩])) ∧
    ((SecMetrics.metricsOut (fun _ => 0)
        [⟨2000, "competition", ["competition"], some 1⟩]).cosineSimilarity.length
      = (SecMetrics.metricsOut (fun _ => 0)
        [⟨2000, "competition", ["competition"], some 1⟩]).simYears.length ∧
      (∀ row ∈ (SecMetrics.metricsOut (fun _ => 0)
          [⟨2000, "competition", ["competition"], some 1⟩]).cosineSimilarity,
        row.length = (SecMetrics.metricsOut (fun _ => 0)
          [⟨2000, "competition", ["competition"], some 1⟩]).simYears.length) ∧
      (∀ i, i < (SecMetrics.metricsOut (fun _ => 0)
          [⟨2000, "competition", ["competition"], some 1⟩]).simYears.length →
        ((SecMetrics.metricsOut (fun _ => 0)
          [⟨2000, "competition", ["competition"], some 1⟩]).cosineSimilarity.getD
            i []).getD i 0 = 1) ∧
      (∀ i j, i < (SecMetrics.metricsOut (fun _ => 0)
          [⟨2000, "competition", ["competition"], some 1⟩]).simYears.length →
        j < (SecMetrics.metricsOut (fun _ => 0)
          [⟨2000, "competition", ["competition"], some 1⟩]).simYears.length →
        ((SecMetrics.metricsOut (fun _ => 0)
          [⟨2000, "competition", ["competition"], some 1⟩]).cosineSimilarity.getD
            i []).getD j 0
          = ((SecMetrics.metricsOut (fun _ => 0)
            [⟨2000, "competition", ["competition"], some 1⟩]).cosineSimilarity.getD
              j []).getD i 0) ∧
      (∀ i j, i < (SecMetrics.metricsOut (fun _ => 0)
          [⟨2000, "competition", ["competition"], some 1⟩]).simYears.length →
        j < (SecMetrics.metricsOut (fun _ => 0)
          [⟨2000, "competition", ["competition"], some 1⟩]).simYears.length →
        i ≠ j →
        ((SecMetrics.metricsOut (fun _ => 0)
            [⟨2000, "competition", ["competition"], some 1⟩]).cosineSimilarity.getD
              i []).getD j 0
            = round2 (SecMetrics.cosSim
              (SecMetrics.validTexts
                [⟨2000, "competition", ["competition"], some 1⟩])
              ((SecMetrics.validTexts
                [⟨2000, "competition", ["competition"], some 1⟩]).getD i "")
              ((SecMetrics.validTexts
                [⟨2000, "competition", ["competition"], some 1⟩]).getD j "")) ∧
          0 ≤ ((SecMetrics.metricsOut (fun _ => 0)
            [⟨2000, "competition", ["competition"], some 1⟩]).cosineSimilarity.getD
              i []).getD j 0 ∧
          ((SecMetrics.metricsOut (fun _ => 0)
            [⟨2000, "competition", ["competition"], some 1⟩]).cosineSimilarity.getD
              i []).getD j 0 ≤ 1)) :=
  ⟨by
      unfold SecMetrics.build_metrics
      rw [if_neg]
      intro h
      exact absurd h.2 (by decide),
    SecMetrics.c2_similarity_matrix (fun _ => 0)
      [⟨2000, "competition", ["competition"], some 1⟩]
      (SecMetrics.metricsOut (fun _ => 0)
        [⟨2000, "competition", ["competition"], some 1⟩])
      (by
        unfold SecMetrics.build_metrics
        rw [if_neg]
        intro h
        exact absurd h.2 (by decide))⟩

theorem percentile_replicate (n : ℕ) (hn : n ≠ 0) (x : ℝ) (p : ℚ)
    (hp0 : 0 ≤ p) (hp1 : p ≤ 100) :
    percentile (List.replicate n x) p = some x := by
  have hne : List.replicate n x ≠ [] := by
    intro h
    apply hn
    simpa using congrArg List.length h
  rw [percentile_eq_valAt _ hne p hp0]
  have hsort : pySorted (List.replicate n x) = List.replicate n x :=
    List.perm_replicate.mp (by
      have h := pySorted_perm (List.replicate n x)
      simpa using h)
  rw [hsort]
  have hlen : (List.replicate n x).length = n := List.length_replicate n x
  have hn1 : (1 : ℚ) ≤ (n : ℚ) := by
    have : 1 ≤ n := Nat.one_le_iff_ne_zero.mpr hn
    exact_mod_cast this
  set t : ℚ := (((List.replicate n x).length : ℤ) - 1) * (p / 100) with hT
  have ht0 : 0 ≤ t := by
    rw [hT, hlen]
    apply mul_nonneg
    · push_cast; linarith
    · positivity
  have htn : t ≤ (n : ℚ) - 1 := by
    rw [hT, hlen]
    have hd1 : p / 100 ≤ 1 := by linarith
    have hd0 : 0 ≤ p / 100 := by positivity
    push_cast
    nlinarith
  have hfl : ⌊t⌋.toNat < n := by
    have h1 : ⌊t⌋ ≤ ⌈t⌉ := Int.floor_le_ceil t
    have h2 : ⌈t⌉ ≤ (n : ℤ) - 1 := by
      rw [Int.ceil_le]; push_cast; linarith
    have h3 : (0 : ℤ) ≤ ⌊t⌋ := Int.floor_nonneg.mpr ht0
    omega
  have hcl : ⌈t⌉.toNat < n := by
    have h2 : ⌈t⌉ ≤ (n : ℤ) - 1 := by
      rw [Int.ceil_le]; push_cast; linarith
    have h3 : (0 : ℤ) ≤ ⌈t⌉ := le_trans (Int.floor_nonneg.mpr ht0)
      (Int.floor_le_ceil t)
    omega
  have hget : ∀ i, i < n → (List.replicate n x).getD i 0 = x := by
    intro i hi
    rw [List.getD_eq_getElem _ _ (by simpa using hi)]
    simp
  unfold valAt
  rw [hget _ hfl, hget _ hcl]
  ring_nf

namespace SecMetrics

theorem joinNL_singleton (x : String) : joinNL [x] = x := rfl

theorem resampleDoc_singleton (rng : ℕ → ℕ) (base : ℕ) (x : String) :
    resampleDoc rng [x] base = x := by
  unfold resampleDoc
  have hl : ([x] : List String).length = 1 := rfl
  rw [hl, show List.range 1 = [0] from rfl]
  simp only [List.map_cons, List.map_nil, Nat.mod_one]
  exact joinNL_singleton x

theorem idfVal_two_two : idfVal 2 2 = 1 := by
  unfold idfVal
  rw [show (1 + ((2 : ℕ) : ℝ)) / (1 + ((2 : ℕ) : ℝ)) = 1 by norm_num,
    Real.log_one]
  ring

end SecMetrics
namespace SecMetrics

theorem tfidf_comp_self :
    tfidfEntry ["competition", "competition"] "competition" "competition"
      = 1 := by
  unfold tfidfEntry
  have hc : (skTokenize "competition").count "competition" = 1 := rfl
  have hd : docFreq ["competition", "competition"] "competition" = 2 := rfl
  have hl : (["competition", "competition"] : List String).length = 2 := rfl
  rw [hc, hd, hl, idfVal_two_two]
  norm_num

theorem tfidf_cyber_comp :
    tfidfEntry ["competition", "competition"] "cybersecurity" "competition"
      = 0 := by
  unfold tfidfEntry
  have hc : (skTokenize "cybersecurity").count "competition" = 0 := rfl
  rw [hc]
  norm_num

theorem cosSim_comp_comp :
    cosSim ["competition", "competition"] "competition" "competition"
      = 1 := by
  have hvoc : fitVocab ["competition", "competition"] = ["competition"] := by
    decide
  have hdot : rowDot ["competition", "competition"] "competition"
      "competition" = 1 := by
    unfold rowDot
    rw [hvoc]
    simp only [List.map_cons, List.map_nil, List.sum_cons, List.sum_nil]
    rw [tfidf_comp_self]
    norm_num
  have hnorm : rowNorm ["competition", "competition"] "competition" = 1 := by
    unfold rowNorm
    rw [hvoc]
    simp only [List.map_cons, List.map_nil, List.sum_cons, List.sum_nil]
    rw [tfidf_comp_self]
    norm_num
  unfold cosSim
  rw [hdot, hnorm]
  unfold normFac
  rw [if_neg one_ne_zero]
  norm_num

theorem cosSim_comp_cyber :
    cosSim ["competition", "competition"] "competition" "cybersecurity"
      = 0 := by
  have hvoc : fitVocab ["competition", "competition"] = ["competition"] := by
    decide
  have hdot : rowDot ["competition", "competition"] "competition"
      "cybersecurity" = 0 := by
    unfold rowDot
    rw [hvoc]
    simp only [List.map_cons, List.map_nil, List.sum_cons, List.sum_nil]
    rw [tfidf_cyber_comp]
    norm_num
  unfold cosSim
  rw [hdot, zero_div]

end SecMetrics
namespace SecMetrics

theorem boot_cx_eval :
    compute_bootstrap_ci (fun _ => 0) ["competition", "competition"]
      ⟨2000, "competition", ["competition"], some 1⟩
      ⟨2001, "competition", ["cybersecurity"], some 1⟩
      = (some 1, some 1) := by
  have hsamp : bootSamples (fun _ => 0) ["competition", "competition"]
      ⟨2000, "competition", ["competition"], some 1⟩
      ⟨2001, "competition", ["cybersecurity"], some 1⟩
      = List.replicate 200 (1 : ℝ) := by
    unfold bootSamples
    calc (List.range 200).map _
        = (List.range 200).map (fun _ => (1 : ℝ)) :=
          List.map_congr_left (fun i _ => by
            show 1 - cosSim ["competition", "competition"]
              (resampleDoc (fun _ => 0) ["competition"] (i * (1 + 1)))
              (resampleDoc (fun _ => 0) ["cybersecurity"] (i * (1 + 1) + 1))
              = 1
            rw [resampleDoc_singleton, resampleDoc_singleton,
              cosSim_comp_cyber]
            norm_num)
      _ = List.replicate 200 (1 : ℝ) := by
          rw [List.map_const']
          simp
  unfold compute_bootstrap_ci
  rw [if_neg (by decide)]
  rw [hsamp]
  rw [percentile_replicate 200 (by norm_num) 1 5 (by norm_num) (by norm_num),
    percentile_replicate 200 (by norm_num) 1 95 (by norm_num) (by norm_num)]

theorem driftAt_cx :
    driftAt (fun _ => 0)
      [⟨2000, "competition", ["competition"], some 1⟩,
       ⟨2001, "competition", ["cybersecurity"], some 1⟩] 1
      = (some 0, some 1, some 1) := by
  unfold driftAt
  rw [if_neg (by norm_num)]
  have h1 : lastIdxOf (validYears
      [⟨2000, "competition", ["competition"], some 1⟩,
       ⟨2001, "competition", ["cybersecurity"], some 1⟩])
      (([⟨2000, "competition", ["competition"], some 1⟩,
        ⟨2001, "competition", ["cybersecurity"], some 1⟩] :
          List SectionYear).getD (1 - 1) default).year = some 0 := by decide
  have h2 : lastIdxOf (validYears
      [⟨2000, "competition", ["competition"], some 1⟩,
       ⟨2001, "competition", ["cybersecurity"], some 1⟩])
      (([⟨2000, "competition", ["competition"], some 1⟩,
        ⟨2001, "competition", ["cybersecurity"], some 1⟩] :
          List SectionYear).getD 1 default).year = some 1 := by decide
  rw [h1, h2]
  simp only
  have hvt : validTexts
      [⟨2000, "competition", ["competition"], some 1⟩,
       ⟨2001, "competition", ["cybersecurity"], some 1⟩]
      = ["competition", "competition"] := rfl
  rw [hvt]
  rw [show (["competition", "competition"] : List String).getD 0 ""
    = "competition" from rfl]
  rw [show (["competition", "competition"] : List String).getD 1 ""
    = "competition" from rfl]
  rw [cosSim_comp_comp, sub_self, round2_zero]
  rw [show (([⟨2000, "competition", ["competition"], some 1⟩,
      ⟨2001, "competition", ["cybersecurity"], some 1⟩] :
        List SectionYear).getD (1 - 1) default)
    = ⟨2000, "competition", ["competition"], some 1⟩ from rfl]
  rw [show (([⟨2000, "competition", ["competition"], some 1⟩,
      ⟨2001, "competition", ["cybersecurity"], some 1⟩] :
        List SectionYear).getD 1 default)
    = ⟨2001, "competition", ["cybersecurity"], some 1⟩ from rfl]
  rw [boot_cx_eval]
  simp only [Option.map_some']
  rw [round2_one]

end SecMetrics
theorem c1_counterexample :
    ∃ m d lo,
      SecMetrics.build_metrics (fun _ => 0)
        [⟨2000, "competition", ["competition"], some 1⟩,
         ⟨2001, "competition", ["cybersecurity"], some 1⟩] = Except.ok m ∧
      m.drift_vs_prev.getD 1 none = some d ∧
      m.drift_ci_low.getD 1 none = some lo ∧ d < lo := by
  refine ⟨SecMetrics.metricsOut (fun _ => 0)
    [⟨2000, "competition", ["competition"], some 1⟩,
     ⟨2001, "competition", ["cybersecurity"], some 1⟩], 0, 1, ?_, ?_, ?_,
    by norm_num⟩
  · unfold SecMetrics.build_metrics
    rw [if_neg]
    intro h
    exact absurd h.2 (by decide)
  · have hproj : (SecMetrics.metricsOut (fun _ => 0)
        [⟨2000, "competition", ["competition"], some 1⟩,
         ⟨2001, "competition", ["cybersecurity"], some 1⟩]).drift_vs_prev
        = (List.range 2).map (fun i => (SecMetrics.driftAt (fun _ => 0)
          [⟨2000, "competition", ["competition"], some 1⟩,
           ⟨2001, "competition", ["cybersecurity"], some 1⟩] i).1) := rfl
    rw [hproj, List.getD_eq_getElem _ _ (by simp)]
    simp only [List.getElem_map, List.getElem_range]
    rw [SecMetrics.driftAt_cx]
  · have hproj : (SecMetrics.metricsOut (fun _ => 0)
        [⟨2000, "competition", ["competition"], some 1⟩,
         ⟨2001, "competition", ["cybersecurity"], some 1⟩]).drift_ci_low
        = (List.range 2).map (fun i => (SecMetrics.driftAt (fun _ => 0)
          [⟨2000, "competition", ["competition"], some 1⟩,
           ⟨2001, "competition", ["cybersecurity"], some 1⟩] i).2.1) := rfl
    rw [hproj, List.getD_eq_getElem _ _ (by simp)]
    simp only [List.getElem_map, List.getElem_range]
    rw [SecMetrics.driftAt_cx]

namespace SecMetrics

/-- C1 (amended): in the metrics artifact of build_metrics, drift_vs_prev,
drift_ci_low and drift_ci_high have the same length as years and their
entries at position 0 are null; a populated index holds the point drift
1 minus the cosine similarity of the two adjacent full-year texts rounded
to 2 decimals, while the confidence bounds are the rounded 5th and 95th
percentiles of the 200 bootstrap drift samples drawn from the normalized
paragraph lists.  The bootstrap resamples paragraphs whereas the point
drift uses the full texts, so the interval need not bracket the point
drift. -/
theorem c1_drift_arrays (rng : ℕ → ℕ) (sections : List SectionYear)
    (m : MetricsOut) (hm : build_metrics rng sections = Except.ok m) :
    m.drift_vs_prev.length = m.years.length ∧
    m.drift_ci_low.length = m.years.length ∧
    m.drift_ci_high.length = m.years.length ∧
    m.drift_vs_prev.getD 0 none = none ∧
    m.drift_ci_low.getD 0 none = none ∧
    m.drift_ci_high.getD 0 none = none ∧
    (∀ idx pi ci, idx ≠ 0 → idx < sections.length →
      lastIdxOf (validYears sections)
        (sections.getD (idx - 1) default).year = some pi →
      lastIdxOf (validYears sections)
        (sections.getD idx default).year = some ci →
      m.drift_vs_prev.getD idx none
          = some (round2 (1 - cosSim (validTexts sections)
            ((validTexts sections).getD pi "")
            ((validTexts sections).getD ci ""))) ∧
        m.drift_ci_low.getD idx none
          = (compute_bootstrap_ci rng (validTexts sections)
              (sections.getD (idx - 1) default)
              (sections.getD idx default)).1.map round2 ∧
        m.drift_ci_high.getD idx none
          = (compute_bootstrap_ci rng (validTexts sections)
              (sections.getD (idx - 1) default)
              (sections.getD idx default)).2.map round2) := by
  rw [build_metrics_ok rng sections m hm]
  have hproj1 : (metricsOut rng sections).drift_vs_prev
      = (List.range sections.length).map
        (fun i => (driftAt rng sections i).1) := rfl
  have hproj2 : (metricsOut rng sections).drift_ci_low
      = (List.range sections.length).map
        (fun i => (driftAt rng sections i).2.1) := rfl
  have hproj3 : (metricsOut rng sections).drift_ci_high
      = (List.range sections.length).map
        (fun i => (driftAt rng sections i).2.2) := rfl
  have hy : (metricsOut rng sections).years
      = sections.map (fun s => s.year) := rfl
  refine ⟨?_, ?_, ?_, ?_, ?_, ?_, ?_⟩
  · rw [hproj1, hy]; simp
  · rw [hproj2, hy]; simp
  · rw [hproj3, hy]; simp
  · rw [hproj1]
    rcases Nat.eq_zero_or_pos sections.length with h | h
    · rw [h]; rfl
    · rw [List.getD_eq_getElem _ _ (by simpa using h)]
      simp only [List.getElem_map, List.getElem_range]
      unfold driftAt
      rw [if_pos rfl]
  · rw [hproj2]
    rcases Nat.eq_zero_or_pos sections.length with h | h
    · rw [h]; rfl
    · rw [List.getD_eq_getElem _ _ (by simpa using h)]
      simp only [List.getElem_map, List.getElem_range]
      unfold driftAt
      rw [if_pos rfl]
  · rw [hproj3]
    rcases Nat.eq_zero_or_pos sections.length with h | h
    · rw [h]; rfl
    · rw [List.getD_eq_getElem _ _ (by simpa using h)]
      simp only [List.getElem_map, List.getElem_range]
      unfold driftAt
      rw [if_pos rfl]
  · intro idx pi ci h0 hidx hpi hci
    have hdrift : driftAt rng sections idx
        = (some (round2 (1 - cosSim (validTexts sections)
            ((validTexts sections).getD pi "")
            ((validTexts sections).getD ci ""))),
          (compute_bootstrap_ci rng (validTexts sections)
            (sections.getD (idx - 1) default)
            (sections.getD idx default)).1.map round2,
          (compute_bootstrap_ci rng (validTexts sections)
            (sections.getD (idx - 1) default)
            (sections.getD idx default)).2.map round2) := by
      unfold driftAt
      rw [if_neg h0, hpi, hci]
    refine ⟨?_, ?_, ?_⟩
    · rw [hproj1, List.getD_eq_getElem _ _ (by simpa using hidx)]
      simp only [List.getElem_map, List.getElem_range]
      rw [hdrift]
    · rw [hproj2, List.getD_eq_getElem _ _ (by simpa using hidx)]
      simp only [List.getElem_map, List.getElem_range]
      rw [hdrift]
    · rw [hproj3, List.getD_eq_getElem _ _ (by simpa using hidx)]
      simp only [List.getElem_map, List.getElem_range]
      rw [hdrift]

end SecMetrics
theorem c1_drift_arrays_witness :
    (SecMetrics.metricsOut (fun _ => 0)
        [⟨2000, "competition", ["competition"], some 1⟩,
         ⟨2001, "competition", ["cybersecurity"], some 1⟩]).drift_vs_prev.length
      = (SecMetrics.metricsOut (fun _ => 0)
        [⟨2000, "competition", ["competition"], some 1⟩,
         ⟨2001, "competition", ["cybersecurity"], some 1⟩]).years.length ∧
    (SecMetrics.metricsOut (fun _ => 0)
        [⟨2000, "competition", ["competition"], some 1⟩,
         ⟨2001, "competition", ["cybersecurity"], some 1⟩]).drift_ci_low.length
      = (SecMetrics.metricsOut (fun _ => 0)
        [⟨2000, "competition", ["competition"], some 1⟩,
         ⟨2001, "competition", ["cybersecurity"], some 1⟩]).years.length ∧
    (SecMetrics.metricsOut (fun _ => 0)
        [⟨2000, "competition", ["competition"], some 1⟩,
         ⟨2001, "competition", ["cybersecurity"], some 1⟩]).drift_ci_high.length
      = (SecMetrics.metricsOut (fun _ => 0)
        [⟨2000, "competition", ["competition"], some 1⟩,
         ⟨2001, "competition", ["cybersecurity"], some 1⟩]).years.length ∧
    (SecMetrics.metricsOut (fun _ => 0)
        [⟨2000, "competition", ["competition"], some 1⟩,
         ⟨2001, "competition", ["cybersecurity"], some 1⟩]).drift_vs_prev.getD 0 none
      = none ∧
    (SecMetrics.metricsOut (fun _ => 0)
        [⟨2000, "competition", ["competition"], some 1⟩,
         ⟨2001, "competition", ["cybersecurity"], some 1⟩]).drift_ci_low.getD 0 none
      = none ∧
    (SecMetrics.metricsOut (fun _ => 0)
        [⟨2000, "competition", ["competition"], some 1⟩,
         ⟨2001, "competition", ["cybersecurity"], some 1⟩]).drift_ci_high.getD 0 none
      = none ∧
    (∀ idx pi ci, idx ≠ 0 →
      idx < ([⟨2000, "competition", ["competition"], some 1⟩,
        ⟨2001, "competition", ["cybersecurity"], some 1⟩] :
          List SecMetrics.SectionYear).length →
      SecMetrics.lastIdxOf (SecMetrics.validYears
          [⟨2000, "competition", ["competition"], some 1⟩,
           ⟨2001, "competition", ["cybersecurity"], some 1⟩])
        (([⟨2000, "competition", ["competition"], some 1⟩,
          ⟨2001, "competition", ["cybersecurity"], some 1⟩] :
            List SecMetrics.SectionYear).getD (idx - 1) default).year
        = some pi →
      SecMetrics.lastIdxOf (SecMetrics.validYears
          [⟨2000, "competition", ["competition"], some 1⟩,
           ⟨2001, "competition", ["cybersecurity"], some 1⟩])
        (([⟨2000, "competition", ["competition"], some 1⟩,
          ⟨2001, "competition", ["cybersecurity"], some 1⟩] :
            List SecMetrics.SectionYear).getD idx default).year
        = some ci →
      (SecMetrics.metricsOut (fun _ => 0)
          [⟨2000, "competition", ["competition"], some 1⟩,
           ⟨2001, "competition", ["cybersecurity"], some 1⟩]).drift_vs_prev.getD
          idx none
          = some (round2 (1 - SecMetrics.cosSim
            (SecMetrics.validTexts
              [⟨2000, "competition", ["competition"], some 1⟩,
               ⟨2001, "competition", ["cybersecurity"], some 1⟩])
            ((SecMetrics.validTexts
              [⟨2000, "competition", ["competition"], some 1⟩,
               ⟨2001, "competition", ["cybersecurity"], some 1⟩]).getD pi "")
            ((SecMetrics.validTexts
              [⟨2000, "competition", ["competition"], some 1⟩,
               ⟨2001, "competition", ["cybersecurity"], some 1⟩]).getD ci ""))) ∧
        (SecMetrics.metricsOut (fun _ => 0)
            [⟨2000, "competition", ["competition"], some 1⟩,
             ⟨2001, "competition", ["cybersecurity"], some 1⟩]).drift_ci_low.getD
            idx none
          = (SecMetrics.compute_bootstrap_ci (fun _ => 0)
              (SecMetrics.validTexts
                [⟨2000, "competition", ["competition"], some 1⟩,
                 ⟨2001, "competition", ["cybersecurity"], some 1⟩])
              (([⟨2000, "competition", ["competition"], some 1⟩,
                ⟨2001, "competition", ["cybersecurity"], some 1⟩] :
                  List SecMetrics.SectionYear).getD (idx - 1) default)
              (([⟨2000, "competition", ["competition"], some 1⟩,
                ⟨2001, "competition", ["cybersecurity"], some 1⟩] :
                  List SecMetrics.SectionYear).getD idx default)).1.map round2 ∧
        (SecMetrics.metricsOut (fun _ => 0)
            [⟨2000, "competition", ["competition"], some 1⟩,
             ⟨2001, "competition", ["cybersecurity"], some 1⟩]).drift_ci_high.getD
            idx none
          = (SecMetrics.compute_bootstrap_ci (fun _ => 0)
              (SecMetrics.validTexts
                [⟨2000, "competition", ["competition"], some 1⟩,
                 ⟨2001, "competition", ["cybersecurity"], some 1⟩])
              (([⟨2000, "competition", ["competition"], some 1⟩,
                ⟨2001, "competition", ["cybersecurity"], some 1⟩] :
                  List SecMetrics.SectionYear).getD (idx - 1) default)
              (([⟨2000, "competition", ["competition"], some 1⟩,
                ⟨2001, "competition", ["cybersecurity"], some 1⟩] :
                  List SecMetrics.SectionYear).getD idx default)).2.map round2) :=
  SecMetrics.c1_drift_arrays (fun _ => 0)
    [⟨2000, "competition", ["competition"], some 1⟩,
     ⟨2001, "competition", ["cybersecurity"], some 1⟩]
    (SecMetrics.metricsOut (fun _ => 0)
      [⟨2000, "competition", ["competition"], some 1⟩,
       ⟨2001, "competition", ["cybersecurity"], some 1⟩])
    (by
      unfold SecMetrics.build_metrics
      rw [if_neg]
      intro h
      exact absurd h.2 (by decide))

namespace SecMetrics

theorem lastIdxOf_eq_none (l : List ℤ) (y : ℤ) (hy : y ∉ l) :
    lastIdxOf l y = none := by
  unfold lastIdxOf
  rw [List.findIdx?_eq_none_iff.mpr]
  · rfl
  · intro x hx
    simp only [beq_eq_false_iff_ne, ne_eq]
    intro hxy
    exact hy (hxy ▸ (List.mem_reverse.mp hx))

theorem validYears_mem (sections : List SectionYear) (s : SectionYear)
    (hs : s ∈ sections) (hv : is_valid_section s = true) :
    s.year ∈ validYears sections :=
  List.mem_map.mpr ⟨s, List.mem_filter.mpr ⟨hs, hv⟩, rfl⟩

theorem validYears_mem_inv (sections : List SectionYear) (s : SectionYear)
    (hnd : (sections.map (fun s => s.year)).Nodup)
    (hs : s ∈ sections) (hy : s.year ∈ validYears sections) :
    is_valid_section s = true := by
  obtain ⟨t, ht, hyt⟩ := List.mem_map.mp hy
  obtain ⟨htm, htv⟩ := List.mem_filter.mp ht
  have heq := List.inj_on_of_nodup_map hnd htm hs hyt
  rw [← heq]
  exact htv

/-- C3 (amended): a SectionYear is metrics-valid iff its stripped text is
non-empty and its confidence is absent or at least 0.5 (the exact rational
mkRat 1 2); under distinct years, a section of the input is valid iff its
year appears among the similarity payload years, and all three drift
entries at the position of an invalid section are null.  (A section whose
text is whitespace only is excluded even though its text is non-empty, and
the excerpt pipeline of sec_quality.py uses a separate validity check
based on the paragraphs list.) -/
theorem c3_validity (rng : ℕ → ℕ) (sections : List SectionYear)
    (m : MetricsOut) (hm : build_metrics rng sections = Except.ok m)
    (hnd : (sections.map (fun s => s.year)).Nodup) :
    (∀ s : SectionYear, is_valid_section s = true ↔
      (pyStrip s.text ≠ "" ∧ (s.confidence = none ∨
        ∃ c, s.confidence = some c ∧ mkRat 1 2 ≤ c))) ∧
    (∀ s ∈ sections, (is_valid_section s = true ↔ s.year ∈ m.simYears)) ∧
    (∀ idx, idx < sections.length →
      is_valid_section (sections.getD idx default) = false →
      m.drift_vs_prev.getD idx none = none ∧
      m.drift_ci_low.getD idx none = none ∧
      m.drift_ci_high.getD idx none = none) := by
  rw [build_metrics_ok rng sections m hm]
  refine ⟨?_, ?_, ?_⟩
  · intro s
    unfold is_valid_section
    split_ifs with ht
    · apply iff_of_false (by simp)
      intro hP
      exact hP.1 ht
    · rcases hc : s.confidence with _ | c
      · apply iff_of_true rfl
        exact ⟨ht, Or.inl rfl⟩
      · constructor
        · intro h
          exact ⟨ht, Or.inr ⟨c, rfl, of_decide_eq_true h⟩⟩
        · rintro ⟨h1, h2 | ⟨c2, hc2, hle⟩⟩
          · exact Option.noConfusion h2
          · injection hc2 with hcc
            exact decide_eq_true (hcc ▸ hle)
  · intro s hs
    have hys : (metricsOut rng sections).simYears = validYears sections := rfl
    rw [hys]
    constructor
    · exact validYears_mem sections s hs
    · exact validYears_mem_inv sections s hnd hs
  · intro idx hidx hinv
    have hnone : driftAt rng sections idx = (none, none, none) := by
      unfold driftAt
      by_cases h0 : idx = 0
      · rw [if_pos h0]
      · rw [if_neg h0]
        have hymem : (sections.getD idx default).year ∉ validYears sections := by
          intro hy
          have hmem : sections.getD idx default ∈ sections := by
            rw [List.getD_eq_getElem _ _ hidx]
            exact List.getElem_mem hidx
          have hvv := validYears_mem_inv sections _ hnd hmem hy
          rw [hinv] at hvv
          exact Bool.noConfusion hvv
        rw [lastIdxOf_eq_none _ _ hymem]
        rcases hp : lastIdxOf (validYears sections)
            (sections.getD (idx - 1) default).year with _ | pi <;>
          rfl
    have hproj1 : (metricsOut rng sections).drift_vs_prev
        = (List.range sections.length).map
          (fun i => (driftAt rng sections i).1) := rfl
    have hproj2 : (metricsOut rng sections).drift_ci_low
        = (List.range sections.length).map
          (fun i => (driftAt rng sections i).2.1) := rfl
    have hproj3 : (metricsOut rng sections).drift_ci_high
        = (List.range sections.length).map
          (fun i => (driftAt rng sections i).2.2) := rfl
    refine ⟨?_, ?_, ?_⟩
    · rw [hproj1, List.getD_eq_getElem _ _ (by simpa using hidx)]
      simp only [List.getElem_map, List.getElem_range]
      rw [hnone]
    · rw [hproj2, List.getD_eq_getElem _ _ (by simpa using hidx)]
      simp only [List.getElem_map, List.getElem_range]
      rw [hnone]
    · rw [hproj3, List.getD_eq_getElem _ _ (by simpa using hidx)]
      simp only [List.getElem_map, List.getElem_range]
      rw [hnone]

end SecMetrics

theorem c3_counterexample :
    (" " : String) ≠ "" ∧ mkRat 1 2 ≤ (1 : ℚ) ∧
    SecMetrics.is_valid_section ⟨2000, " ", [" "], some 1⟩ = false ∧
    ∃ m, SecMetrics.build_metrics (fun _ => 0) [⟨2000, " ", [" "], some 1⟩]
        = Except.ok m ∧ m.simYears = [] := by
  refine ⟨by decide, by decide, by decide,
    SecMetrics.metricsOut (fun _ => 0) [⟨2000, " ", [" "], some 1⟩], ?_, rfl⟩
  unfold SecMetrics.build_metrics
  rw [if_neg]
  intro h
  exact h.1 (by decide)

theorem c3_validity_witness :
    ((∀ s : SecMetrics.SectionYear, SecMetrics.is_valid_section s = true ↔
      (pyStrip s.text ≠ "" ∧ (s.confidence = none ∨
        ∃ c, s.confidence = some c ∧ mkRat 1 2 ≤ c))) ∧
    (∀ s ∈ ([⟨2000, "competition", ["competition"], some 1⟩,
        ⟨2001, "competition", ["cybersecurity"], some 1⟩] :
          List SecMetrics.SectionYear),
      (SecMetrics.is_valid_section s = true ↔
        s.year ∈ (SecMetrics.metricsOut (fun _ => 0)
          [⟨2000, "competition", ["competition"], some 1⟩,
           ⟨2001, "competition", ["cybersecurity"], some 1⟩]).simYears)) ∧
    (∀ idx, idx < ([⟨2000, "competition", ["competition"], some 1⟩,
        ⟨2001, "competition", ["cybersecurity"], some 1⟩] :
          List SecMetrics.SectionYear).length →
      SecMetrics.is_valid_section
        (([⟨2000, "competition", ["competition"], some 1⟩,
          ⟨2001, "competition", ["cybersecurity"], some 1⟩] :
            List SecMetrics.SectionYear).getD idx default) = false →
      (SecMetrics.metricsOut (fun _ => 0)
        [⟨2000, "competition", ["competition"], some 1⟩,
         ⟨2001, "competition", ["cybersecurity"], some 1⟩]).drift_vs_prev.getD
          idx none = none ∧
      (SecMetrics.metricsOut (fun _ => 0)
        [⟨2000, "competition", ["competition"], some 1⟩,
         ⟨2001, "competition", ["cybersecurity"], some 1⟩]).drift_ci_low.getD
          idx none = none ∧
      (SecMetrics.metricsOut (fun _ => 0)
        [⟨2000, "competition", ["competition"], some 1⟩,
         ⟨2001, "competition", ["cybersecurity"], some 1⟩]).drift_ci_high.getD
          idx none = none)) :=
  SecMetrics.c3_validity (fun _ => 0)
    [⟨2000, "competition", ["competition"], some 1⟩,
     ⟨2001, "competition", ["cybersecurity"], some 1⟩]
    (SecMetrics.metricsOut (fun _ => 0)
      [⟨2000, "competition", ["competition"], some 1⟩,
       ⟨2001, "competition", ["cybersecurity"], some 1⟩])
    (by
      unfold SecMetrics.build_metrics
      rw [if_neg]
      intro h
      exact absurd h.2 (by decide))
    (by decide)

namespace SecExtract

theorem clamp20_idem (s : ℤ) : clamp20 (clamp20 s) = clamp20 s := by
  unfold clamp20
  split_ifs <;> omega

theorem foldl_best_spec (cs : List ℚ) :
    ∀ c : ℚ, (cs.foldl (fun b x => if b < x then x else b) c ∈ c :: cs) ∧
      c ≤ cs.foldl (fun b x => if b < x then x else b) c ∧
      ∀ x ∈ cs, x ≤ cs.foldl (fun b x => if b < x then x else b) c := by
  induction cs with
  | nil => intro c; simp
  | cons y ys ih =>
    intro c
    obtain ⟨hmem, hle, hall⟩ := ih (if c < y then y else c)
    have hstep : (y :: ys).foldl (fun b x => if b < x then x else b) c
        = ys.foldl (fun b x => if b < x then x else b)
          (if c < y then y else c) := rfl
    rw [hstep]
    by_cases hcy : c < y
    · rw [if_pos hcy] at hmem hle hall ⊢
      refine ⟨?_, le_trans hcy.le hle, ?_⟩
      · rcases List.mem_cons.mp hmem with h | h
        · rw [h]; exact List.mem_cons.mpr (Or.inr (List.mem_cons_self y ys))
        · exact List.mem_cons.mpr (Or.inr (List.mem_cons.mpr (Or.inr h)))
      · intro x hx
        rcases List.mem_cons.mp hx with h | h
        · rw [h]; exact hle
        · exact hall x h
    · rw [if_neg hcy] at hmem hle hall ⊢
      refine ⟨?_, hle, ?_⟩
      · rcases List.mem_cons.mp hmem with h | h
        · rw [h]; exact List.mem_cons_self c (y :: ys)
        · exact List.mem_cons.mpr (Or.inr (List.mem_cons.mpr (Or.inr h)))
      · intro x hx
        rcases List.mem_cons.mp hx with h | h
        · rw [h]; exact le_trans (not_lt.mp hcy) hle
        · exact hall x h

/-- C5 (amended): when the head snippet of a candidate has at most 30
non-empty lines and an end boundary heading was found, the reported
confidence of the candidate equals the one-clamp formula of the claim with
the table-of-contents condition over the whole snippet; and the candidate
loop of extract_item1a_from_text reports the maximum candidate confidence.
In general the code caps the table-of-contents scan at the first 30
non-empty lines and applies the end-not-found penalty after a first clamp,
so the claimed formula differs on other inputs. -/
theorem c5_candidate_confidence (text : String) (start end_ docLen : ℕ)
    (endFound : Bool)
    (h30 : (nonEmptyStrippedLines (headSnippet text start end_)).length ≤ 30)
    (hend : endFound = true) :
    candidate_confidence text start end_ docLen endFound
      = claimedConfidence text start end_ docLen endFound ∧
    (∀ (l : List ℚ) (c : ℚ), bestConf l = some c →
      c ∈ l ∧ ∀ x ∈ l, x ≤ c) := by
  constructor
  · subst hend
    unfold candidate_confidence claimedConfidence score20
    have htoc : toc_cluster_penalty (headSnippet text start end_)
        = tocClusterClaimed (headSnippet text start end_) := by
      unfold toc_cluster_penalty tocClusterClaimed
      rw [List.take_of_length_le h30]
    rw [htoc]
    have h0 : (if (true : Bool) then (0 : ℤ) else -4) = 0 := rfl
    rw [h0, add_zero, add_zero, clamp20_idem]
  · intro l c hbc
    match l, hbc with
    | c0 :: cs, hbc =>
      unfold bestConf at hbc
      injection hbc with hc
      obtain ⟨hmem, _, hall⟩ := foldl_best_spec cs c0
      subst hc
      refine ⟨hmem, ?_⟩
      intro x hx
      rcases List.mem_cons.mp hx with h | h
      · exact h ▸ (foldl_best_spec cs c0).2.1
      · exact hall x h

end SecExtract
set_option maxRecDepth 8000 in
theorem c5_counterexample :
    SecExtract.tocClusterClaimed
        (SecExtract.headSnippet "zz\nzz\nzz\nzz\nzz\nzz\nzz\nzz\nzz\nzz\nzz\nzz\nzz\nzz\nzz\nzz\nzz\nzz\nzz\nzz\nzz\nzz\nzz\nzz\nzz\nzz\nzz\nzz\nzz\nzz\nzz\nitem 1\nitem 2\nitem 3\nitem 4" 0 120) = true ∧
    SecExtract.toc_cluster_penalty
        (SecExtract.headSnippet "zz\nzz\nzz\nzz\nzz\nzz\nzz\nzz\nzz\nzz\nzz\nzz\nzz\nzz\nzz\nzz\nzz\nzz\nzz\nzz\nzz\nzz\nzz\nzz\nzz\nzz\nzz\nzz\nzz\nzz\nzz\nitem 1\nitem 2\nitem 3\nitem 4" 0 120) = false ∧
    SecExtract.candidate_confidence "zz\nzz\nzz\nzz\nzz\nzz\nzz\nzz\nzz\nzz\nzz\nzz\nzz\nzz\nzz\nzz\nzz\nzz\nzz\nzz\nzz\nzz\nzz\nzz\nzz\nzz\nzz\nzz\nzz\nzz\nzz\nitem 1\nitem 2\nitem 3\nitem 4" 0 120 120 true = mkRat 2 20 ∧
    SecExtract.claimedConfidence "zz\nzz\nzz\nzz\nzz\nzz\nzz\nzz\nzz\nzz\nzz\nzz\nzz\nzz\nzz\nzz\nzz\nzz\nzz\nzz\nzz\nzz\nzz\nzz\nzz\nzz\nzz\nzz\nzz\nzz\nzz\nitem 1\nitem 2\nitem 3\nitem 4" 0 120 120 true = mkRat 1 20 := by
  refine ⟨by decide, by decide, by decide, by decide⟩

theorem c5_candidate_confidence_witness :
    ((SecExtract.nonEmptyStrippedLines
        (SecExtract.headSnippet "item 1\nitem 2" 0 13)).length ≤ 30 ∧
      (true : Bool) = true) ∧
    (SecExtract.candidate_confidence "item 1\nitem 2" 0 13 13 true
        = SecExtract.claimedConfidence "item 1\nitem 2" 0 13 13 true ∧
      (∀ (l : List ℚ) (c : ℚ), SecExtract.bestConf l = some c →
        c ∈ l ∧ ∀ x ∈ l, x ≤ c)) :=
  ⟨⟨by decide, rfl⟩,
    SecExtract.c5_candidate_confidence "item 1\nitem 2" 0 13 13 true
      (by decide) rfl⟩

namespace SecQuality

theorem scoredList_mem (paras : List String)
    (risers fallers : List (String × ℚ)) (dirTo : Bool)
    (x : ℚ × ℕ × String) (hx : x ∈ scoredList paras risers fallers dirTo) :
    x.2.1 < paras.length ∧
      x.2.2 = normalize_excerpt_text (paras.getD x.2.1 "") := by
  obtain ⟨idx, hidx, hfx⟩ := List.mem_filterMap.mp hx
  split_ifs at hfx
  all_goals first
  | exact Option.noConfusion hfx
  | (cases hfx
     exact ⟨List.mem_range.mp hidx, rfl⟩)

theorem mmrLoop_len (sims : ℕ → ℕ → ℝ) (scores : List ℚ) :
    ∀ (fuel : ℕ) (cands sel : List ℕ), sel.length ≤ 3 →
      (mmrLoop sims scores fuel cands sel).length ≤ 3 := by
  intro fuel
  induction fuel with
  | zero => intro cands sel h; exact h
  | succ n ih =>
    intro cands sel h
    unfold mmrLoop
    split_ifs with hg
    · exact h
    · match mmrPick sims scores sel cands with
      | none => exact h
      | some b =>
        apply ih
        rw [Bool.or_eq_true, not_or] at hg
        have h3 : sel.length < 3 := by
          rcases hg with ⟨_, h2⟩
          simp only [decide_eq_true_eq] at h2
          omega
        simp only [List.length_append, List.length_cons, List.length_nil]
        omega

theorem select_spec (oracle : List String → Bool × (ℕ → ℕ → ℝ))
    (paras : List String) (year : ℤ)
    (risers fallers : List (String × ℚ)) (dirTo : Bool) :
    (select_top_paragraphs oracle paras year risers fallers dirTo).length ≤ 3 ∧
    ∀ e ∈ select_top_paragraphs oracle paras year risers fallers dirTo,
      e.year = year ∧ e.paragraphIndex < paras.length ∧
      e.text = normalize_excerpt_text (paras.getD e.paragraphIndex "") := by
  unfold select_top_paragraphs
  split_ifs with h1 h2
  · exact ⟨by simp, by simp⟩
  · constructor
    · rw [List.length_map, List.length_take]
      omega
    · intro e he
      obtain ⟨x, hxt, rfl⟩ := List.mem_map.mp he
      have hxs : x ∈ (scoredList paras risers fallers dirTo).mergeSort
          scoredLe := List.mem_of_mem_take hxt
      have hxl : x ∈ scoredList paras risers fallers dirTo :=
        (List.mergeSort_perm _ _).subset hxs
      obtain ⟨hlt, htext⟩ := scoredList_mem paras risers fallers dirTo x hxl
      exact ⟨rfl, hlt, htext⟩
  · constructor
    · rw [List.length_map, (List.mergeSort_perm _ _).length_eq]
      calc ((mmrLoop _ _ 3 _ []).filterMap _).length
          ≤ (mmrLoop _ _ 3 _ []).length := List.length_filterMap_le _ _
        _ ≤ 3 := mmrLoop_len _ _ 3 _ [] (by simp)
    · intro e he
      obtain ⟨x, hxt, rfl⟩ := List.mem_map.mp he
      have hxi : x ∈ (mmrLoop _ _ 3 _ []).filterMap
          (fun i => (((scoredList paras risers fallers dirTo).mergeSort
            scoredLe)).get? i) := (List.mergeSort_perm _ _).subset hxt
      obtain ⟨i, _, hget⟩ := List.mem_filterMap.mp hxi
      have hxs : x ∈ (scoredList paras risers fallers dirTo).mergeSort
          scoredLe := List.get?_mem hget
      have hxl : x ∈ scoredList paras risers fallers dirTo :=
        (List.mergeSort_perm _ _).subset hxs
      obtain ⟨hlt, htext⟩ := scoredList_mem paras risers fallers dirTo x hxl
      exact ⟨rfl, hlt, htext⟩

/-- C7 (amended): in every emitted excerpt pair the representative
paragraphs are a to-side block followed by a from-side block of at most
MAX_PARAGRAPHS_PER_YEAR = 3 entries each, and every entry carries the
year of its side, a paragraph index that is in range for the source
SectionYear of that year, and the text
normalize_excerpt_text(paragraphs[index]) of that source paragraph: the
emitted text is the normalized form, which need not itself occur in
SectionYear.paragraphs. -/
theorem c7_excerpt_pairs (oracle : List String → Bool × (ℕ → ℕ → ℝ))
    (sections : List QSection) (shifts : List ShiftPairQ) :
    ∀ pair ∈ build_excerpt_pairs oracle sections shifts,
      ∃ toRep fromRep,
        pair.representativeParagraphs = toRep ++ fromRep ∧
        toRep.length ≤ 3 ∧ fromRep.length ≤ 3 ∧
        (toRep = [] ∨ ∃ s, sectionsByYear sections pair.toYear = some s ∧
          ∀ e ∈ toRep, e.year = pair.toYear ∧
            e.paragraphIndex < s.paragraphs.length ∧
            e.text = normalize_excerpt_text
              (s.paragraphs.getD e.paragraphIndex "")) ∧
        (fromRep = [] ∨ ∃ s, sectionsByYear sections pair.fromYear = some s ∧
          ∀ e ∈ fromRep, e.year = pair.fromYear ∧
            e.paragraphIndex < s.paragraphs.length ∧
            e.text = normalize_excerpt_text
              (s.paragraphs.getD e.paragraphIndex "")) := by
  intro pair hpair
  obtain ⟨shift, _, rfl⟩ := List.mem_map.mp hpair
  dsimp only
  by_cases hv : (q_is_valid_section (sectionsByYear sections shift.fromYear)
      && q_is_valid_section (sectionsByYear sections shift.toYear)) = true
  · rw [if_pos hv]
    rcases hts : sectionsByYear sections shift.toYear with _ | ts
    · exact ⟨[], [], rfl, by simp, by simp, Or.inl rfl, Or.inl rfl⟩
    · rcases hfs : sectionsByYear sections shift.fromYear with _ | fs2
      · exact ⟨[], [], rfl, by simp, by simp, Or.inl rfl, Or.inl rfl⟩
      · refine ⟨select_top_paragraphs oracle ts.paragraphs shift.toYear
            (compile_weighted (shift.topRisers.take 15))
            (compile_weighted (shift.topFallers.take 15)) true,
          select_top_paragraphs oracle fs2.paragraphs shift.fromYear
            (compile_weighted (shift.topRisers.take 15))
            (compile_weighted (shift.topFallers.take 15)) false,
          rfl, (select_spec _ _ _ _ _ _).1, (select_spec _ _ _ _ _ _).1,
          Or.inr ⟨ts, rfl, ?_⟩, Or.inr ⟨fs2, rfl, ?_⟩⟩
        · intro e he
          exact (select_spec _ _ _ _ _ _).2 e he
        · intro e he
          exact (select_spec _ _ _ _ _ _).2 e he
  · rw [if_neg hv]
    exact ⟨[], [], rfl, by simp, by simp, Or.inl rfl, Or.inl rfl⟩

end SecQuality

namespace SecQuality

set_option maxRecDepth 400000 in
theorem q7_norm : normalize_excerpt_text "Our business faces substantial competitive risk from new entrants,  and our results may be adversely affected by supply chain disruptions, cybersecurity incidents, regulatory changes and litigation that could materially harm our operating results." = "Our business faces substantial competitive risk from new entrants, and our results may be adversely affected by supply chain disruptions, cybersecurity incidents, regulatory changes and litigation that could materially harm our operating results." := by decide

set_option maxRecDepth 400000 in
theorem q7_count : termCount "risk" "Our business faces substantial competitive risk from new entrants, and our results may be adversely affected by supply chain disruptions, cybersecurity incidents, regulatory changes and litigation that could materially harm our operating results." = 1 := by decide

set_option maxRecDepth 400000 in
theorem q7_cand : paragraph_is_candidate "Our business faces substantial competitive risk from new entrants, and our results may be adversely affected by supply chain disruptions, cybersecurity incidents, regulatory changes and litigation that could materially harm our operating results." = true := by decide

theorem q7_ah1 : addHitsScore "Our business faces substantial competitive risk from new entrants, and our results may be adversely affected by supply chain disruptions, cybersecurity incidents, regulatory changes and litigation that could materially harm our operating results." [("risk", 3)] 1 = 3 := by
  unfold addHitsScore
  simp only [List.map_cons, List.map_nil, List.sum_cons, List.sum_nil]
  rw [q7_count]
  norm_num

theorem q7_ah2 : addHitsScore "Our business faces substantial competitive risk from new entrants, and our results may be adversely affected by supply chain disruptions, cybersecurity incidents, regulatory changes and litigation that could materially harm our operating results." [] (mkRat 1 4) = 0 := by
  unfold addHitsScore
  simp

set_option maxRecDepth 400000 in
theorem q7_hits : dedupFirst []
    (addHitsTerms "Our business faces substantial competitive risk from new entrants, and our results may be adversely affected by supply chain disruptions, cybersecurity incidents, regulatory changes and litigation that could materially harm our operating results." [("risk", 3)] ++ addHitsTerms "Our business faces substantial competitive risk from new entrants, and our results may be adversely affected by supply chain disruptions, cybersecurity incidents, regulatory changes and litigation that could materially harm our operating results." []) = ["risk"] := by
  decide

set_option maxRecDepth 400000 in
theorem q7_any : (([("risk", (3:ℚ))]).any
    (fun tw => decide (0 < termCount tw.1 "Our business faces substantial competitive risk from new entrants, and our results may be adversely affected by supply chain disruptions, cybersecurity incidents, regulatory changes and litigation that could materially harm our operating results."))) = true := by decide

theorem q7_score : score_paragraph "Our business faces substantial competitive risk from new entrants, and our results may be adversely affected by supply chain disruptions, cybersecurity incidents, regulatory changes and litigation that could materially harm our operating results." [("risk", 3)] [] true
    = (3, ["risk"]) := by
  unfold score_paragraph
  rw [q7_cand]
  rw [if_neg (by simp)]
  rw [show (if (true : Bool) then ([("risk", (3:ℚ))] : List (String × ℚ))
    else []) = [("risk", (3:ℚ))] from rfl]
  rw [show (if (true : Bool) then ([] : List (String × ℚ))
    else [("risk", (3:ℚ))]) = [] from rfl]
  rw [q7_any]
  rw [if_neg (by simp)]
  rw [q7_ah1, q7_ah2, q7_hits]
  norm_num

end SecQuality


namespace SecQuality

theorem q7_scored : scoredList ["Our business faces substantial competitive risk from new entrants,  and our results may be adversely affected by supply chain disruptions, cybersecurity incidents, regulatory changes and litigation that could materially harm our operating results."] [("risk", 3)] [] true
    = [(3, 0, "Our business faces substantial competitive risk from new entrants, and our results may be adversely affected by supply chain disruptions, cybersecurity incidents, regulatory changes and litigation that could materially harm our operating results.")] := by
  unfold scoredList
  rw [show List.range ((["Our business faces substantial competitive risk from new entrants,  and our results may be adversely affected by supply chain disruptions, cybersecurity incidents, regulatory changes and litigation that could materially harm our operating results."] : List String)).length = [0] from rfl]
  simp only [List.filterMap_cons, List.filterMap_nil]
  rw [show ((["Our business faces substantial competitive risk from new entrants,  and our results may be adversely affected by supply chain disruptions, cybersecurity incidents, regulatory changes and litigation that could materially harm our operating results."] : List String)).getD 0 "" = "Our business faces substantial competitive risk from new entrants,  and our results may be adversely affected by supply chain disruptions, cybersecurity incidents, regulatory changes and litigation that could materially harm our operating results." from rfl]
  rw [q7_norm, q7_score]
  rw [if_neg (by decide)]
  rw [if_neg (by norm_num : ¬(((3:ℚ), ["risk"]).1 ≤ 0))]

theorem q7_scored_from : scoredList ["Intro."] [("risk", 3)] [] false
    = [] := by
  unfold scoredList
  rw [show List.range ((["Intro."] : List String)).length = [0] from rfl]
  simp only [List.filterMap_cons, List.filterMap_nil]
  rw [show ((["Intro."] : List String)).getD 0 "" = "Intro." from rfl]
  rw [show normalize_excerpt_text "Intro." = "Intro." from by decide]
  rw [if_neg (by decide)]
  rw [show score_paragraph "Intro." [("risk", 3)] [] false = (0, []) from by
    unfold score_paragraph
    rw [show paragraph_is_candidate "Intro." = false from by decide]
    rw [if_pos (by simp)]]
  rw [if_pos (by norm_num : (((0:ℚ), ([] : List String)).1 ≤ 0))]

theorem q7_sort_one : ([((3:ℚ), 0, "Our business faces substantial competitive risk from new entrants, and our results may be adversely affected by supply chain disruptions, cybersecurity incidents, regulatory changes and litigation that could materially harm our operating results.")]).mergeSort scoredLe
    = [((3:ℚ), 0, "Our business faces substantial competitive risk from new entrants, and our results may be adversely affected by supply chain disruptions, cybersecurity incidents, regulatory changes and litigation that could materially harm our operating results.")] :=
  List.perm_singleton.mp (List.mergeSort_perm _ _)

theorem q7_sort_one_desc : ([((3:ℚ), 0, "Our business faces substantial competitive risk from new entrants, and our results may be adversely affected by supply chain disruptions, cybersecurity incidents, regulatory changes and litigation that could materially harm our operating results.")]).mergeSort byScoreDesc
    = [((3:ℚ), 0, "Our business faces substantial competitive risk from new entrants, and our results may be adversely affected by supply chain disruptions, cybersecurity incidents, regulatory changes and litigation that could materially harm our operating results.")] :=
  List.perm_singleton.mp (List.mergeSort_perm _ _)

theorem q7_sel_to : select_top_paragraphs (fun _ => (true, fun _ _ => 0))
    ["Our business faces substantial competitive risk from new entrants,  and our results may be adversely affected by supply chain disruptions, cybersecurity incidents, regulatory changes and litigation that could materially harm our operating results."] 2001 [("risk", 3)] [] true
    = [⟨2001, 0, "Our business faces substantial competitive risk from new entrants, and our results may be adversely affected by supply chain disruptions, cybersecurity incidents, regulatory changes and litigation that could materially harm our operating results."⟩] := by
  unfold select_top_paragraphs
  rw [q7_scored, q7_sort_one]
  rw [if_neg (by simp)]
  rw [if_neg (by simp)]
  rw [show mmrLoop (fun _ _ => (0:ℝ))
      (([((3:ℚ), 0, "Our business faces substantial competitive risk from new entrants, and our results may be adversely affected by supply chain disruptions, cybersecurity incidents, regulatory changes and litigation that could materially harm our operating results.")]).map (fun x => x.1)) 3
      (List.range (([((3:ℚ), 0, "Our business faces substantial competitive risk from new entrants, and our results may be adversely affected by supply chain disruptions, cybersecurity incidents, regulatory changes and litigation that could materially harm our operating results.")] :
        List (ℚ × ℕ × String))).length) [] = [0] from by
    unfold mmrLoop
    rw [if_neg (by decide)]
    rw [show mmrPick (fun _ _ => (0:ℝ))
        (([((3:ℚ), 0, "Our business faces substantial competitive risk from new entrants, and our results may be adversely affected by supply chain disruptions, cybersecurity incidents, regulatory changes and litigation that could materially harm our operating results.")]).map (fun x => x.1)) []
        (List.range (([((3:ℚ), 0, "Our business faces substantial competitive risk from new entrants, and our results may be adversely affected by supply chain disruptions, cybersecurity incidents, regulatory changes and litigation that could materially harm our operating results.")] :
          List (ℚ × ℕ × String))).length) = some 0 from rfl]
    unfold mmrLoop
    rw [if_pos (by decide)]
    rfl]
  rw [show (([0] : List ℕ)).filterMap
      (fun i => (([((3:ℚ), 0, "Our business faces substantial competitive risk from new entrants, and our results may be adversely affected by supply chain disruptions, cybersecurity incidents, regulatory changes and litigation that could materially harm our operating results.")] :
        List (ℚ × ℕ × String))).get? i)
      = [((3:ℚ), 0, "Our business faces substantial competitive risk from new entrants, and our results may be adversely affected by supply chain disruptions, cybersecurity incidents, regulatory changes and litigation that could materially harm our operating results.")] from rfl]
  rw [q7_sort_one_desc]
  rfl

theorem q7_sel_from : select_top_paragraphs (fun _ => (true, fun _ _ => 0))
    ["Intro."] 2000 [("risk", 3)] [] false = [] := by
  unfold select_top_paragraphs
  rw [q7_scored_from]
  rw [if_pos rfl]

end SecQuality


namespace SecQuality

set_option maxRecDepth 400000 in
theorem q7_build : build_excerpt_pairs (fun _ => (true, fun _ _ => 0))
    [⟨2000, ["Intro."], some 1⟩, ⟨2001, ["Our business faces substantial competitive risk from new entrants,  and our results may be adversely affected by supply chain disruptions, cybersecurity incidents, regulatory changes and litigation that could materially harm our operating results."], some 1⟩] [⟨2000, 2001, [⟨"risk", 3⟩], []⟩]
    = [⟨2000, 2001, ["risk"], [⟨2001, 0, "Our business faces substantial competitive risk from new entrants, and our results may be adversely affected by supply chain disruptions, cybersecurity incidents, regulatory changes and litigation that could materially harm our operating results."⟩]⟩] := by
  unfold build_excerpt_pairs
  simp only [List.map_cons, List.map_nil]
  congr 1
  congr 1
  rw [if_pos (by decide)]
  rw [show sectionsByYear [⟨2000, ["Intro."], some 1⟩, ⟨2001, ["Our business faces substantial competitive risk from new entrants,  and our results may be adversely affected by supply chain disruptions, cybersecurity incidents, regulatory changes and litigation that could materially harm our operating results."], some 1⟩] (2001 : ℤ)
      = some (⟨2001, ["Our business faces substantial competitive risk from new entrants,  and our results may be adversely affected by supply chain disruptions, cybersecurity incidents, regulatory changes and litigation that could materially harm our operating results."], some 1⟩ : QSection) from by decide]
  rw [show sectionsByYear [⟨2000, ["Intro."], some 1⟩, ⟨2001, ["Our business faces substantial competitive risk from new entrants,  and our results may be adversely affected by supply chain disruptions, cybersecurity incidents, regulatory changes and litigation that could materially harm our operating results."], some 1⟩] (2000 : ℤ)
      = some (⟨2000, ["Intro."], some 1⟩ : QSection) from by decide]
  dsimp only
  rw [show compile_weighted ((([⟨"risk", 3⟩] : List ShiftTermQ)).take 15)
      = [("risk", (3:ℚ))] from by decide]
  rw [show compile_weighted ((([] : List ShiftTermQ)).take 15)
      = ([] : List (String × ℚ)) from by decide]
  rw [q7_sel_to, q7_sel_from]
  rfl

end SecQuality

set_option maxRecDepth 400000 in
/-- C7 is refuted as stated: build_excerpt_pairs can emit a representative
paragraph whose text occurs in no paragraphs list of the input sections,
because select_top_paragraphs stores the normalize_excerpt_text form of
the source paragraph (here a double space is collapsed), not the source
paragraph itself. -/
theorem c7_counterexample :
    ∃ (pair : SecQuality.PairOut) (e : SecQuality.ExcerptPara),
      SecQuality.build_excerpt_pairs (fun _ => (true, fun _ _ => 0))
        [⟨2000, ["Intro."], some 1⟩, ⟨2001, ["Our business faces substantial competitive risk from new entrants,  and our results may be adversely affected by supply chain disruptions, cybersecurity incidents, regulatory changes and litigation that could materially harm our operating results."], some 1⟩] [⟨2000, 2001, [⟨"risk", 3⟩], []⟩] = [pair] ∧
      pair.representativeParagraphs = [e] ∧
      ∀ s ∈ ([⟨2000, ["Intro."], some 1⟩, ⟨2001, ["Our business faces substantial competitive risk from new entrants,  and our results may be adversely affected by supply chain disruptions, cybersecurity incidents, regulatory changes and litigation that could materially harm our operating results."], some 1⟩] : List SecQuality.QSection),
        e.text ∉ s.paragraphs := by
  exact ⟨⟨2000, 2001, ["risk"], [⟨2001, 0, "Our business faces substantial competitive risk from new entrants, and our results may be adversely affected by supply chain disruptions, cybersecurity incidents, regulatory changes and litigation that could materially harm our operating results."⟩]⟩, ⟨2001, 0, "Our business faces substantial competitive risk from new entrants, and our results may be adversely affected by supply chain disruptions, cybersecurity incidents, regulatory changes and litigation that could materially harm our operating results."⟩, SecQuality.q7_build, rfl, by decide⟩

/-- Witness: the amended C7 statement evaluated on the concrete input of
the counterexample, for the single emitted pair. -/
theorem c7_excerpt_pairs_witness :
    (⟨2000, 2001, ["risk"], [⟨2001, 0, "Our business faces substantial competitive risk from new entrants, and our results may be adversely affected by supply chain disruptions, cybersecurity incidents, regulatory changes and litigation that could materially harm our operating results."⟩]⟩ : SecQuality.PairOut) ∈
      SecQuality.build_excerpt_pairs (fun _ => (true, fun _ _ => 0))
        [⟨2000, ["Intro."], some 1⟩, ⟨2001, ["Our business faces substantial competitive risk from new entrants,  and our results may be adversely affected by supply chain disruptions, cybersecurity incidents, regulatory changes and litigation that could materially harm our operating results."], some 1⟩] [⟨2000, 2001, [⟨"risk", 3⟩], []⟩] ∧
    ∃ toRep fromRep,
      ([⟨2001, 0, "Our business faces substantial competitive risk from new entrants, and our results may be adversely affected by supply chain disruptions, cybersecurity incidents, regulatory changes and litigation that could materially harm our operating results."⟩] : List SecQuality.ExcerptPara) = toRep ++ fromRep ∧
      toRep.length ≤ 3 ∧ fromRep.length ≤ 3 ∧
      (toRep = [] ∨ ∃ s, SecQuality.sectionsByYear
          ([⟨2000, ["Intro."], some 1⟩, ⟨2001, ["Our business faces substantial competitive risk from new entrants,  and our results may be adversely affected by supply chain disruptions, cybersecurity incidents, regulatory changes and litigation that could materially harm our operating results."], some 1⟩] : List SecQuality.QSection) 2001 = some s ∧
        ∀ e ∈ toRep, e.year = 2001 ∧
          e.paragraphIndex < s.paragraphs.length ∧
          e.text = SecQuality.normalize_excerpt_text
            (s.paragraphs.getD e.paragraphIndex "")) ∧
      (fromRep = [] ∨ ∃ s, SecQuality.sectionsByYear
          ([⟨2000, ["Intro."], some 1⟩, ⟨2001, ["Our business faces substantial competitive risk from new entrants,  and our results may be adversely affected by supply chain disruptions, cybersecurity incidents, regulatory changes and litigation that could materially harm our operating results."], some 1⟩] : List SecQuality.QSection) 2000 = some s ∧
        ∀ e ∈ fromRep, e.year = 2000 ∧
          e.paragraphIndex < s.paragraphs.length ∧
          e.text = SecQuality.normalize_excerpt_text
            (s.paragraphs.getD e.paragraphIndex "")) := by
  have hmem : (⟨2000, 2001, ["risk"], [⟨2001, 0, "Our business faces substantial competitive risk from new entrants, and our results may be adversely affected by supply chain disruptions, cybersecurity incidents, regulatory changes and litigation that could materially harm our operating results."⟩]⟩ : SecQuality.PairOut) ∈
      SecQuality.build_excerpt_pairs (fun _ => (true, fun _ _ => 0))
        [⟨2000, ["Intro."], some 1⟩, ⟨2001, ["Our business faces substantial competitive risk from new entrants,  and our results may be adversely affected by supply chain disruptions, cybersecurity incidents, regulatory changes and litigation that could materially harm our operating results."], some 1⟩] [⟨2000, 2001, [⟨"risk", 3⟩], []⟩] := by
    rw [SecQuality.q7_build]
    exact List.mem_singleton.mpr rfl
  exact ⟨hmem, SecQuality.c7_excerpt_pairs (fun _ => (true, fun _ _ => 0))
    [⟨2000, ["Intro."], some 1⟩, ⟨2001, ["Our business faces substantial competitive risk from new entrants,  and our results may be adversely affected by supply chain disruptions, cybersecurity incidents, regulatory changes and litigation that could materially harm our operating results."], some 1⟩] [⟨2000, 2001, [⟨"risk", 3⟩], []⟩] ⟨2000, 2001, ["risk"], [⟨2001, 0, "Our business faces substantial competitive risk from new entrants, and our results may be adversely affected by supply chain disruptions, cybersecurity incidents, regulatory changes and litigation that could materially harm our operating results."⟩]⟩ hmem⟩

